import Mathlib

/-!
TrenchBroom: the entity property store, the link graph and the rotation policy.

A shallow embedding of `Source/Model/Entity.cpp`: the property mutation path
`Entity::setProperty`, the re-parenting operation `Entity::setMap`, and the four
adjacency lists (link targets, link sources, kill targets, kill sources) they maintain;
the mutability tables with `removeProperty` and `renameProperty`; the rotation policy
`rotationInfo` with `applyRotation`, `rotate90`, `rotate` and `flip`, over a floating-point
arithmetic that is a parameter; the usage counts of the definitions; the cached bounds and
center with `validateGeometry`; `pick`; and the constructors with `init`. `Brush`, whose
tests are among the sources, is modelled from the spec; `FloatPointsIssueGenerator::generate`
of `src/Model/FloatPointsIssueGenerator.cpp` runs over its faces.

Entities live on a heap and refer to each other by address, so the embedding passes the
heap explicitly: an `Entity&` is an `EntityId`, and every member function takes the heap
(or the whole `World`) together with the address of `this`, written `self`.
-/

namespace TrenchBroom

/-! ## Outcomes of a call -/

/-- What a call of a member function can do: run to completion with a new state, never
leave one of its loops, or run into behaviour the language leaves undefined (a null
pointer dereference, an iterator used with a container it does not belong to). -/
inductive Outcome (α : Type) where
  | returns (a : α) : Outcome α
  | diverges : Outcome α
  | undefined : Outcome α

/-- Sequencing: the continuation runs only when the first part returned. -/
def Outcome.bind {α β : Type} : Outcome α → (α → Outcome β) → Outcome β
  | .returns a, f => f a
  | .diverges, _ => .diverges
  | .undefined, _ => .undefined

/-- The result of a call that returned; the given state otherwise. -/
def Outcome.get {α : Type} (o : Outcome α) (d : α) : α :=
  match o with
  | .returns a => a
  | .diverges => d
  | .undefined => d

namespace Utility

/-- Modelled from the spec: `Utility::erase` of `Utility/List.h`, which is not among the
sources. "Remove self from their inbound link-source list": every occurrence of the element
is removed and the other entries keep their order (the erase-remove idiom that
`Entity::removeBrush` spells out). -/
def erase (list : List Nat) (element : Nat) : List Nat :=
  list.filter (fun x => x ≠ element)

end Utility

namespace Model

/-- Address of an `Entity` object. -/
abbrev EntityId := Nat

/-- Address of a `Map` object (the registry an entity is attached to). -/
abbrev MapId := Nat

/-- Address of an `EntityDefinition` object. -/
abbrev DefinitionId := Nat

/-- Address of a `Brush` object. -/
abbrev BrushId := Nat

abbrev PropertyKey := String

abbrev PropertyValue := String

abbrev EntityList := List EntityId

abbrev StringList := List String

abbrev ClassnameKey : PropertyKey := "classname"

abbrev SpawnFlagsKey : PropertyKey := "spawnflags"

abbrev WorldspawnClassname : PropertyValue := "worldspawn"

abbrev OriginKey : PropertyKey := "origin"

abbrev ModKey : PropertyKey := "_mod"

abbrev TargetKey : PropertyKey := "target"

abbrev KillTargetKey : PropertyKey := "killtarget"

abbrev TargetnameKey : PropertyKey := "targetname"

abbrev WadKey : PropertyKey := "wad"

abbrev DefKey : PropertyKey := "_def"

abbrev FacePointFormatKey : PropertyKey := "_point_format"

/-! ## Property store -/

/-- One key/value pair of the property store. -/
structure Property where
  key : PropertyKey
  value : PropertyValue
deriving DecidableEq, Repr

abbrev PropertyList := List Property

namespace PropertyStore

/-- Modelled from the spec: `PropertyStore::propertyValue` (the class is declared outside the
sources). The store is an ordered mapping from key to value; the lookup gives the value of
the key, or nothing (a null pointer) when the key is absent. -/
def propertyValue : PropertyList → PropertyKey → Option PropertyValue
  | [], _ => none
  | p :: rest, key => if p.key = key then some p.value else propertyValue rest key

/-- Modelled from the spec: `PropertyStore::setPropertyValue`. "Insertion order preserved",
"keys unique": the value of a key already present is replaced in place, a new key is
appended at the end. -/
def setPropertyValue : PropertyList → PropertyKey → PropertyValue → PropertyList
  | [], key, value => [{ key := key, value := value }]
  | p :: rest, key, value =>
    if p.key = key then { key := key, value := value } :: rest
    else p :: setPropertyValue rest key value

/-- Modelled from the spec: `PropertyStore::removeProperty`. The key is removed, the other
properties keep their order. -/
def removeProperty (ps : PropertyList) (key : PropertyKey) : PropertyList :=
  ps.filter (fun p => p.key ≠ key)

/-- Modelled from the spec: `PropertyStore::containsProperty`. -/
def containsProperty (ps : PropertyList) (key : PropertyKey) : Bool :=
  (propertyValue ps key).isSome

/-- The invariant "keys unique" of the property store. -/
def KeysUnique (ps : PropertyList) : Prop :=
  (ps.map Property.key).Nodup

end PropertyStore

/-! ## Numbered properties -/

/-- Remove the base name from the front of a key; nothing when the key does not start with
the base name. -/
def dropBase : List Char → List Char → Option (List Char)
  | [], key => some key
  | _ :: _, [] => none
  | b :: base, k :: key => if b = k then dropBase base key else none

/-- The number a string of decimal digits denotes. -/
def digitsValue (cs : List Char) : Nat :=
  cs.foldl (fun n c => 10 * n + (c.toNat - 48)) 0

/-- Modelled from the spec: `Entity::isNumberedProperty`, declared outside the sources.
"A key matches the numbered pattern for a base name if it equals the base name, or equals
the base name followed by a positive integer suffix with no other characters." -/
def isNumberedProperty (base : String) (key : PropertyKey) : Bool :=
  match dropBase base.data key.data with
  | none => false
  | some [] => true
  | some suffix => suffix.all Char.isDigit && decide (0 < digitsValue suffix)

/-! ## Entities, registries, the world -/

/-- The members of `Entity` that property mutation, re-parenting and the rotation policy read
or write. -/
structure Entity where
  m_map : Option MapId := none
  m_worldspawn : Bool := false
  m_definition : Option DefinitionId := none
  m_propertyStore : PropertyList := []
  m_linkTargets : EntityList := []
  m_linkSources : EntityList := []
  m_killTargets : EntityList := []
  m_killSources : EntityList := []
  m_geometryValid : Bool := false
  m_brushes : List BrushId := []

/-- The heap of entity objects. -/
abbrev Heap := EntityId → Entity

/-- Modelled from the spec: the lookups of the registry (`Map`, declared outside the
sources): `entitiesWithTargetname(name)`, `entitiesWithTarget(name)` and
`entitiesWithKillTarget(name)`, each giving a list of entities. What the lists hold is the
business of the registry, so each lookup is an arbitrary function of the name. -/
structure Map where
  entitiesWithTargetname : String → EntityList
  entitiesWithTarget : String → EntityList
  entitiesWithKillTarget : String → EntityList

/-- Modelled from the spec: the notifications `updateEntityTarget`, `updateEntityKillTarget`
and `updateEntityTargetname(entity, newValue, oldValue)` of the registry, "fire-and-forget,
registry may ignore": how a registry re-indexes is its own business, so each is an arbitrary
function from the registry and the arguments to the new registry. -/
structure MapUpdates where
  updateEntityTarget : Map → EntityId → Option PropertyValue → Option PropertyValue → Map
  updateEntityKillTarget : Map → EntityId → Option PropertyValue → Option PropertyValue → Map
  updateEntityTargetname : Map → EntityId → Option PropertyValue → Option PropertyValue → Map

/-- Modelled from the spec: `EntityDefinition::Type`, the answer of `type()`: a definition
"classifies the entity as brush vs point type". -/
inductive EntityDefinitionType where
  | PointEntity
  | BrushEntity
deriving DecidableEq, Repr

/-- Modelled from the spec: the usage count of an `EntityDefinition` ("definitions support
reference counting (increment/decrement usage)") and its type. -/
structure EntityDefinition where
  m_usageCount : Int := 0
  m_type : EntityDefinitionType := EntityDefinitionType.PointEntity

/-- Everything a call can reach: the entities, the registries and the definitions. -/
structure World where
  entities : Heap
  maps : MapId → Map
  definitions : DefinitionId → EntityDefinition

/-- `propertyForKey(key)`: the value of the key in the entity's store, or null. -/
def propertyForKey (e : Entity) (key : PropertyKey) : Option PropertyValue :=
  PropertyStore.propertyValue e.m_propertyStore key

/-- `classname()`: the value of the classname property, or null. -/
def classname (e : Entity) : Option PropertyValue :=
  propertyForKey e ClassnameKey

/-! ## The one-sided list edits (`Entity.cpp`, lines 54 to 84) -/

def addLinkTarget (h : Heap) (self entity : EntityId) : Heap :=
  Function.update h self { h self with m_linkTargets := (h self).m_linkTargets ++ [entity] }

def removeLinkTarget (h : Heap) (self entity : EntityId) : Heap :=
  Function.update h self { h self with m_linkTargets := Utility.erase (h self).m_linkTargets entity }

def addLinkSource (h : Heap) (self entity : EntityId) : Heap :=
  Function.update h self { h self with m_linkSources := (h self).m_linkSources ++ [entity] }

def removeLinkSource (h : Heap) (self entity : EntityId) : Heap :=
  Function.update h self { h self with m_linkSources := Utility.erase (h self).m_linkSources entity }

def addKillTarget (h : Heap) (self entity : EntityId) : Heap :=
  Function.update h self { h self with m_killTargets := (h self).m_killTargets ++ [entity] }

def removeKillTarget (h : Heap) (self entity : EntityId) : Heap :=
  Function.update h self { h self with m_killTargets := Utility.erase (h self).m_killTargets entity }

def addKillSource (h : Heap) (self entity : EntityId) : Heap :=
  Function.update h self { h self with m_killSources := (h self).m_killSources ++ [entity] }

def removeKillSource (h : Heap) (self entity : EntityId) : Heap :=
  Function.update h self { h self with m_killSources := Utility.erase (h self).m_killSources entity }

/-- `linkTargetnames()`: the values of the numbered target properties, in store order. -/
def linkTargetnames (e : Entity) : StringList :=
  (e.m_propertyStore.filter (fun p => isNumberedProperty TargetKey p.key)).map Property.value

/-- `killTargetnames()`: the values of the numbered killtarget properties, in store order. -/
def killTargetnames (e : Entity) : StringList :=
  (e.m_propertyStore.filter (fun p => isNumberedProperty KillTargetKey p.key)).map Property.value

/-! ## The loops of `setMap` and `setProperty` -/

/-- Lines 300 to 304: remove `self` from the link sources of each of its link targets, then
clear the link targets. -/
def unlinkLinkTargets (h : Heap) (self : EntityId) : Heap :=
  let h1 := (h self).m_linkTargets.foldl (fun acc entity => removeLinkSource acc entity self) h
  Function.update h1 self { h1 self with m_linkTargets := [] }

/-- Lines 306 to 310 (and 459 to 463): remove `self` from the link targets of each of its
link sources, then clear the link sources. -/
def unlinkLinkSources (h : Heap) (self : EntityId) : Heap :=
  let h1 := (h self).m_linkSources.foldl (fun acc entity => removeLinkTarget acc entity self) h
  Function.update h1 self { h1 self with m_linkSources := [] }

/-- Lines 312 to 316. -/
def unlinkKillTargets (h : Heap) (self : EntityId) : Heap :=
  let h1 := (h self).m_killTargets.foldl (fun acc entity => removeKillSource acc entity self) h
  Function.update h1 self { h1 self with m_killTargets := [] }

/-- Lines 318 to 322 (and 466 to 470). -/
def unlinkKillSources (h : Heap) (self : EntityId) : Heap :=
  let h1 := (h self).m_killSources.foldl (fun acc entity => removeKillTarget acc entity self) h
  Function.update h1 self { h1 self with m_killSources := [] }

/-- Lines 328 to 333: for each name, append the registry's entities with that targetname to
the link targets of `self`. -/
def insertLinkTargets (h : Heap) (self : EntityId) (map : Map) (names : StringList) : Heap :=
  names.foldl (fun acc targetname =>
    Function.update acc self
      { acc self with m_linkTargets := (acc self).m_linkTargets ++ map.entitiesWithTargetname targetname })
    h

/-- Lines 334 to 337: add `self` to the link sources of each of its link targets. -/
def registerLinkTargets (h : Heap) (self : EntityId) : Heap :=
  (h self).m_linkTargets.foldl (fun acc target => addLinkSource acc target self) h

/-- Lines 339 to 344. -/
def insertKillTargets (h : Heap) (self : EntityId) (map : Map) (names : StringList) : Heap :=
  names.foldl (fun acc targetname =>
    Function.update acc self
      { acc self with m_killTargets := (acc self).m_killTargets ++ map.entitiesWithTargetname targetname })
    h

/-- Lines 345 to 348. -/
def registerKillTargets (h : Heap) (self : EntityId) : Heap :=
  (h self).m_killTargets.foldl (fun acc target => addKillSource acc target self) h

/-- Lines 353 to 357 (and 476 to 480): each source gets `self` as a link target and is
pushed onto the link sources of `self`. -/
def relinkLinkSources (h : Heap) (self : EntityId) (linkSources : EntityList) : Heap :=
  linkSources.foldl (fun acc source =>
    let acc1 := addLinkTarget acc source self
    Function.update acc1 self { acc1 self with m_linkSources := (acc1 self).m_linkSources ++ [source] })
    h

/-- Lines 360 to 364 (and 483 to 487). -/
def relinkKillSources (h : Heap) (self : EntityId) (killSources : EntityList) : Heap :=
  killSources.foldl (fun acc source =>
    let acc1 := addKillTarget acc source self
    Function.update acc1 self { acc1 self with m_killSources := (acc1 self).m_killSources ++ [source] })
    h

/-- Lines 412 to 416: each target gets `self` as a link source and is pushed onto the link
targets of `self`. -/
def createLinkTargets (h : Heap) (self : EntityId) (targets : EntityList) : Heap :=
  targets.foldl (fun acc entity =>
    let acc1 := addLinkSource acc entity self
    Function.update acc1 self { acc1 self with m_linkTargets := (acc1 self).m_linkTargets ++ [entity] })
    h

/-- Lines 446 to 450. -/
def createKillTargets (h : Heap) (self : EntityId) (targets : EntityList) : Heap :=
  targets.foldl (fun acc entity =>
    let acc1 := addKillSource acc entity self
    Function.update acc1 self { acc1 self with m_killTargets := (acc1 self).m_killTargets ++ [entity] })
    h

/-- Lines 390 to 404, the loop that severs the links to the old target. The iterator is never
advanced, it only ever stands at the front of the list: the first argument is the link-target
list of `self` as the loop sees it. A front entry without targetname is erased; a front entry
whose targetname is the old value loses `self` as a link source and is erased; at any other
front entry the body changes nothing and the condition stays true, so the loop is never
left. -/
def severLinkTargets (self : EntityId) (oldValue : PropertyValue) : EntityList → Heap → Outcome Heap
  | [], h => .returns h
  | target :: rest, h =>
    match propertyForKey (h target) TargetnameKey with
    | none =>
      severLinkTargets self oldValue rest
        (Function.update h self { h self with m_linkTargets := rest })
    | some targetname =>
      if targetname = oldValue then
        let h1 := removeLinkSource h target self
        severLinkTargets self oldValue rest
          (Function.update h1 self { h1 self with m_linkTargets := rest })
      else .diverges

/-! ## setMap (lines 293 to 367) -/

def setMap (w : World) (self : EntityId) (map : Option MapId) : World :=
  if (w.entities self).m_map = map then w
  else
    let h := Function.update w.entities self { w.entities self with m_map := map }
    let h := unlinkLinkTargets h self
    let h := unlinkLinkSources h self
    let h := unlinkKillTargets h self
    let h := unlinkKillSources h self
    match map with
    | none => { w with entities := h }
    | some m =>
      let h := insertLinkTargets h self (w.maps m) (linkTargetnames (h self))
      let h := registerLinkTargets h self
      let h := insertKillTargets h self (w.maps m) (killTargetnames (h self))
      let h := registerKillTargets h self
      match propertyForKey (h self) TargetnameKey with
      | none => { w with entities := h }
      | some targetname =>
        if targetname ≠ "" then
          let h := relinkLinkSources h self ((w.maps m).entitiesWithTarget targetname)
          let h := relinkKillSources h self ((w.maps m).entitiesWithKillTarget targetname)
          { w with entities := h }
        else { w with entities := h }

/-! ## setProperty (lines 373 to 499) -/

/-- Modelled from the spec: `invalidateGeometry()`, declared outside the sources: the cached
bounds and center are marked invalid. -/
def invalidateGeometry (h : Heap) (self : EntityId) : Heap :=
  Function.update h self { h self with m_geometryValid := false }

/-- Modelled from the spec: `EntityDefinition::decUsageCount`. -/
def decUsageCount (d : EntityDefinition) : EntityDefinition :=
  { d with m_usageCount := d.m_usageCount - 1 }

/-- Modelled from the spec: `EntityDefinition::incUsageCount`. -/
def incUsageCount (d : EntityDefinition) : EntityDefinition :=
  { d with m_usageCount := d.m_usageCount + 1 }

/-- `setDefinition(definition)`, lines 662 to 669. -/
def setDefinition (w : World) (self : EntityId) (definition : Option DefinitionId) : World :=
  let defs1 := match (w.entities self).m_definition with
    | some d => Function.update w.definitions d (decUsageCount (w.definitions d))
    | none => w.definitions
  let h1 := Function.update w.entities self { w.entities self with m_definition := definition }
  let defs2 := match definition with
    | some d => Function.update defs1 d (incUsageCount (defs1 d))
    | none => defs1
  { w with entities := invalidateGeometry h1 self, definitions := defs2 }

/-- Lines 380 to 385. The pointer comparison `value != classname()` is reached only after the
two early returns, with `classname()` the same pointer as `oldValue`, where it can only be
true; `*value` dereferences the new value, which is undefined when the value is null. -/
def classnameChanged (w : World) (self : EntityId) (key : PropertyKey)
    (value : Option PropertyValue) : Outcome World :=
  if key = ClassnameKey then
    if value ≠ classname (w.entities self) then
      match value with
      | none => .undefined
      | some v =>
        let h := Function.update w.entities self
          { w.entities self with m_worldspawn := decide (v = WorldspawnClassname) }
        .returns (setDefinition { w with entities := h } self none)
    else .returns w
  else .returns w

/-- Lines 389 to 405: the links to the old target are severed when the old value is present
and not empty. -/
def severOldTarget (h : Heap) (self : EntityId) (oldValue : Option PropertyValue) :
    Outcome Heap :=
  match oldValue with
  | some old =>
    if old ≠ "" then severLinkTargets self old (h self).m_linkTargets h
    else .returns h
  | none => .returns h

/-- Lines 407 to 420: when attached to a registry, the links to the new target are created
(for a value that is present and not empty) and the registry is notified. -/
def linkNewTarget (u : MapUpdates) (w : World) (h : Heap) (self : EntityId)
    (value oldValue : Option PropertyValue) : World :=
  match (h self).m_map with
  | none => { w with entities := h }
  | some m =>
    let h1 := match value with
      | some v =>
        if v ≠ "" then createLinkTargets h self ((w.maps m).entitiesWithTargetname v) else h
      | none => h
    { w with
      entities := h1
      maps := Function.update w.maps m (u.updateEntityTarget (w.maps m) self value oldValue) }

/-- Lines 388 to 420, the branch of a numbered target key. -/
def targetChanged (u : MapUpdates) (w : World) (self : EntityId)
    (value oldValue : Option PropertyValue) : Outcome World :=
  (severOldTarget w.entities self oldValue).bind fun h =>
    .returns (linkNewTarget u w h self value oldValue)

/-- Lines 423 to 439. The loop that severs the old links takes its iterator from
`m_linkTargets.begin()`, compares it with `m_killTargets.end()` and hands it to
`m_killTargets.erase`: an iterator of one container used with another, which is undefined. -/
def severOldKillTarget (h : Heap) (oldValue : Option PropertyValue) : Outcome Heap :=
  match oldValue with
  | some old => if old ≠ "" then .undefined else .returns h
  | none => .returns h

/-- Lines 441 to 454. -/
def linkNewKillTarget (u : MapUpdates) (w : World) (h : Heap) (self : EntityId)
    (value oldValue : Option PropertyValue) : World :=
  match (h self).m_map with
  | none => { w with entities := h }
  | some m =>
    let h1 := match value with
      | some v =>
        if v ≠ "" then createKillTargets h self ((w.maps m).entitiesWithTargetname v) else h
      | none => h
    { w with
      entities := h1
      maps := Function.update w.maps m (u.updateEntityKillTarget (w.maps m) self value oldValue) }

/-- Lines 422 to 454, the branch of a numbered killtarget key. -/
def killTargetChanged (u : MapUpdates) (w : World) (self : EntityId)
    (value oldValue : Option PropertyValue) : Outcome World :=
  (severOldKillTarget w.entities oldValue).bind fun h =>
    .returns (linkNewKillTarget u w h self value oldValue)

/-- Lines 472 to 491: when attached to a registry, the links from everything that targets or
kill-targets the new name are created (for a value that is present and not empty) and the
registry is notified. -/
def linkNewTargetname (u : MapUpdates) (w : World) (h : Heap) (self : EntityId)
    (value oldValue : Option PropertyValue) : World :=
  match (h self).m_map with
  | none => { w with entities := h }
  | some m =>
    let h1 := match value with
      | some v =>
        if v ≠ "" then
          let h2 := relinkLinkSources h self ((w.maps m).entitiesWithTarget v)
          relinkKillSources h2 self ((w.maps m).entitiesWithKillTarget v)
        else h
      | none => h
    { w with
      entities := h1
      maps := Function.update w.maps m (u.updateEntityTargetname (w.maps m) self value oldValue) }

/-- Lines 456 to 491, the branch of the targetname key. -/
def targetnameChanged (u : MapUpdates) (w : World) (self : EntityId)
    (value oldValue : Option PropertyValue) : World :=
  let h := unlinkLinkSources w.entities self
  let h := unlinkKillSources h self
  linkNewTargetname u w h self value oldValue

/-- Lines 387, 421 and 455: the choice between the three link branches. -/
def linksChanged (u : MapUpdates) (w : World) (self : EntityId) (key : PropertyKey)
    (value oldValue : Option PropertyValue) : Outcome World :=
  if isNumberedProperty TargetKey key then targetChanged u w self value oldValue
  else if isNumberedProperty KillTargetKey key then killTargetChanged u w self value oldValue
  else if key = TargetnameKey then .returns (targetnameChanged u w self value oldValue)
  else .returns w

/-- Lines 494 to 497: a null value removes the property, any other value is set. -/
def applyValue (ps : PropertyList) (key : PropertyKey) (value : Option PropertyValue) :
    PropertyList :=
  match value with
  | none => PropertyStore.removeProperty ps key
  | some v => PropertyStore.setPropertyValue ps key v

/-- Lines 494 to 498: the value is applied to the store and the geometry is invalidated. -/
def storeValue (w : World) (self : EntityId) (key : PropertyKey)
    (value : Option PropertyValue) : World :=
  let store := applyValue (w.entities self).m_propertyStore key value
  let h := Function.update w.entities self { w.entities self with m_propertyStore := store }
  { w with entities := invalidateGeometry h self }

/-- `setProperty(key, value)` with the value given by pointer, lines 373 to 499. The two early
returns (same pointer, or both present with equal content) are one test on the contents: a
pointer into the store that equals `oldValue` has its content. -/
def setProperty (u : MapUpdates) (w : World) (self : EntityId) (key : PropertyKey)
    (value : Option PropertyValue) : Outcome World :=
  let oldValue := propertyForKey (w.entities self) key
  if oldValue = value then .returns w
  else
    (classnameChanged w self key value).bind fun w1 =>
    (linksChanged u w1 self key value oldValue).bind fun w2 =>
    .returns (storeValue w2 self key value)

/-! ## Notions the theorems are stated with -/

/-- The entities `setProperty` links for a new value of a target or killtarget key: the
registry's `entitiesWithTargetname(value)` when the entity is attached and the value is
present and not empty, and none otherwise. -/
def newTargets (w : World) (map : Option MapId) (value : Option PropertyValue) : EntityList :=
  match map, value with
  | some m, some v => if v = "" then [] else (w.maps m).entitiesWithTargetname v
  | _, _ => []


/-- The adjacency lists are symmetric: `x` is a link target of `e` exactly when `e` is a link
source of `x`, and likewise for kill targets and kill sources. -/
def Symmetric (h : Heap) : Prop :=
  ∀ e x : EntityId,
    (x ∈ (h e).m_linkTargets ↔ e ∈ (h x).m_linkSources) ∧
    (x ∈ (h e).m_killTargets ↔ e ∈ (h x).m_killSources)

/-! ## Example worlds -/

/-- A registry whose notifications leave it as it is. -/
def quietUpdates : MapUpdates where
  updateEntityTarget := fun m _ _ _ => m
  updateEntityKillTarget := fun m _ _ _ => m
  updateEntityTargetname := fun m _ _ _ => m

/-- A registry that knows entity 1 under the targetname "a", entity 2 under the targetname
"b", entity 0 as the one that targets "a", and entity 3 as one that targets both "b" and
"c". -/
def exampleMap : Map where
  entitiesWithTargetname := fun n => if n = "a" then [1] else if n = "b" then [2] else []
  entitiesWithTarget := fun n =>
    if n = "a" then [0] else if n = "b" then [3] else if n = "c" then [3] else []
  entitiesWithKillTarget := fun _ => []

/-- Entity 0 has the property target = "a" and is linked to entity 1, which has no
targetname: a symmetric state with a stale link. No entity is attached to a registry. -/
def staleWorld : World where
  entities := fun i =>
    match i with
    | 0 => { m_propertyStore := [{ key := "target", value := "a" }], m_linkTargets := [1] }
    | 1 => { m_linkSources := [0] }
    | _ => {}
  maps := fun _ => exampleMap
  definitions := fun _ => {}

/-- Entity 0 (attached to registry 0) targets "a" and is linked to entity 1, whose targetname
is "a"; entity 2 has the targetname "b" and is the link target of entity 3, which targets
"b" and, with a second property, "c". -/
def linkedWorld : World where
  entities := fun i =>
    match i with
    | 0 => { m_map := some 0, m_propertyStore := [{ key := "target", value := "a" }],
             m_linkTargets := [1] }
    | 1 => { m_map := some 0, m_propertyStore := [{ key := "targetname", value := "a" }],
             m_linkSources := [0] }
    | 2 => { m_map := some 0, m_propertyStore := [{ key := "targetname", value := "b" }],
             m_linkSources := [3] }
    | 3 => { m_map := some 0,
             m_propertyStore := [{ key := "target", value := "b" }, { key := "target2", value := "c" }],
             m_linkTargets := [2] }
    | _ => {}
  maps := fun _ => exampleMap
  definitions := fun _ => {}

/-- Entity 1 has the targetname "a" and lists entity 0 as a link source, but entity 0, which
targets "a", does not list entity 1 as a link target: a state that is not symmetric. -/
def danglingWorld : World where
  entities := fun i =>
    match i with
    | 0 => { m_propertyStore := [{ key := "target", value := "a" }] }
    | 1 => { m_propertyStore := [{ key := "targetname", value := "a" }], m_linkSources := [0] }
    | _ => {}
  maps := fun _ => exampleMap
  definitions := fun _ => {}

/-- A registry that files entity 1 under the targetname "b". -/
def misfiledMap : Map where
  entitiesWithTargetname := fun n => if n = "b" then [1] else []
  entitiesWithTarget := fun _ => []
  entitiesWithKillTarget := fun _ => []

/-- Entity 0 targets "a" and is linked to entity 1, whose targetname is "a"; the registry
entity 0 is attached to files entity 1 under "b". -/
def misfiledWorld : World where
  entities := fun i =>
    match i with
    | 0 => { m_map := some 0, m_propertyStore := [{ key := "target", value := "a" }],
             m_linkTargets := [1] }
    | 1 => { m_map := some 0, m_propertyStore := [{ key := "targetname", value := "a" }],
             m_linkSources := [0] }
    | _ => {}
  maps := fun _ => misfiledMap
  definitions := fun _ => {}

/-- Entity 0 (attached) kill-targets "a" and is linked to entity 1, whose targetname is
"a". -/
def killWorld : World where
  entities := fun i =>
    match i with
    | 0 => { m_map := some 0, m_propertyStore := [{ key := "killtarget", value := "a" }],
             m_killTargets := [1] }
    | 1 => { m_map := some 0, m_propertyStore := [{ key := "targetname", value := "a" }],
             m_killSources := [0] }
    | _ => {}
  maps := fun _ => exampleMap
  definitions := fun _ => {}

/-- A registry that knows entity 1 under the empty targetname. -/
def emptyNameMap : Map where
  entitiesWithTargetname := fun n => if n = "" then [1] else []
  entitiesWithTarget := fun _ => []
  entitiesWithKillTarget := fun _ => []

/-- Entity 0 is detached and has the property target = "" (present, empty); entity 1 has the
empty targetname. Nothing is linked. -/
def emptyNameWorld : World where
  entities := fun i =>
    match i with
    | 0 => { m_propertyStore := [{ key := "target", value := "" }] }
    | 1 => { m_map := some 0, m_propertyStore := [{ key := "targetname", value := "" }] }
    | _ => {}
  maps := fun _ => emptyNameMap
  definitions := fun _ => {}

/-- The same entities with entity 0 attached and without its target property. -/
def emptyNameAttached : World where
  entities := fun i =>
    match i with
    | 0 => { m_map := some 0 }
    | 1 => { m_map := some 0, m_propertyStore := [{ key := "targetname", value := "" }] }
    | _ => {}
  maps := fun _ => emptyNameMap
  definitions := fun _ => {}

/-- A registry that knows entity 0 both under the targetname "a" and as one that targets
"a". -/
def selfMap : Map where
  entitiesWithTargetname := fun n => if n = "a" then [0] else []
  entitiesWithTarget := fun n => if n = "a" then [0] else []
  entitiesWithKillTarget := fun _ => []

/-- Entity 0 is detached, has the targetname "a" and targets "a": it targets itself. -/
def selfWorld : World where
  entities := fun i =>
    match i with
    | 0 => { m_propertyStore :=
              [{ key := "target", value := "a" }, { key := "targetname", value := "a" }] }
    | _ => {}
  maps := fun _ => selfMap
  definitions := fun _ => {}

/-! ## Mutability of keys, removal and renaming (lines 527 to 579) -/

/-- `propertyIsMutable(key)`, lines 543 to 553. -/
def propertyIsMutable (key : PropertyKey) : Bool :=
  if key = ModKey then false
  else if key = DefKey then false
  else if key = WadKey then false
  else if key = FacePointFormatKey then false
  else true

/-- `propertyKeyIsMutable(key)`, lines 555 to 571. -/
def propertyKeyIsMutable (key : PropertyKey) : Bool :=
  if key = ClassnameKey then false
  else if key = OriginKey then false
  else if key = SpawnFlagsKey then false
  else if key = ModKey then false
  else if key = DefKey then false
  else if key = WadKey then false
  else if key = FacePointFormatKey then false
  else true

/-- A call that begins with an `assert`: either the assertion fails, which ends the program
on the spot (the precondition failure, with `assert` compiled in), or it passes and the call
goes on to one of the outcomes. -/
inductive Asserted (α : Type) where
  | assertionFailed : Asserted α
  | passed (o : Outcome α) : Asserted α

/-- `removeProperty(key)`, lines 573 to 579. -/
def removeProperty (u : MapUpdates) (w : World) (self : EntityId) (key : PropertyKey) :
    Asserted World :=
  if propertyKeyIsMutable key then
    if PropertyStore.containsProperty (w.entities self).m_propertyStore key then
      .passed (setProperty u w self key none)
    else .passed (.returns w)
  else .assertionFailed

/-- `renameProperty(oldKey, newKey)`, lines 527 to 531. Line 528 takes a pointer to the value
in the store, line 529 removes the old property, and line 530 hands `*value` to the overload
of line 369, which takes a reference and passes its address on; nothing is read in between.
For an absent old key the pointer is null and arrives as null: the call is
`setProperty(newKey, NULL)`. For a present old key the pointer refers to a place that the
store has given up with the removal; what stands there afterwards is up to the store, which
is declared outside the sources, so the value read is the parameter `stale`. -/
def renameProperty (stale : PropertyValue) (u : MapUpdates) (w : World) (self : EntityId)
    (oldKey newKey : PropertyKey) : Asserted World :=
  let value := propertyForKey (w.entities self) oldKey
  match removeProperty u w self oldKey with
  | .assertionFailed => .assertionFailed
  | .passed removed =>
    .passed (removed.bind fun w1 => setProperty u w1 self newKey (value.map fun _ => stale))

/-- Entity 0 carries the mod property `_mod` = "id1". -/
def modWorld : World where
  entities := fun i =>
    match i with
    | 0 => { m_propertyStore := [{ key := "_mod", value := "id1" }] }
    | _ => {}
  maps := fun _ => exampleMap
  definitions := fun _ => {}

/-- Entity 0 is a player start with the definition 0, which it is counted in. -/
def definedWorld : World where
  entities := fun i =>
    match i with
    | 0 => { m_definition := some 0,
             m_propertyStore := [{ key := "classname", value := "info_player_start" }] }
    | _ => {}
  maps := fun _ => exampleMap
  definitions := fun _ => { m_usageCount := 1 }

/-! ## Floating point and the vector library, taken as given -/

/-- The coordinate axes, `Axis::Type`. -/
inductive Axis where
  | AX
  | AY
  | AZ
deriving DecidableEq, Repr

/-- A vector of three floats, `Vec3f`. -/
structure Vec3f (F : Type) where
  x : F
  y : F
  z : F

/-- A rotation quaternion, `Quat`, with its scalar and vector part. -/
structure Quat (F : Type) where
  s : F
  v : Vec3f F

/-- The digits of a number below 100000, five of them, without the zeros at the end. -/
def fractionDigits (n : Nat) : List Char :=
  let digits := Nat.toDigits 10 n
  ((List.replicate (5 - digits.length) '0' ++ digits).reverse.dropWhile (fun c => c = '0')).reverse

/-- What a stream writes for a float whose value is the whole number `n`: `operator<<` with
the precision of six significant digits a stream starts with. A number of up to six digits is
written as it is. A longer one is written with a mantissa of six significant digits, rounded
to the nearest with ties to the even digit, without zeros at its end, and a decimal exponent
of at least two digits: 1234567 is written "1.23457e+06". -/
def streamWhole (n : Int) : String :=
  let m := n.natAbs
  let sign := if n < 0 then "-" else ""
  if m < 1000000 then sign ++ toString m
  else
    let length := (Nat.toDigits 10 m).length
    let unit := 10 ^ (length - 6)
    let q := m / unit
    let r := m % unit
    let q := if unit < 2 * r ∨ (2 * r = unit ∧ q % 2 = 1) then q + 1 else q
    let exponent := if q = 1000000 then length else length - 1
    let q := if q = 1000000 then 100000 else q
    let fraction := fractionDigits (q % 100000)
    sign ++ toString (q / 100000) ++
      (if fraction = [] then "" else "." ++ String.mk fraction) ++
      "e+" ++ (if exponent < 10 then "0" else "") ++ toString exponent

/-- Line 504: `static_cast<int>` of a whole number. A number outside the range of `int` has
no value that the language defines; the conversion instruction of the x86 processors gives
the smallest `int` for it. -/
def castInt (n : Int) : Int :=
  if -2147483648 ≤ n ∧ n ≤ 2147483647 then n else -2147483648

/-- Modelled from the spec: `float`, the C library and the vector library (`Math`, `Vec3f`,
`Quat`, all declared outside the sources) as the entity code uses them. Nothing is assumed
about the operations: each is a parameter, so what is proved holds for every floating-point
arithmetic. `round` is `Math::round` with its result, a whole number, carried as an integer,
and `minusZero` tells whether that result is the negative zero, whose sign the integer
cannot carry; a result that is infinite or not a number is not modelled. `print` is what a
stream writes for a float. -/
structure FloatOps (F : Type) where
  ofInt : Int → F
  ninetyPercent : F
  halfPi : F
  atof : String → F
  print : F → String
  add : F → F → F
  sub : F → F → F
  neg : F → F
  abs : F → F
  eq : F → F → Bool
  lt : F → F → Bool
  round : F → Int
  minusZero : F → Bool
  radians : F → F
  degrees : F → F
  cos : F → F
  sin : F → F
  acos : F → F
  parseVec3f : String → Vec3f F
  normalize : Vec3f F → Vec3f F
  firstComponent : Vec3f F → Axis
  rotated90 : Vec3f F → Axis → Vec3f F → Bool → Vec3f F
  flipped : Vec3f F → Axis → Vec3f F → Vec3f F
  quat : F → Vec3f F → Quat F
  quatMul : Quat F → Quat F → Quat F
  quatRotate : Quat F → Vec3f F → Vec3f F

namespace FloatOps

variable {F : Type}

/-- `Vec3f::Null`, also what the default constructor of `Vec3f` gives. -/
def null (fl : FloatOps F) : Vec3f F := { x := fl.ofInt 0, y := fl.ofInt 0, z := fl.ofInt 0 }

def PosX (fl : FloatOps F) : Vec3f F := { x := fl.ofInt 1, y := fl.ofInt 0, z := fl.ofInt 0 }

def PosY (fl : FloatOps F) : Vec3f F := { x := fl.ofInt 0, y := fl.ofInt 1, z := fl.ofInt 0 }

def PosZ (fl : FloatOps F) : Vec3f F := { x := fl.ofInt 0, y := fl.ofInt 0, z := fl.ofInt 1 }

def NegZ (fl : FloatOps F) : Vec3f F := { x := fl.ofInt 0, y := fl.ofInt 0, z := fl.ofInt (-1) }

/-- `a + b` on vectors. -/
def vadd (fl : FloatOps F) (a b : Vec3f F) : Vec3f F :=
  { x := fl.add a.x b.x, y := fl.add a.y b.y, z := fl.add a.z b.z }

/-- `a - b` on vectors. -/
def vsub (fl : FloatOps F) (a b : Vec3f F) : Vec3f F :=
  { x := fl.sub a.x b.x, y := fl.sub a.y b.y, z := fl.sub a.z b.z }

/-- Line 521: what the stream writes for `static_cast<float>(Math::round(value))`, a whole
number: "-0" for the negative zero, else as `streamWhole` has it. -/
def printRounded (fl : FloatOps F) (value : F) : String :=
  if fl.round value = 0 ∧ fl.minusZero value = true then "-0" else streamWhole (fl.round value)

end FloatOps

/-- Modelled from the spec: `center()`, the center of the bounds of an entity in a state of
the world, revalidated on demand. The bounds come from the brushes and the definition, which
are outside this development, so the center is a parameter. -/
abbrev CenterOf (F : Type) := World → EntityId → Vec3f F

/-- Modelled from the spec: `origin()`, declared outside the sources: the origin property
read as a vector, the null vector when the property is absent. -/
def origin {F : Type} (fl : FloatOps F) (e : Entity) : Vec3f F :=
  match propertyForKey e OriginKey with
  | none => fl.null
  | some value => fl.parseVec3f value

end Model

namespace Utility

/-- Modelled from the spec: `Utility::startsWith`, declared outside the sources: the string
"starts with the literal prefix". -/
def startsWith (s start : String) : Bool :=
  (Model.dropBase start.data s.data).isSome

end Utility

namespace Model

abbrev AngleKey : PropertyKey := "angle"

abbrev AnglesKey : PropertyKey := "angles"

abbrev MangleKey : PropertyKey := "mangle"

/-! ## The setProperty overloads for numbers (lines 501 to 525) -/

/-- `setProperty(key, Vec3f, round)`, lines 501 to 510: rounded, the three components are
written as integers; otherwise as floats. -/
def setPropertyVec3f {F : Type} (fl : FloatOps F) (u : MapUpdates) (w : World) (self : EntityId)
    (key : PropertyKey) (value : Vec3f F) (round : Bool) : Outcome World :=
  let valueStr :=
    if round then
      toString (castInt (fl.round value.x)) ++ " " ++ toString (castInt (fl.round value.y)) ++
        " " ++ toString (castInt (fl.round value.z))
    else fl.print value.x ++ " " ++ fl.print value.y ++ " " ++ fl.print value.z
  setProperty u w self key (some valueStr)

/-- `setProperty(key, float, round)`, lines 518 to 525. -/
def setPropertyFloat {F : Type} (fl : FloatOps F) (u : MapUpdates) (w : World) (self : EntityId)
    (key : PropertyKey) (value : F) (round : Bool) : Outcome World :=
  let valueStr := if round then fl.printRounded value else fl.print value
  setProperty u w self key (some valueStr)

/-- `setProperty(key, float, true)` for a float that is a whole number already (a literal such
as `-1.0f`, or the result of `Math::round` and whole-number arithmetic on it, a number of
degrees between -2 and 360 in `applyRotation`): rounding leaves it as it is and the stream
writes its digits. -/
def setPropertyWhole (u : MapUpdates) (w : World) (self : EntityId) (key : PropertyKey)
    (value : Int) : Outcome World :=
  setProperty u w self key (some (toString value))

/-! ## The rotation policy (lines 119 to 171) -/

inductive RotationType where
  | RTNone
  | RTZAngle
  | RTZAngleWithUpDown
  | RTEulerAngles
deriving DecidableEq, Repr

structure RotationInfo where
  type : RotationType
  property : PropertyKey
deriving DecidableEq, Repr

/-- Line 143: the entity owns a brush or its definition is of brush type. -/
def brushEntity (w : World) (self : EntityId) : Bool :=
  !(w.entities self).m_brushes.isEmpty ||
    (match (w.entities self).m_definition with
      | none => false
      | some d => decide ((w.definitions d).m_type = EntityDefinitionType.BrushEntity))

/-- Lines 156 and 157: the offset `origin() - center()` has no X and no Y component. -/
def centered {F : Type} (fl : FloatOps F) (center : CenterOf F) (w : World) (self : EntityId) :
    Bool :=
  let offset := fl.vsub (origin fl (w.entities self)) (center w self)
  fl.eq offset.x (fl.ofInt 0) && fl.eq offset.y (fl.ofInt 0)

/-- `rotationInfo()`, lines 119 to 171. The key of a rotation of type `RTNone` is the empty
string a default-constructed `PropertyKey` is. -/
def rotationInfo {F : Type} (fl : FloatOps F) (center : CenterOf F) (w : World)
    (self : EntityId) : RotationInfo :=
  let e := w.entities self
  match classname e with
  | none => { type := .RTNone, property := "" }
  | some name =>
    if Utility.startsWith name "light" then
      if propertyForKey e MangleKey ≠ none then
        { type := .RTEulerAngles, property := MangleKey }
      else if propertyForKey e TargetKey = none then
        if propertyForKey e AnglesKey ≠ none then
          { type := .RTEulerAngles, property := AnglesKey }
        else { type := .RTZAngle, property := AngleKey }
      else { type := .RTNone, property := "" }
    else if brushEntity w self then
      if propertyForKey e AnglesKey ≠ none then
        { type := .RTEulerAngles, property := AnglesKey }
      else if propertyForKey e AngleKey ≠ none then
        { type := .RTZAngleWithUpDown, property := AngleKey }
      else { type := .RTNone, property := "" }
    else if centered fl center w self then
      if propertyForKey e AnglesKey ≠ none then
        { type := .RTEulerAngles, property := AnglesKey }
      else { type := .RTZAngle, property := AngleKey }
    else { type := .RTNone, property := "" }

/-! ## applyRotation (lines 173 to 275) -/

/-- Line 226, `while (angle < 0.0f) angle += 360.0f`, on a whole number; the first argument
bounds the number of rounds and `angle.natAbs` is enough. -/
def addWhileNegative : Nat → Int → Int
  | 0, angle => angle
  | rounds + 1, angle => if angle < 0 then addWhileNegative rounds (angle + 360) else angle

/-- Lines 192 to 194 (and 223 to 225, 252 to 254, 263 to 265): the angle of a direction in a
plane, from the arccosine of its first component, rounded to whole degrees, and the sign of
its second component. -/
def planeAngle {F : Type} (fl : FloatOps F) (first second : F) : Int :=
  let angle := fl.round (fl.degrees (fl.acos first))
  if fl.lt second (fl.ofInt 0) then 360 - angle else angle

/-- Lines 181 and 182 (and 202, 203, 736, 752): the stored angle as a float, zero when the
property is absent. -/
def storedAngle {F : Type} (fl : FloatOps F) (e : Entity) (key : PropertyKey) : F :=
  match propertyForKey e key with
  | some value => fl.atof value
  | none => fl.ofInt 0

/-- Lines 234 (and 630, 774): the stored angles as a vector, null when the property is
absent. -/
def storedAngles {F : Type} (fl : FloatOps F) (e : Entity) (key : PropertyKey) : Vec3f F :=
  match propertyForKey e key with
  | some value => fl.parseVec3f value
  | none => fl.null

/-- Lines 177 to 197, the case `RTZAngle`. -/
def applyZAngle {F : Type} (fl : FloatOps F) (u : MapUpdates) (w : World) (self : EntityId)
    (property : PropertyKey) (rotation : Quat F) : Outcome World :=
  if fl.firstComponent rotation.v ≠ Axis.AZ then .returns w
  else
    let angle := storedAngle fl (w.entities self) property
    let direction : Vec3f F :=
      { x := fl.cos (fl.radians angle), y := fl.sin (fl.radians angle), z := fl.ofInt 0 }
    let direction := fl.quatRotate rotation direction
    let direction := fl.normalize { direction with z := fl.ofInt 0 }
    setPropertyWhole u w self property (planeAngle fl direction.x direction.y)

/-- Lines 198 to 231, the case `RTZAngleWithUpDown`. The direction is derived from the stored
angle and re-encoded; `rotation` is looked at for its dominant axis only. -/
def applyZAngleWithUpDown {F : Type} (fl : FloatOps F) (u : MapUpdates) (w : World)
    (self : EntityId) (property : PropertyKey) (rotation : Quat F) : Outcome World :=
  if fl.firstComponent rotation.v ≠ Axis.AZ then .returns w
  else
    let angle := storedAngle fl (w.entities self) property
    let direction : Vec3f F :=
      if fl.eq angle (fl.ofInt (-1)) then fl.PosZ
      else if fl.eq angle (fl.ofInt (-2)) then fl.NegZ
      else { x := fl.cos (fl.radians angle), y := fl.sin (fl.radians angle), z := fl.ofInt 0 }
    if fl.lt fl.ninetyPercent direction.z then setPropertyWhole u w self property (-1)
    else if fl.lt direction.z (fl.neg fl.ninetyPercent) then
      setPropertyWhole u w self property (-2)
    else
      let direction := fl.normalize { direction with z := fl.ofInt 0 }
      let angle := planeAngle fl direction.x direction.y
      let angle := addWhileNegative angle.natAbs angle
      setPropertyWhole u w self property angle

/-- Lines 232 to 271, the case `RTEulerAngles`. -/
def applyEulerAngles {F : Type} (fl : FloatOps F) (u : MapUpdates) (w : World) (self : EntityId)
    (property : PropertyKey) (rotation : Quat F) : Outcome World :=
  let angles := storedAngles fl (w.entities self) property
  let zRotation := fl.quat (fl.radians angles.x) fl.PosZ
  let yRotation := fl.quat (fl.radians (fl.neg angles.y)) fl.PosY
  let direction := fl.quatRotate (fl.quatMul zRotation yRotation) fl.PosX
  let direction := fl.quatRotate rotation direction
  let zAngle : Int :=
    if fl.eq (fl.abs direction.z) (fl.ofInt 1) then 0
    else
      let xyDirection := fl.normalize { direction with z := fl.ofInt 0 }
      planeAngle fl xyDirection.x xyDirection.y
  let xAngle : Int :=
    if fl.eq (fl.abs direction.y) (fl.ofInt 1) then 0
    else
      let xzDirection := fl.normalize { direction with y := fl.ofInt 0 }
      planeAngle fl xzDirection.x xzDirection.z
  setProperty u w self property
    (some (toString zAngle ++ " " ++ toString xAngle ++ " " ++ toString (0 : Int)))

/-- `applyRotation(rotation)`, lines 173 to 275. -/
def applyRotation {F : Type} (fl : FloatOps F) (center : CenterOf F) (u : MapUpdates) (w : World)
    (self : EntityId) (rotation : Quat F) : Outcome World :=
  let info := rotationInfo fl center w self
  match info.type with
  | .RTZAngle => applyZAngle fl u w self info.property rotation
  | .RTZAngleWithUpDown => applyZAngleWithUpDown fl u w self info.property rotation
  | .RTEulerAngles => applyEulerAngles fl u w self info.property rotation
  | .RTNone => .returns w

/-! ## rotate90, rotate, flip (lines 690 to 793) -/

/-- Line 711 (and 722, 792): `invalidateGeometry()` on the world. -/
def invalidated (w : World) (self : EntityId) : World :=
  { w with entities := invalidateGeometry w.entities self }

/-- Lines 691 to 695: an entity without brushes gets its origin moved with its center. -/
def moveOrigin90 {F : Type} (fl : FloatOps F) (center : CenterOf F) (u : MapUpdates) (w : World)
    (self : EntityId) (axis : Axis) (rotationCenter : Vec3f F) (clockwise : Bool) :
    Outcome World :=
  if (w.entities self).m_brushes.isEmpty then
    let offset := fl.vsub (origin fl (w.entities self)) (center w self)
    let newCenter := fl.rotated90 (center w self) axis rotationCenter clockwise
    setPropertyVec3f fl u w self OriginKey (fl.vadd newCenter offset) true
  else .returns w

/-- Lines 697 to 708: the quarter turn about the axis. -/
def quarterTurn {F : Type} (fl : FloatOps F) (axis : Axis) (clockwise : Bool) : Quat F :=
  match axis with
  | .AX => if clockwise then fl.quat (fl.neg fl.halfPi) fl.PosX else fl.quat fl.halfPi fl.PosX
  | .AY => if clockwise then fl.quat (fl.neg fl.halfPi) fl.PosY else fl.quat fl.halfPi fl.PosY
  | .AZ => if clockwise then fl.quat (fl.neg fl.halfPi) fl.PosZ else fl.quat fl.halfPi fl.PosZ

/-- `rotate90(axis, rotationCenter, clockwise, lockTextures)`, lines 690 to 712; the last
argument is not used. -/
def rotate90 {F : Type} (fl : FloatOps F) (center : CenterOf F) (u : MapUpdates) (w : World)
    (self : EntityId) (axis : Axis) (rotationCenter : Vec3f F) (clockwise : Bool) :
    Outcome World :=
  (moveOrigin90 fl center u w self axis rotationCenter clockwise).bind fun w1 =>
  (applyRotation fl center u w1 self (quarterTurn fl axis clockwise)).bind fun w2 =>
  .returns (invalidated w2 self)

/-- Lines 715 to 719. -/
def moveOriginRotated {F : Type} (fl : FloatOps F) (center : CenterOf F) (u : MapUpdates)
    (w : World) (self : EntityId) (rotation : Quat F) (rotationCenter : Vec3f F) :
    Outcome World :=
  if (w.entities self).m_brushes.isEmpty then
    let offset := fl.vsub (origin fl (w.entities self)) (center w self)
    let newCenter :=
      fl.vadd (fl.quatRotate rotation (fl.vsub (center w self) rotationCenter)) rotationCenter
    setPropertyVec3f fl u w self OriginKey (fl.vadd newCenter offset) true
  else .returns w

/-- `rotate(rotation, rotationCenter, lockTextures)`, lines 714 to 723. -/
def rotate {F : Type} (fl : FloatOps F) (center : CenterOf F) (u : MapUpdates) (w : World)
    (self : EntityId) (rotation : Quat F) (rotationCenter : Vec3f F) : Outcome World :=
  (moveOriginRotated fl center u w self rotation rotationCenter).bind fun w1 =>
  (applyRotation fl center u w1 self rotation).bind fun w2 =>
  .returns (invalidated w2 self)

/-- Lines 726 to 730. -/
def moveOriginFlipped {F : Type} (fl : FloatOps F) (center : CenterOf F) (u : MapUpdates)
    (w : World) (self : EntityId) (axis : Axis) (flipCenter : Vec3f F) : Outcome World :=
  if (w.entities self).m_brushes.isEmpty then
    let offset := fl.vsub (origin fl (w.entities self)) (center w self)
    let newCenter := fl.flipped (center w self) axis flipCenter
    setPropertyVec3f fl u w self OriginKey (fl.vadd newCenter offset) true
  else .returns w

/-- Lines 737 to 746: the inner switch of the case `RTZAngle` of `flip`. -/
def flippedAngle {F : Type} (fl : FloatOps F) (angle : F) (axis : Axis) : F :=
  match axis with
  | .AX => fl.sub (fl.ofInt 180) angle
  | .AY => fl.sub (fl.ofInt 360) angle
  | .AZ => angle

/-- Lines 734 to 749, the case `RTZAngle` of `flip`. -/
def flipZAngle {F : Type} (fl : FloatOps F) (u : MapUpdates) (w : World) (self : EntityId)
    (property : PropertyKey) (axis : Axis) : Outcome World :=
  let angle := storedAngle fl (w.entities self) property
  setPropertyFloat fl u w self property (flippedAngle fl angle axis) true

/-- Lines 753 to 768: the inner switch of the case `RTZAngleWithUpDown` of `flip`. -/
def flippedAngleWithUpDown {F : Type} (fl : FloatOps F) (angle : F) (axis : Axis) : F :=
  match axis with
  | .AX =>
    if !fl.eq angle (fl.ofInt (-1)) && !fl.eq angle (fl.ofInt (-2)) then
      fl.sub (fl.ofInt 180) angle
    else angle
  | .AY =>
    if !fl.eq angle (fl.ofInt (-1)) && !fl.eq angle (fl.ofInt (-2)) then
      fl.sub (fl.ofInt 360) angle
    else angle
  | .AZ =>
    if fl.eq angle (fl.ofInt (-1)) then fl.ofInt (-2)
    else if fl.eq angle (fl.ofInt (-2)) then fl.ofInt (-1)
    else angle

/-- Lines 750 to 771, the case `RTZAngleWithUpDown` of `flip`. -/
def flipZAngleWithUpDown {F : Type} (fl : FloatOps F) (u : MapUpdates) (w : World)
    (self : EntityId) (property : PropertyKey) (axis : Axis) : Outcome World :=
  let angle := storedAngle fl (w.entities self) property
  setPropertyFloat fl u w self property (flippedAngleWithUpDown fl angle axis) true

/-- Lines 775 to 785: the inner switch of the case `RTEulerAngles` of `flip`. -/
def flippedAngles {F : Type} (fl : FloatOps F) (angles : Vec3f F) (axis : Axis) : Vec3f F :=
  match axis with
  | .AX => { angles with x := fl.sub (fl.ofInt 180) angles.x }
  | .AY => { angles with x := fl.sub (fl.ofInt 360) angles.x }
  | .AZ => { angles with z := fl.neg angles.z }

/-- Lines 772 to 788, the case `RTEulerAngles` of `flip`. -/
def flipEulerAngles {F : Type} (fl : FloatOps F) (u : MapUpdates) (w : World) (self : EntityId)
    (property : PropertyKey) (axis : Axis) : Outcome World :=
  let angles := storedAngles fl (w.entities self) property
  setPropertyVec3f fl u w self property (flippedAngles fl angles axis) true

/-- Lines 732 to 791: the orientation is re-encoded as the rotation type says. -/
def flipOrientation {F : Type} (fl : FloatOps F) (center : CenterOf F) (u : MapUpdates)
    (w : World) (self : EntityId) (axis : Axis) : Outcome World :=
  let info := rotationInfo fl center w self
  match info.type with
  | .RTZAngle => flipZAngle fl u w self info.property axis
  | .RTZAngleWithUpDown => flipZAngleWithUpDown fl u w self info.property axis
  | .RTEulerAngles => flipEulerAngles fl u w self info.property axis
  | .RTNone => .returns w

/-- `flip(axis, flipCenter, lockTextures)`, lines 725 to 793. -/
def flip {F : Type} (fl : FloatOps F) (center : CenterOf F) (u : MapUpdates) (w : World)
    (self : EntityId) (axis : Axis) (flipCenter : Vec3f F) : Outcome World :=
  (moveOriginFlipped fl center u w self axis flipCenter).bind fun w1 =>
  (flipOrientation fl center u w1 self axis).bind fun w2 =>
  .returns (invalidated w2 self)

/-! ## A decimal arithmetic for the examples -/

namespace Fixed

/-- A number with six decimals is carried as the integer of its millionths. -/
def scale : Int := 1000000

/-- The number pi, to six decimals. -/
def pi : Int := 3141593

def mul (a b : Int) : Int := a * b / scale

def div (a b : Int) : Int := if b = 0 then 0 else a * scale / b

/-- The nearest whole number, halves away from zero. -/
def nearest (a : Int) : Int :=
  if 0 ≤ a then (a + 500000) / scale else -((500000 - a) / scale)

def radians (a : Int) : Int := a * pi / (180 * scale)

def degrees (a : Int) : Int := a * (180 * scale) / pi

/-- An angle brought into the range from `-pi` to `pi`. -/
def reduce (x : Int) : Int := (x + pi) % (2 * pi) - pi

/-- The partial sums of the power series of sine and cosine: each term is the one before
times `-x * x / ((k + 1) * (k + 2))`. -/
def series : Nat → Int → Int → Int → Int → Int
  | 0, _, _, _, sum => sum
  | n + 1, x2, k, term, sum =>
    let next := - (mul term x2) / ((k + 1) * (k + 2))
    series n x2 (k + 2) next (sum + next)

def cos (x : Int) : Int :=
  let r := reduce x
  series 12 (mul r r) 0 scale scale

def sin (x : Int) : Int :=
  let r := reduce x
  series 12 (mul r r) 1 r r

/-- The angle between `lo` and `hi` whose cosine is `c`, by halving the interval. -/
def bisect : Nat → Int → Int → Int → Int
  | 0, _, lo, _ => lo
  | n + 1, c, lo, hi =>
    let mid := (lo + hi) / 2
    if c < cos mid then bisect n c mid hi else bisect n c lo mid

def acos (c : Int) : Int := bisect 24 c 0 pi

/-- Newton steps towards the integer square root of `a`. -/
def newton : Nat → Int → Int → Int
  | 0, _, x => x
  | n + 1, a, x => if x = 0 then 0 else newton n a ((x + a / x) / 2)

def root (a : Int) : Int := if a ≤ 0 then 0 else newton 40 (a * scale) (a + scale)

/-- The number the decimal digits at the front of a string denote, and what follows them. -/
def digits : List Char → Nat → Nat × List Char
  | [], n => (n, [])
  | c :: cs, n => if c.isDigit then digits cs (10 * n + (c.toNat - 48)) else (n, c :: cs)

/-- The millionths the digits after a decimal point denote; `weight` is the worth of the
digit before. -/
def decimals : List Char → Int → Int
  | [], _ => 0
  | c :: cs, weight =>
    if c.isDigit then (c.toNat - 48 : Nat) * (weight / 10) + decimals cs (weight / 10) else 0

def magnitude (cs : List Char) : Int :=
  match digits cs 0 with
  | (n, '.' :: rest) => n * scale + decimals rest scale
  | (n, _) => n * scale

/-- A decimal number with an optional minus sign at the front of a string, as `atof` reads
it. -/
def number (cs : List Char) : Int :=
  match cs with
  | '-' :: rest => - magnitude rest
  | _ => magnitude cs

/-- The first word of a string and what follows the blank after it. -/
def word : List Char → List Char × List Char
  | [] => ([], [])
  | c :: cs => if c.toNat = 32 then ([], cs) else ((c :: (word cs).1), (word cs).2)

def parseVec3f (s : String) : Vec3f Int :=
  let first := word s.data
  let second := word first.2
  let third := word second.2
  { x := number first.1, y := number second.1, z := number third.1 }

/-- The six decimals of a number, with leading zeros. -/
def sixDigits (n : Nat) : String :=
  String.mk ((List.replicate (6 - (toString n).length) '0') ++ (toString n).data)

def print (a : Int) : String :=
  (if a < 0 then "-" else "") ++ toString (a.natAbs / 1000000) ++ "." ++
    sixDigits (a.natAbs % 1000000)

def length (v : Vec3f Int) : Int := root (mul v.x v.x + mul v.y v.y + mul v.z v.z)

def normalize (v : Vec3f Int) : Vec3f Int :=
  { x := div v.x (length v), y := div v.y (length v), z := div v.z (length v) }

/-- The axis of the component that is largest in absolute value. -/
def firstComponent (v : Vec3f Int) : Axis :=
  if v.y.natAbs ≤ v.x.natAbs ∧ v.z.natAbs ≤ v.x.natAbs then Axis.AX
  else if v.z.natAbs ≤ v.y.natAbs then Axis.AY
  else Axis.AZ

/-- A quarter turn of a vector about an axis through the null vector. -/
def turned (v : Vec3f Int) (axis : Axis) (clockwise : Bool) : Vec3f Int :=
  match axis, clockwise with
  | .AX, true => { x := v.x, y := v.z, z := - v.y }
  | .AX, false => { x := v.x, y := - v.z, z := v.y }
  | .AY, true => { x := - v.z, y := v.y, z := v.x }
  | .AY, false => { x := v.z, y := v.y, z := - v.x }
  | .AZ, true => { x := v.y, y := - v.x, z := v.z }
  | .AZ, false => { x := - v.y, y := v.x, z := v.z }

def rotated90 (v : Vec3f Int) (axis : Axis) (center : Vec3f Int) (clockwise : Bool) :
    Vec3f Int :=
  let t := turned { x := v.x - center.x, y := v.y - center.y, z := v.z - center.z } axis clockwise
  { x := t.x + center.x, y := t.y + center.y, z := t.z + center.z }

def flipped (v : Vec3f Int) (axis : Axis) (center : Vec3f Int) : Vec3f Int :=
  match axis with
  | .AX => { v with x := 2 * center.x - v.x }
  | .AY => { v with y := 2 * center.y - v.y }
  | .AZ => { v with z := 2 * center.z - v.z }

/-- The quaternion of a rotation by an angle about an axis of length one. -/
def quat (angle : Int) (axis : Vec3f Int) : Quat Int :=
  { s := cos (angle / 2),
    v := { x := mul axis.x (sin (angle / 2)), y := mul axis.y (sin (angle / 2)),
           z := mul axis.z (sin (angle / 2)) } }

def quatMul (p q : Quat Int) : Quat Int :=
  { s := mul p.s q.s - mul p.v.x q.v.x - mul p.v.y q.v.y - mul p.v.z q.v.z,
    v := { x := mul p.s q.v.x + mul p.v.x q.s + mul p.v.y q.v.z - mul p.v.z q.v.y,
           y := mul p.s q.v.y + mul p.v.y q.s + mul p.v.z q.v.x - mul p.v.x q.v.z,
           z := mul p.s q.v.z + mul p.v.z q.s + mul p.v.x q.v.y - mul p.v.y q.v.x } }

/-- A vector turned by a quaternion: the vector part of `q * v * conjugate q`. -/
def quatRotate (q : Quat Int) (v : Vec3f Int) : Vec3f Int :=
  (quatMul (quatMul q { s := 0, v := v })
    { s := q.s, v := { x := - q.v.x, y := - q.v.y, z := - q.v.z } }).v

end Fixed

/-- Decimal fixed-point numbers with six decimals in the place of `float`: sums, differences
and comparisons are exact, the trigonometric functions are good to about five decimals. The
examples are evaluated in this arithmetic. -/
def fixedPoint : FloatOps Int where
  ofInt := fun n => n * Fixed.scale
  ninetyPercent := 900000
  halfPi := Fixed.pi / 2
  atof := fun s => Fixed.number s.data
  print := Fixed.print
  add := fun a b => a + b
  sub := fun a b => a - b
  neg := fun a => - a
  abs := fun a => a.natAbs
  eq := fun a b => decide (a = b)
  lt := fun a b => decide (a < b)
  round := Fixed.nearest
  minusZero := fun a => decide (a < 0)
  radians := Fixed.radians
  degrees := Fixed.degrees
  cos := Fixed.cos
  sin := Fixed.sin
  acos := Fixed.acos
  parseVec3f := Fixed.parseVec3f
  normalize := Fixed.normalize
  firstComponent := Fixed.firstComponent
  rotated90 := Fixed.rotated90
  flipped := Fixed.flipped
  quat := Fixed.quat
  quatMul := Fixed.quatMul
  quatRotate := Fixed.quatRotate

/-- Lines 105 to 115 for an entity without brushes: the bounds are a box around the origin,
the box of the definition or the default one, so the center is the origin plus the center of
that box. -/
def centerAt (boxCenter : Vec3f Int) : CenterOf Int :=
  fun w self => fixedPoint.vadd (origin fixedPoint (w.entities self)) boxCenter

/-- Entity 0 is a light with a rotatable model: it has an angles property and neither a
mangle nor a target. -/
def lampWorld : World where
  entities := fun i => match i with
    | 0 => { m_propertyStore := [{ key := "classname", value := "light" },
                                 { key := "origin", value := "16 32 64" },
                                 { key := "angles", value := "0 90 0" }] }
    | _ => {}
  maps := fun _ => exampleMap
  definitions := fun _ => {}

/-- Entity 0 is a door made of brush 7, facing 90 degrees. -/
def doorWorld : World where
  entities := fun i => match i with
    | 0 => { m_brushes := [7],
             m_propertyStore := [{ key := "classname", value := "func_door" },
                                 { key := "angle", value := "90" }] }
    | _ => {}
  maps := fun _ => exampleMap
  definitions := fun _ => {}

/-- Entity 0 is a torch, a point entity whose class name starts with "light"; its angle is
0. The example puts the center of its box 8 units off the origin in X. -/
def torchWorld : World where
  entities := fun i => match i with
    | 0 => { m_definition := some 0,
             m_propertyStore := [{ key := "classname", value := "light_torch_small_walltorch" },
                                 { key := "origin", value := "0 0 0" },
                                 { key := "angle", value := "0" }] }
    | _ => {}
  maps := fun _ => exampleMap
  definitions := fun _ => { m_usageCount := 1 }

/-- Entity 0 is a monster, a point entity facing 45 degrees. The examples put the center of
its box 8 units off the origin in X, or on the origin. -/
def monsterWorld : World where
  entities := fun i => match i with
    | 0 => { m_definition := some 0,
             m_propertyStore := [{ key := "classname", value := "monster_army" },
                                 { key := "origin", value := "64 0 24" },
                                 { key := "angle", value := "45" }] }
    | _ => {}
  maps := fun _ => exampleMap
  definitions := fun _ => { m_usageCount := 1 }

/-- Entity 0 is a train made of brush 7 whose heading is the non-integer 359.7 degrees. -/
def trainWorld : World where
  entities := fun i => match i with
    | 0 => { m_brushes := [7],
             m_propertyStore := [{ key := "classname", value := "func_train" },
                                 { key := "angle", value := "359.7" }] }
    | _ => {}
  maps := fun _ => exampleMap
  definitions := fun _ => {}

/-- Entity 0 is a plat made of brush 7 whose heading is the non-integer 45.25 degrees. -/
def platWorld : World where
  entities := fun i => match i with
    | 0 => { m_brushes := [7],
             m_propertyStore := [{ key := "classname", value := "func_plat" },
                                 { key := "angle", value := "45.25" }] }
    | _ => {}
  maps := fun _ => exampleMap
  definitions := fun _ => {}

/-- The box of a brush entity comes from its brushes; the examples with brush entities do
not look at it. -/
def brushCenter : CenterOf Int := fun _ _ => fixedPoint.null

/-- The center of a box that lies 8 units off the origin in X. -/
def sideCenter : CenterOf Int :=
  centerAt { x := fixedPoint.ofInt 8, y := fixedPoint.ofInt 0, z := fixedPoint.ofInt 0 }

/-- The center of a box around the origin. -/
def middleCenter : CenterOf Int := centerAt fixedPoint.null

/-! ## The severing loop, pass by pass -/

/-- One pass through the body of the loop of lines 391 to 404. The iterator starts at
`m_linkTargets.begin()`, `erase` gives it back at the same place and nothing else moves it,
so it always stands at the front of the list. Nothing is returned when the condition
`it != m_linkTargets.end()` is false, that is when the loop is left. -/
def severLoopBody (self : EntityId) (oldValue : PropertyValue) (h : Heap) : Option Heap :=
  match (h self).m_linkTargets with
  | [] => none
  | target :: rest =>
    match propertyForKey (h target) TargetnameKey with
    | none => some (Function.update h self { h self with m_linkTargets := rest })
    | some targetname =>
      if targetname = oldValue then
        let h1 := removeLinkSource h target self
        some (Function.update h1 self { h1 self with m_linkTargets := rest })
      else some h

/-- The state after a number of passes through the loop, or nothing when the loop was left
before that. -/
def severLoopAfter (self : EntityId) (oldValue : PropertyValue) : Nat → Heap → Option Heap
  | 0, h => some h
  | passes + 1, h => (severLoopBody self oldValue h).bind (severLoopAfter self oldValue passes)

/-! ## Notions for the origin under rotate90, rotate and flip -/

/-- Lines 504 to 506: the three components of a vector, rounded and written as integers. -/
def wholeDigits {F : Type} (fl : FloatOps F) (value : Vec3f F) : String :=
  toString (castInt (fl.round value.x)) ++ " " ++ toString (castInt (fl.round value.y)) ++
    " " ++ toString (castInt (fl.round value.z))

/-- Entity 0 is a monster, a point entity at the origin (64, 0, 24) that has no orientation
property. -/
def grubWorld : World where
  entities := fun i => match i with
    | 0 => { m_definition := some 0,
             m_propertyStore := [{ key := "classname", value := "monster_grub" },
                                 { key := "origin", value := "64 0 24" }] }
    | _ => {}
  maps := fun _ => exampleMap
  definitions := fun _ => { m_usageCount := 1 }

/-- `addBrush(brush)`, lines 641 to 645. The back-reference `brush.setEntity(this)` is state
of the brush and is not followed. -/
def addBrush (w : World) (self : EntityId) (brush : BrushId) : World :=
  let h := Function.update w.entities self
    { w.entities self with m_brushes := (w.entities self).m_brushes ++ [brush] }
  { w with entities := invalidateGeometry h self }

/-- `addBrushes(brushes)`, lines 647 to 654. -/
def addBrushes (w : World) (self : EntityId) (brushes : List BrushId) : World :=
  let h := Function.update w.entities self
    { w.entities self with m_brushes := (w.entities self).m_brushes ++ brushes }
  { w with entities := invalidateGeometry h self }

/-- `removeBrush(brush)`, lines 656 to 660: every occurrence of the brush is removed. -/
def removeBrush (w : World) (self : EntityId) (brush : BrushId) : World :=
  let h := Function.update w.entities self
    { w.entities self with m_brushes := (w.entities self).m_brushes.filter (fun b => b ≠ brush) }
  { w with entities := invalidateGeometry h self }

/-- Modelled from the spec: `Vec3f::null()`, declared outside the sources: all three
components are zero. -/
def FloatOps.isNull {F : Type} (fl : FloatOps F) (v : Vec3f F) : Bool :=
  fl.eq v.x (fl.ofInt 0) && fl.eq v.y (fl.ofInt 0) && fl.eq v.z (fl.ofInt 0)

/-- `translate(delta, lockTextures)`, lines 681 to 688; the last argument is not used. -/
def translate {F : Type} (fl : FloatOps F) (u : MapUpdates) (w : World) (self : EntityId)
    (delta : Vec3f F) : Outcome World :=
  if fl.isNull delta then .returns w
  else
    (setPropertyVec3f fl u w self OriginKey (fl.vadd (origin fl (w.entities self)) delta)
      true).bind fun w1 =>
    .returns (invalidated w1 self)

/-- Lines 534 to 537: with `replace` the store is cleared, without a look at the links, and
the spawn flags are set to "0". -/
def clearProperties (u : MapUpdates) (w : World) (self : EntityId) : Outcome World :=
  let h := Function.update w.entities self { w.entities self with m_propertyStore := [] }
  setProperty u { w with entities := h } self SpawnFlagsKey (some "0")

/-- `setProperties(properties, replace)`, lines 533 to 541. -/
def setProperties (u : MapUpdates) (w : World) (self : EntityId) (properties : PropertyList)
    (replace : Bool) : Outcome World :=
  properties.foldl
    (fun acc property => acc.bind fun w1 =>
      setProperty u w1 self property.key (some property.value))
    (if replace then clearProperties u w self else .returns w)

/-- `~Entity()`, lines 286 to 291. `Utility::deleteAll`, modelled from the spec ("all owned
brushes are destroyed"), leaves the entity without brushes. -/
def destroy (w : World) (self : EntityId) : World :=
  let w1 := setMap w self none
  let h := Function.update w1.entities self { w1.entities self with m_brushes := [] }
  let w2 := setDefinition { w1 with entities := h } self none
  { w2 with entities := invalidateGeometry w2.entities self }

/-! ## Usage counts of definitions -/

/-- The number of the entities of a list that hold a definition. -/
def referencesTo (h : Heap) (live : List EntityId) (d : DefinitionId) : Nat :=
  live.countP (fun e => decide ((h e).m_definition = some d))

/-- The usage count of every definition is the number of the live entities that hold it. -/
def UsageCounted (w : World) (live : List EntityId) : Prop :=
  ∀ d, (w.definitions d).m_usageCount = (referencesTo w.entities live d : Int)

/-- Entities 0 and 1 are player starts and hold the definition 0, entity 2 is a monster and
holds the definition 1; the usage counts are 2 and 1. -/
def countedWorld : World where
  entities := fun i => match i with
    | 0 => { m_definition := some 0,
             m_propertyStore := [{ key := "classname", value := "info_player_start" }] }
    | 1 => { m_definition := some 0,
             m_propertyStore := [{ key := "classname", value := "info_player_start" }] }
    | 2 => { m_definition := some 1,
             m_propertyStore := [{ key := "classname", value := "monster_army" }] }
    | _ => {}
  maps := fun _ => exampleMap
  definitions := fun d => match d with
    | 0 => { m_usageCount := 2 }
    | 1 => { m_usageCount := 1 }
    | _ => {}

/-! ## Bounds and center (lines 97 to 117) -/

/-- An axis-aligned box, `BBox`. -/
structure BBox (F : Type) where
  min : Vec3f F
  max : Vec3f F

/-- Modelled from the spec: the boxes the entity takes from its brushes (`Brush::bounds`)
and from a point definition (`PointEntityDefinition::bounds`), and the operations of `BBox`
("merge, translate, center"), all declared outside the sources. Each is a parameter. -/
structure BoundsOps (F : Type) where
  brushBounds : BrushId → BBox F
  definitionBounds : DefinitionId → BBox F
  mergeWith : BBox F → BBox F → BBox F
  translate : BBox F → Vec3f F → BBox F
  center : BBox F → Vec3f F

/-- The cached members `m_bounds` and `m_center` of the entities. -/
structure GeometryCache (F : Type) where
  m_bounds : EntityId → BBox F
  m_center : EntityId → Vec3f F

/-- A world together with the cached geometry of its entities. -/
structure Cached (F : Type) where
  world : World
  cache : GeometryCache F

/-- Lines 101 to 108: the merged bounds of the brushes, or the box from -8 to 8 around the
origin for an entity without brushes. -/
def brushBounds {F : Type} (fl : FloatOps F) (bo : BoundsOps F) (e : Entity) : BBox F :=
  match e.m_brushes with
  | first :: rest =>
    rest.foldl (fun bounds brush => bo.mergeWith bounds (bo.brushBounds brush))
      (bo.brushBounds first)
  | [] =>
    bo.translate
      { min := { x := fl.ofInt (-8), y := fl.ofInt (-8), z := fl.ofInt (-8) },
        max := { x := fl.ofInt 8, y := fl.ofInt 8, z := fl.ofInt 8 } }
      (origin fl e)

/-- Lines 100 to 113: the bounds as `validateGeometry` derives them from the definition, the
brushes and the origin. -/
def derivedBounds {F : Type} (fl : FloatOps F) (bo : BoundsOps F) (w : World)
    (self : EntityId) : BBox F :=
  match (w.entities self).m_definition with
  | none => brushBounds fl bo (w.entities self)
  | some d =>
    if (w.definitions d).m_type = EntityDefinitionType.BrushEntity then
      brushBounds fl bo (w.entities self)
    else bo.translate (bo.definitionBounds d) (origin fl (w.entities self))

/-- `validateGeometry()`, lines 97 to 117. -/
def validateGeometry {F : Type} (fl : FloatOps F) (bo : BoundsOps F) (s : Cached F)
    (self : EntityId) : Asserted (Cached F) :=
  if (s.world.entities self).m_geometryValid then .assertionFailed
  else
    let bounds := derivedBounds fl bo s.world self
    let h := Function.update s.world.entities self
      { s.world.entities self with m_geometryValid := true }
    .passed (.returns
      { world := { s.world with entities := h },
        cache := { m_bounds := Function.update s.cache.m_bounds self bounds,
                   m_center := Function.update s.cache.m_center self (bo.center bounds) } })

/-- Modelled from the spec: what the accessors `bounds()` and `center()`, declared outside
the sources, do before they hand out the cached value: "lazily recompute from
brushes/properties on first access after invalidation". -/
def revalidated {F : Type} (fl : FloatOps F) (bo : BoundsOps F) (s : Cached F)
    (self : EntityId) : Cached F :=
  match validateGeometry fl bo s self with
  | .passed (.returns s1) => s1
  | _ => s

/-- The center that `center()` hands out when the cache is coherent: the center of the
derived bounds. -/
def derivedCenter {F : Type} (fl : FloatOps F) (bo : BoundsOps F) : CenterOf F :=
  fun w self => bo.center (derivedBounds fl bo w self)

/-- The cache is coherent: for every entity whose geometry-valid flag is set, the cached
bounds and center are the ones derived afresh from the current state. -/
def Coherent {F : Type} (fl : FloatOps F) (bo : BoundsOps F) (s : Cached F) : Prop :=
  ∀ e, (s.world.entities e).m_geometryValid = true →
    s.cache.m_bounds e = derivedBounds fl bo s.world e ∧
    s.cache.m_center e = bo.center (derivedBounds fl bo s.world e)

/-- One call of an operation of `Entity` that changes an entity and has returned: the world
before, the entity and the world after. -/
inductive Mutation {F : Type} (fl : FloatOps F) (center : CenterOf F) (u : MapUpdates) :
    World → EntityId → World → Prop where
  | setProperty (w : World) (self : EntityId) (key : PropertyKey)
      (value : Option PropertyValue) (w' : World) :
      Model.setProperty u w self key value = .returns w' → Mutation fl center u w self w'
  | setProperties (w : World) (self : EntityId) (properties : PropertyList) (replace : Bool)
      (w' : World) :
      Model.setProperties u w self properties replace = .returns w' →
      Mutation fl center u w self w'
  | removeProperty (w : World) (self : EntityId) (key : PropertyKey) (w' : World) :
      Model.removeProperty u w self key = .passed (.returns w') → Mutation fl center u w self w'
  | renameProperty (w : World) (self : EntityId) (stale : PropertyValue)
      (oldKey newKey : PropertyKey) (w' : World) :
      Model.renameProperty stale u w self oldKey newKey = .passed (.returns w') →
      Mutation fl center u w self w'
  | addBrush (w : World) (self : EntityId) (brush : BrushId) :
      Mutation fl center u w self (Model.addBrush w self brush)
  | addBrushes (w : World) (self : EntityId) (brushes : List BrushId) :
      Mutation fl center u w self (Model.addBrushes w self brushes)
  | removeBrush (w : World) (self : EntityId) (brush : BrushId) :
      Mutation fl center u w self (Model.removeBrush w self brush)
  | setDefinition (w : World) (self : EntityId) (definition : Option DefinitionId) :
      Mutation fl center u w self (Model.setDefinition w self definition)
  | translate (w : World) (self : EntityId) (delta : Vec3f F) (w' : World) :
      Model.translate fl u w self delta = .returns w' → Mutation fl center u w self w'
  | rotate90 (w : World) (self : EntityId) (axis : Axis) (rotationCenter : Vec3f F)
      (clockwise : Bool) (w' : World) :
      Model.rotate90 fl center u w self axis rotationCenter clockwise = .returns w' →
      Mutation fl center u w self w'
  | rotate (w : World) (self : EntityId) (rotation : Quat F) (rotationCenter : Vec3f F)
      (w' : World) :
      Model.rotate fl center u w self rotation rotationCenter = .returns w' →
      Mutation fl center u w self w'
  | flip (w : World) (self : EntityId) (axis : Axis) (flipCenter : Vec3f F) (w' : World) :
      Model.flip fl center u w self axis flipCenter = .returns w' →
      Mutation fl center u w self w'

/-- One step of a run: a cache that is not valid is validated, or an operation changes an
entity. The operations write the cache only through `validateGeometry`, which `center()`
calls for the entity itself inside `rotate90`, `rotate`, `flip` and `rotationInfo`; what
these calls leave behind is not followed: after an operation the cache of an entity whose
flag is set is as before, the cache of an entity whose flag is cleared may hold anything. -/
inductive Step {F : Type} (fl : FloatOps F) (bo : BoundsOps F) (center : CenterOf F)
    (u : MapUpdates) : Cached F → Cached F → Prop where
  | validate (s : Cached F) (self : EntityId) (s' : Cached F) :
      validateGeometry fl bo s self = .passed (.returns s') → Step fl bo center u s s'
  | mutate (s : Cached F) (self : EntityId) (w' : World) (cache' : GeometryCache F) :
      Mutation fl center u s.world self w' →
      (∀ e, (w'.entities e).m_geometryValid = true →
        cache'.m_bounds e = s.cache.m_bounds e ∧ cache'.m_center e = s.cache.m_center e) →
      Step fl bo center u s { world := w', cache := cache' }

/-! ## Picking (lines 795 to 803) -/

/-- A ray, `Ray`. -/
structure Ray (F : Type) where
  origin : Vec3f F
  direction : Vec3f F

/-- Address of a `BrushFace` object. -/
abbrev FaceId := Nat

/-- The object a hit refers to. -/
inductive HitObject where
  | entity (e : EntityId)
  | face (f : FaceId)
deriving DecidableEq, Repr

/-- Modelled from the spec: a hit record, "carrying: a reference to the hit object, the
world-space hit point, and the distance". -/
structure Hit (F : Type) where
  object : HitObject
  hitPoint : Vec3f F
  distance : F

/-- Modelled from the spec: the collector `PickResult`, which "accumulates hits from multiple
objects without ordering them itself". -/
abbrev PickResult (F : Type) := List (Hit F)

/-- Modelled from the spec: `PickResult::add`. -/
def PickResult.add {F : Type} (pickResults : PickResult F) (hit : Hit F) : PickResult F :=
  pickResults ++ [hit]

/-- Modelled from the spec: the operations on rays and boxes that `pick` takes from outside
the sources: `BBox::intersectWithRay`, which gives a distance or not-a-number, `Math::isnan`
and the product of a vector and a number. Each is a parameter. -/
structure RayOps (F : Type) where
  intersectWithRay : BBox F → Ray F → F
  isnan : F → Bool
  scaled : Vec3f F → F → Vec3f F

/-- Modelled from the spec: `Ray::pointAtDistance`, the point of the ray at a distance from
its origin. -/
def pointAtDistance {F : Type} (fl : FloatOps F) (ro : RayOps F) (ray : Ray F) (distance : F) :
    Vec3f F :=
  fl.vadd ray.origin (ro.scaled ray.direction distance)

/-- `pick(ray, pickResults)`, lines 795 to 803. `bounds()` revalidates the cache before it
hands out the cached box. -/
def pick {F : Type} (fl : FloatOps F) (bo : BoundsOps F) (ro : RayOps F) (s : Cached F)
    (self : EntityId) (ray : Ray F) (pickResults : PickResult F) : Cached F × PickResult F :=
  let s1 := revalidated fl bo s self
  let dist := ro.intersectWithRay (s1.cache.m_bounds self) ray
  if ro.isnan dist then (s1, pickResults)
  else
    let hitPoint := pointAtDistance fl ro ray dist
    (s1, pickResults.add { object := .entity self, hitPoint := hitPoint, distance := dist })

/-! ## Boxes and rays in the decimal arithmetic -/

namespace Fixed

/-- A box with whole corners. -/
def box (x0 y0 z0 x1 y1 z1 : Int) : BBox Int :=
  { min := { x := x0 * scale, y := y0 * scale, z := z0 * scale },
    max := { x := x1 * scale, y := y1 * scale, z := z1 * scale } }

/-- The smallest box around two boxes. -/
def mergeWith (a b : BBox Int) : BBox Int :=
  { min := { x := Min.min a.min.x b.min.x, y := Min.min a.min.y b.min.y,
             z := Min.min a.min.z b.min.z },
    max := { x := Max.max a.max.x b.max.x, y := Max.max a.max.y b.max.y,
             z := Max.max a.max.z b.max.z } }

def translateBox (b : BBox Int) (v : Vec3f Int) : BBox Int :=
  { min := { x := b.min.x + v.x, y := b.min.y + v.y, z := b.min.z + v.z },
    max := { x := b.max.x + v.x, y := b.max.y + v.y, z := b.max.z + v.z } }

def centerOfBox (b : BBox Int) : Vec3f Int :=
  { x := (b.min.x + b.max.x) / 2, y := (b.min.y + b.max.y) / 2, z := (b.min.z + b.max.z) / 2 }

/-- The value that stands for not-a-number among the distances. -/
def notANumber : Int := -1000000000000

/-- The part of a ray inside the slab between two planes across one axis: the distances at
which it enters and leaves, or nothing when it misses the slab. -/
def slab (lo hi o d : Int) : Option (Int × Int) :=
  if d = 0 then
    if lo ≤ o ∧ o ≤ hi then some (-1000000000000, 1000000000000) else none
  else if 0 < d then some (div (lo - o) d, div (hi - o) d)
  else some (div (hi - o) d, div (lo - o) d)

/-- The distance at which a ray from outside enters a box, or not-a-number. -/
def intersectWithRay (b : BBox Int) (r : Ray Int) : Int :=
  match slab b.min.x b.max.x r.origin.x r.direction.x,
        slab b.min.y b.max.y r.origin.y r.direction.y,
        slab b.min.z b.max.z r.origin.z r.direction.z with
  | some sx, some sy, some sz =>
    let near := Max.max sx.1 (Max.max sy.1 sz.1)
    let far := Min.min sx.2 (Min.min sy.2 sz.2)
    if near ≤ far ∧ 0 ≤ near then near else notANumber
  | _, _, _ => notANumber

end Fixed

/-- Boxes for the examples: brush 7 is the cube from 0 to 16, every other brush the cube
next to it in X; every point definition has the box from (-16, -16, -24) to (16, 16, 32). -/
def fixedBounds : BoundsOps Int where
  brushBounds := fun b => if b = 7 then Fixed.box 0 0 0 16 16 16 else Fixed.box 16 0 0 32 16 16
  definitionBounds := fun _ => Fixed.box (-16) (-16) (-24) 16 16 32
  mergeWith := Fixed.mergeWith
  translate := Fixed.translateBox
  center := Fixed.centerOfBox

/-- Rays for the examples. -/
def fixedRays : RayOps Int where
  intersectWithRay := Fixed.intersectWithRay
  isnan := fun a => decide (a = Fixed.notANumber)
  scaled := fun v a => { x := Fixed.mul v.x a, y := Fixed.mul v.y a, z := Fixed.mul v.z a }

/-- A cache that holds nothing yet. -/
def emptyCache : GeometryCache Int where
  m_bounds := fun _ => Fixed.box 0 0 0 0 0 0
  m_center := fun _ => fixedPoint.null

/-- Entity 0 is a wall made of the brushes 7 and 8 and has no definition. -/
def wallWorld : World where
  entities := fun i => match i with
    | 0 => { m_brushes := [7, 8],
             m_propertyStore := [{ key := "classname", value := "func_wall" }] }
    | _ => {}
  maps := fun _ => exampleMap
  definitions := fun _ => {}

/-- The ray from (8, -8, 8) along Y, as in `BrushTest`. -/
def testRay : Ray Int :=
  { origin := { x := 8000000, y := -8000000, z := 8000000 }, direction := fixedPoint.PosY }

/-- The ray from (8, -8, 8) against Y. -/
def awayRay : Ray Int :=
  { origin := { x := 8000000, y := -8000000, z := 8000000 },
    direction := { x := 0, y := -1000000, z := 0 } }

/-- What an operation on an entity keeps of the state the geometry is derived from: the types
of the definitions; the store, the brushes, the definition and the flag of every other
entity; and, for the entity itself, everything unless its flag is cleared. -/
def GeometryKept (w w' : World) (self : EntityId) : Prop :=
  (∀ d, (w'.definitions d).m_type = (w.definitions d).m_type) ∧
  (∀ y, y ≠ self →
    (w'.entities y).m_propertyStore = (w.entities y).m_propertyStore ∧
    (w'.entities y).m_brushes = (w.entities y).m_brushes ∧
    (w'.entities y).m_definition = (w.entities y).m_definition ∧
    (w'.entities y).m_geometryValid = (w.entities y).m_geometryValid) ∧
  ((w'.entities self).m_geometryValid = false ∨ w' = w)

/-- The monster of `monsterWorld` with nothing cached. -/
def freshMonster : Cached Int := { world := monsterWorld, cache := emptyCache }

/-- The monster after its bounds have been asked for. -/
def validMonster : Cached Int := revalidated fixedPoint fixedBounds freshMonster 0

/-- The monster after it has then been moved to the null vector: the cache still holds the old
box. -/
def movedMonster : Cached Int :=
  { world := (setProperty quietUpdates validMonster.world 0 OriginKey (some "0 0 0")).get
      validMonster.world,
    cache := validMonster.cache }

/-! ## Brushes and their faces

The sources hold the tests of `Brush` (`BrushTest.cpp`) and not `Brush` itself; the brush is
modelled from the spec, in exact arithmetic over an ordered field. -/

namespace Vec3f

variable {K : Type} [LinearOrderedField K]

def add (a b : Vec3f K) : Vec3f K := { x := a.x + b.x, y := a.y + b.y, z := a.z + b.z }

def sub (a b : Vec3f K) : Vec3f K := { x := a.x - b.x, y := a.y - b.y, z := a.z - b.z }

def scale (a : Vec3f K) (t : K) : Vec3f K := { x := a.x * t, y := a.y * t, z := a.z * t }

def dot (a b : Vec3f K) : K := a.x * b.x + a.y * b.y + a.z * b.z

def cross (a b : Vec3f K) : Vec3f K :=
  { x := a.y * b.z - a.z * b.y, y := a.z * b.x - a.x * b.z, z := a.x * b.y - a.y * b.x }

end Vec3f

/-- Modelled from the spec: a `BrushFace`, "a planar polygon defined by three reference
points"; the address tells faces of the same geometry apart. -/
structure BrushFace (K : Type) where
  address : FaceId
  p0 : Vec3f K
  p1 : Vec3f K
  p2 : Vec3f K

/-- Modelled from the spec: a `Brush`, "an ordered sequence of BrushFaces" in a world. -/
structure Brush (K : Type) where
  m_worldBounds : BBox K
  m_faces : List (BrushFace K)

namespace BrushFace

variable {K : Type} [LinearOrderedField K]

/-- Modelled from the spec: the normal of the plane of a face; "face normals consistently
point outward". For the three points of each face of the cube of `BrushTest` that is the
product of `p2 - p0` and `p1 - p0`. -/
def normal (f : BrushFace K) : Vec3f K :=
  Vec3f.cross (Vec3f.sub f.p2 f.p0) (Vec3f.sub f.p1 f.p0)

/-- How far a point lies in front of the plane of a face, in units of the length of the
normal: zero on the plane, negative behind it. -/
def side (f : BrushFace K) (p : Vec3f K) : K :=
  Vec3f.dot f.normal (Vec3f.sub p f.p0)

end BrushFace

/-- The point of a ray at a distance from its origin, in exact arithmetic. -/
def Ray.pointAtDistance {K : Type} [LinearOrderedField K] (ray : Ray K) (distance : K) :
    Vec3f K :=
  Vec3f.add ray.origin (Vec3f.scale ray.direction distance)

namespace Brush

variable {K : Type} [LinearOrderedField K]

/-- Modelled from the spec: `Brush::newBrush(worldBounds, faces)`; the brush holds the faces
as given, "order is significant" and "later faces are not guaranteed to be non-redundant". -/
def newBrush (worldBounds : BBox K) (faces : List (BrushFace K)) : Brush K :=
  { m_worldBounds := worldBounds, m_faces := faces }

/-- Modelled from the spec: `faces()`. -/
def faces (b : Brush K) : List (BrushFace K) := b.m_faces

/-- Modelled from the spec: the brush is "a convex solid defined by an ordered list of planar
faces": the points behind or on the plane of every face. -/
def contains (b : Brush K) (p : Vec3f K) : Bool :=
  b.m_faces.all fun f => decide (f.side p ≤ 0)

/-- Modelled from the spec: the intersection of a ray with the polygon of a face, the part of
the plane of the face that belongs to the solid: the distance at which the ray meets the
plane, when it is not parallel to it, the distance is strictly positive and the point lies
in the polygon. -/
def intersectWithRay (b : Brush K) (f : BrushFace K) (ray : Ray K) : Option K :=
  if Vec3f.dot f.normal ray.direction = 0 then none
  else
    let distance := - f.side ray.origin / Vec3f.dot f.normal ray.direction
    if 0 < distance ∧ b.contains (ray.pointAtDistance distance) = true then some distance
    else none

/-- The closer of the best intersection so far and the intersection with one more face; a
face met at the same distance as an earlier one does not replace it. -/
def closer (best : Option (BrushFace K × K)) (f : BrushFace K) (distance : Option K) :
    Option (BrushFace K × K) :=
  match distance, best with
  | none, _ => best
  | some t, none => some (f, t)
  | some t, some (g, s) => if t < s then some (f, t) else some (g, s)

/-- Modelled from the spec: the ray is intersected with "every face's supporting
polygon/plane in sequence", which gives "the closest strictly-positive-distance
intersection, or none". -/
def closest (b : Brush K) (ray : Ray K) : Option (BrushFace K × K) :=
  b.m_faces.foldl (fun best f => closer best f (b.intersectWithRay f ray)) none

/-- Modelled from the spec: `Brush::pick(ray, pickResults)`: the closest intersection, when
there is one, is added to the collector as a hit that carries the face, the hit point and
the distance. -/
def pick (b : Brush K) (ray : Ray K) (pickResults : PickResult K) : PickResult K :=
  match b.closest ray with
  | none => pickResults
  | some (f, t) =>
    pickResults.add
      { object := .face f.address, hitPoint := ray.pointAtDistance t, distance := t }

end Brush

/-! ## The brushes of `BrushTest` -/

/-- A point with whole coordinates. -/
def point (x y z : Int) : Vec3f ℚ := { x := x, y := y, z := z }

/-- The world bounds of the tests. -/
def testWorldBounds : BBox ℚ :=
  { min := point (-4096) (-4096) (-4096), max := point 4096 4096 4096 }

/-- The three faces of `constructFromBrushFaces`: three objects of the same geometry. -/
def sameFaces : List (BrushFace ℚ) :=
  [{ address := 0, p0 := point 0 0 0, p1 := point 1 0 0, p2 := point 0 1 0 },
   { address := 1, p0 := point 0 0 0, p1 := point 1 0 0, p2 := point 0 1 0 },
   { address := 2, p0 := point 0 0 0, p1 := point 1 0 0, p2 := point 0 1 0 }]

/-- The six faces of the cube of `pick`, in the order of the test: left, right, front, back,
top, bottom, with the addresses 0 to 5. -/
def cubeFaces : List (BrushFace ℚ) :=
  [{ address := 0, p0 := point 0 0 0, p1 := point 0 1 0, p2 := point 0 0 1 },
   { address := 1, p0 := point 16 0 0, p1 := point 16 0 1, p2 := point 16 1 0 },
   { address := 2, p0 := point 0 0 0, p1 := point 0 0 1, p2 := point 1 0 0 },
   { address := 3, p0 := point 0 16 0, p1 := point 1 16 0, p2 := point 0 16 1 },
   { address := 4, p0 := point 0 0 16, p1 := point 0 1 16, p2 := point 1 0 16 },
   { address := 5, p0 := point 0 0 0, p1 := point 1 0 0, p2 := point 0 1 0 }]

/-- The cube of `pick`. -/
def cube : Brush ℚ := Brush.newBrush testWorldBounds cubeFaces

/-- The ray from (8, -8, 8) along Y. -/
def cubeRay : Ray ℚ := { origin := point 8 (-8) 8, direction := point 0 1 0 }

/-- The ray from (8, -8, 8) against Y. -/
def cubeRayAway : Ray ℚ := { origin := point 8 (-8) 8, direction := point 0 (-1) 0 }

/-! ## Construction (lines 86 to 95 and 277 to 284) -/

/-- `init()`, lines 86 to 95. The edit state and the two brush counters are members no
property of the model looks at. -/
def init (u : MapUpdates) (w : World) (self : EntityId) : Outcome World :=
  let h := Function.update w.entities self
    { w.entities self with m_map := none, m_worldspawn := false, m_definition := none }
  (setProperty u { w with entities := h } self SpawnFlagsKey (some "0")).bind fun w1 =>
  .returns (invalidated w1 self)

/-- `Entity(worldBounds)`, lines 277 to 279: the object at the address `self` starts with an
empty store and empty lists, then `init()` runs. -/
def newEntity (u : MapUpdates) (w : World) (self : EntityId) : Outcome World :=
  init u { w with entities := Function.update w.entities self {} } self

/-- `Entity(worldBounds, entityTemplate)`, lines 281 to 284. -/
def newEntityFrom (u : MapUpdates) (w : World) (self : EntityId) (entityTemplate : EntityId) :
    Outcome World :=
  (newEntity u w self).bind fun w1 =>
  setProperties u w1 self (w.entities entityTemplate).m_propertyStore true

/-- The worldspawn flag agrees with the store: `worldspawn()` is true exactly when the class
name is present and is "worldspawn". -/
def WorldspawnAgrees (e : Entity) : Prop :=
  e.m_worldspawn = true ↔ classname e = some WorldspawnClassname

/-- The states an entity reaches from its construction through `setProperty`,
`setProperties`, `removeProperty` and `renameProperty`. -/
inductive Reachable (u : MapUpdates) (self : EntityId) : World → Prop where
  | newEntity (w w' : World) (hr : Model.newEntity u w self = .returns w') : Reachable u self w'
  | setProperty (w w' : World) (key : PropertyKey) (value : Option PropertyValue)
      (hw : Reachable u self w) (hr : Model.setProperty u w self key value = .returns w') :
      Reachable u self w'
  | setProperties (w w' : World) (properties : PropertyList) (replace : Bool)
      (hw : Reachable u self w)
      (hr : Model.setProperties u w self properties replace = .returns w') : Reachable u self w'
  | removeProperty (w w' : World) (key : PropertyKey) (hw : Reachable u self w)
      (hr : Model.removeProperty u w self key = .passed (.returns w')) : Reachable u self w'
  | renameProperty (w w' : World) (stale : PropertyValue) (oldKey newKey : PropertyKey)
      (hw : Reachable u self w)
      (hr : Model.renameProperty stale u w self oldKey newKey = .passed (.returns w')) :
      Reachable u self w'

/-- No entity has a property, a link or a definition. -/
def blankWorld : World where
  entities := fun _ => {}
  maps := fun _ => exampleMap
  definitions := fun _ => {}

/-- Entity 0 is a door made of brush 7 whose heading is 181 degrees. -/
def gateWorld : World where
  entities := fun i => match i with
    | 0 => { m_brushes := [7],
             m_propertyStore := [{ key := "classname", value := "func_door" },
                                 { key := "angle", value := "181" }] }
    | _ => {}
  maps := fun _ => exampleMap
  definitions := fun _ => {}

/-- The link graph agrees with the store of an entity, as far as the entity's own lists go:
every link target carries a targetname that is the value of a numbered target property of
the entity, every kill target one that is the value of a numbered killtarget property, and
the entity has sources only when it has a targetname. -/
def LinksMatchStore (w : World) (self : EntityId) : Prop :=
  (∀ t ∈ (w.entities self).m_linkTargets, ∃ p ∈ (w.entities self).m_propertyStore,
    isNumberedProperty TargetKey p.key = true ∧
      propertyForKey (w.entities t) TargetnameKey = some p.value) ∧
  (∀ t ∈ (w.entities self).m_killTargets, ∃ p ∈ (w.entities self).m_propertyStore,
    isNumberedProperty KillTargetKey p.key = true ∧
      propertyForKey (w.entities t) TargetnameKey = some p.value) ∧
  (propertyForKey (w.entities self) TargetnameKey = none →
    (w.entities self).m_linkSources = [] ∧ (w.entities self).m_killSources = [])

/-! ## The generator of `FloatPointsIssueGenerator.cpp` -/

/-- The type of an issue, `IssueType`. -/
abbrev IssueType := Nat

/-- The type of a quick fix, `QuickFixType`. -/
abbrev QuickFixType := Nat

/-- Modelled from the spec: a `QuickFix` (declared outside the sources; the spec counts the
quick fixes of the issue generators among the collaborators) is what its constructor is
given: the type of the fix, the type of the issue and a description. -/
structure QuickFix where
  fixType : QuickFixType
  issueType : IssueType
  description : String
deriving DecidableEq, Repr

/-- Modelled from the spec: the base class `Issue` (declared outside the sources) keeps the
type it is constructed with and the quick fixes added to it, none at first. -/
structure Issue where
  m_type : IssueType
  m_quickFixes : List QuickFix := []
deriving DecidableEq, Repr

/-- Modelled from the spec: `Issue::addQuickFix` (declared outside the sources) puts the
quick fix at the end of the list. -/
def Issue.addQuickFix (issue : Issue) (quickFix : QuickFix) : Issue :=
  { issue with m_quickFixes := issue.m_quickFixes ++ [quickFix] }

/-- The class `FloatPointsIssue`, lines 33 to 40: an issue that keeps the brush it is
about. -/
structure FloatPointsIssue where
  issue : Issue
  m_brush : BrushId
deriving DecidableEq, Repr

namespace FloatPointsIssue

/-- Line 37. -/
def SnapPointsToIntegerFix : QuickFixType := 0

/-- Line 38. -/
def FindIntegerPointsFix : QuickFixType := 1

/-- The constructor, lines 42 to 47; `type` is the constant `FloatPointsIssue::Type`, which
line 91 takes from `Issue::freeType()`. -/
def new (type : IssueType) (brush : BrushId) : FloatPointsIssue :=
  let issue : Issue := { m_type := type }
  let issue := issue.addQuickFix
    { fixType := SnapPointsToIntegerFix, issueType := type,
      description := "Snap plane points to integer" }
  let issue := issue.addQuickFix
    { fixType := FindIntegerPointsFix, issueType := type,
      description := "Find integer plane points" }
  { issue := issue, m_brush := brush }

end FloatPointsIssue

/-- Modelled from the spec: `BrushFace::points()`, the three reference points of the face in
their order. -/
def BrushFace.points {K : Type} (face : BrushFace K) : List (Vec3f K) :=
  [face.p0, face.p1, face.p2]

namespace FloatPointsIssueGenerator

/-- Lines 109 to 113: the loop over the three points of a face; the answer is whether the
loop comes to a point that is not integer. `isInteger` is `Vec3::isInteger`, declared outside
the sources. -/
def findsFloatPoint {K : Type} (isInteger : Vec3f K → Bool) : List (Vec3f K) → Bool
  | [] => false
  | point :: rest => if !isInteger point then true else findsFloatPoint isInteger rest

/-- Lines 106 to 116: the loop over the faces, which returns the new issue at the first face
with a point that is not integer and null when it runs out of faces. -/
def generateLoop {K : Type} (isInteger : Vec3f K → Bool) (type : IssueType) (brush : BrushId) :
    List (BrushFace K) → Option FloatPointsIssue
  | [] => none
  | face :: rest =>
    if findsFloatPoint isInteger face.points then some (FloatPointsIssue.new type brush)
    else generateLoop isInteger type brush rest

/-- `FloatPointsIssueGenerator::generate(brush)`, lines 102 to 117; the brush is given by its
address in `brushes`, null is `none`. -/
def generate {K : Type} [LinearOrderedField K] (isInteger : Vec3f K → Bool) (type : IssueType)
    (brushes : BrushId → Brush K) (brush : Option BrushId) :
    Asserted (Option FloatPointsIssue) :=
  match brush with
  | none => .assertionFailed
  | some address =>
    .passed (.returns (generateLoop isInteger type address (brushes address).faces))

end FloatPointsIssueGenerator

/-- A point of rational coordinates is integer when each coordinate is a whole number. -/
def wholePoint (p : Vec3f ℚ) : Bool :=
  decide (p.x.den = 1) && decide (p.y.den = 1) && decide (p.z.den = 1)

/-- Brush 7 has the faces of the cube of `BrushTest` but for the face on the right, whose
second point is (16, 0, 1/2); brush 8 is the cube; every other brush has no face. -/
def wedgeBrushes : BrushId → Brush ℚ := fun address =>
  match address with
  | 7 => Brush.newBrush testWorldBounds
      [{ address := 0, p0 := point 0 0 0, p1 := point 0 1 0, p2 := point 0 0 1 },
       { address := 1, p0 := point 16 0 0, p1 := { x := 16, y := 0, z := 1 / 2 },
         p2 := point 16 1 0 },
       { address := 2, p0 := point 0 0 0, p1 := point 0 0 1, p2 := point 1 0 0 }]
  | 8 => cube
  | _ => Brush.newBrush testWorldBounds []

/-- The entity has none of the orientation properties angle, angles and mangle. -/
def Unoriented (e : Entity) : Prop :=
  propertyForKey e AngleKey = none ∧ propertyForKey e AnglesKey = none ∧
    propertyForKey e MangleKey = none

/-! ## Notions for the center of an entity without brushes -/

/-- Entity 0 is a plat made of brush 7 whose heading is 1234567 degrees. -/
def spinWorld : World where
  entities := fun i => match i with
    | 0 => { m_brushes := [7],
             m_propertyStore := [{ key := "classname", value := "func_plat" },
                                 { key := "angle", value := "1234567" }] }
    | _ => {}
  maps := fun _ => exampleMap
  definitions := fun _ => {}

/-- Entity 0 (attached to registry 0) targets "a" with the property target and "b" with the
property target2; it is linked to entity 1, whose targetname is "a", and to entity 2, whose
targetname is "b", and both list it as a link source. -/
def forkWorld : World where
  entities := fun i =>
    match i with
    | 0 => { m_map := some 0,
             m_propertyStore := [{ key := "target", value := "a" },
                                 { key := "target2", value := "b" }],
             m_linkTargets := [1, 2] }
    | 1 => { m_map := some 0, m_propertyStore := [{ key := "targetname", value := "a" }],
             m_linkSources := [0] }
    | 2 => { m_map := some 0, m_propertyStore := [{ key := "targetname", value := "b" }],
             m_linkSources := [0] }
    | _ => {}
  maps := fun _ => exampleMap
  definitions := fun _ => {}

/-! ## Lists -/

theorem mem_erase {l : List Nat} {a x : Nat} : x ∈ Utility.erase l a ↔ x ∈ l ∧ x ≠ a := by
  simp [Utility.erase]

theorem erase_erase (l : List Nat) (a : Nat) :
    Utility.erase (Utility.erase l a) a = Utility.erase l a := by
  simp [Utility.erase, List.filter_filter]

theorem erase_eq_self {l : List Nat} {a : Nat} (h : a ∉ l) : Utility.erase l a = l := by
  unfold Utility.erase
  rw [List.filter_eq_self]
  intro x hx
  have : x ≠ a := fun e => h (e ▸ hx)
  simpa using this

theorem erase_nil (a : Nat) : Utility.erase [] a = [] := rfl

theorem mem_replicate_count {L : List Nat} {y a self : Nat} :
    a ∈ List.replicate (L.count y) self ↔ a = self ∧ y ∈ L := by
  rw [List.mem_replicate, Ne, List.count_eq_zero]
  tauto

/-! ## What each loop does to each entity -/

theorem foldl_removeLinkSource (self : EntityId) (L : EntityList) (h : Heap) (y : EntityId) :
    (L.foldl (fun acc entity => removeLinkSource acc entity self) h) y =
      { h y with m_linkSources :=
          if y ∈ L then Utility.erase (h y).m_linkSources self else (h y).m_linkSources } := by
  induction L generalizing h with
  | nil => simp
  | cons x L ih =>
    rw [List.foldl_cons, ih]
    by_cases hyx : y = x
    · subst hyx
      simp [removeLinkSource, erase_erase]
    · simp [removeLinkSource, Function.update_noteq hyx, hyx]

theorem foldl_removeLinkTarget (self : EntityId) (L : EntityList) (h : Heap) (y : EntityId) :
    (L.foldl (fun acc entity => removeLinkTarget acc entity self) h) y =
      { h y with m_linkTargets :=
          if y ∈ L then Utility.erase (h y).m_linkTargets self else (h y).m_linkTargets } := by
  induction L generalizing h with
  | nil => simp
  | cons x L ih =>
    rw [List.foldl_cons, ih]
    by_cases hyx : y = x
    · subst hyx
      simp [removeLinkTarget, erase_erase]
    · simp [removeLinkTarget, Function.update_noteq hyx, hyx]

theorem foldl_removeKillSource (self : EntityId) (L : EntityList) (h : Heap) (y : EntityId) :
    (L.foldl (fun acc entity => removeKillSource acc entity self) h) y =
      { h y with m_killSources :=
          if y ∈ L then Utility.erase (h y).m_killSources self else (h y).m_killSources } := by
  induction L generalizing h with
  | nil => simp
  | cons x L ih =>
    rw [List.foldl_cons, ih]
    by_cases hyx : y = x
    · subst hyx
      simp [removeKillSource, erase_erase]
    · simp [removeKillSource, Function.update_noteq hyx, hyx]

theorem foldl_removeKillTarget (self : EntityId) (L : EntityList) (h : Heap) (y : EntityId) :
    (L.foldl (fun acc entity => removeKillTarget acc entity self) h) y =
      { h y with m_killTargets :=
          if y ∈ L then Utility.erase (h y).m_killTargets self else (h y).m_killTargets } := by
  induction L generalizing h with
  | nil => simp
  | cons x L ih =>
    rw [List.foldl_cons, ih]
    by_cases hyx : y = x
    · subst hyx
      simp [removeKillTarget, erase_erase]
    · simp [removeKillTarget, Function.update_noteq hyx, hyx]

theorem foldl_addLinkSource (self : EntityId) (L : EntityList) (h : Heap) (y : EntityId) :
    (L.foldl (fun acc entity => addLinkSource acc entity self) h) y =
      { h y with m_linkSources := (h y).m_linkSources ++ List.replicate (L.count y) self } := by
  induction L generalizing h with
  | nil => simp
  | cons x L ih =>
    rw [List.foldl_cons, ih]
    by_cases hyx : y = x
    · subst hyx
      simp [addLinkSource, List.replicate_succ]
    · have hxy : ¬ (x = y) := fun e => hyx e.symm
      simp [addLinkSource, Function.update_noteq hyx, hyx, hxy, List.count_cons]

theorem foldl_addKillSource (self : EntityId) (L : EntityList) (h : Heap) (y : EntityId) :
    (L.foldl (fun acc entity => addKillSource acc entity self) h) y =
      { h y with m_killSources := (h y).m_killSources ++ List.replicate (L.count y) self } := by
  induction L generalizing h with
  | nil => simp
  | cons x L ih =>
    rw [List.foldl_cons, ih]
    by_cases hyx : y = x
    · subst hyx
      simp [addKillSource, List.replicate_succ]
    · have hxy : ¬ (x = y) := fun e => hyx e.symm
      simp [addKillSource, Function.update_noteq hyx, hyx, hxy, List.count_cons]

theorem unlinkLinkTargets_apply (h : Heap) (self y : EntityId) :
    unlinkLinkTargets h self y =
      { h y with
        m_linkTargets := if y = self then [] else (h y).m_linkTargets
        m_linkSources :=
          if y ∈ (h self).m_linkTargets then Utility.erase (h y).m_linkSources self
          else (h y).m_linkSources } := by
  unfold unlinkLinkTargets
  by_cases hy : y = self
  · subst hy
    simp [foldl_removeLinkSource]
  · simp [foldl_removeLinkSource, Function.update_noteq hy, hy]

theorem unlinkLinkSources_apply (h : Heap) (self y : EntityId) :
    unlinkLinkSources h self y =
      { h y with
        m_linkSources := if y = self then [] else (h y).m_linkSources
        m_linkTargets :=
          if y ∈ (h self).m_linkSources then Utility.erase (h y).m_linkTargets self
          else (h y).m_linkTargets } := by
  unfold unlinkLinkSources
  by_cases hy : y = self
  · subst hy
    simp [foldl_removeLinkTarget]
  · simp [foldl_removeLinkTarget, Function.update_noteq hy, hy]

theorem unlinkKillTargets_apply (h : Heap) (self y : EntityId) :
    unlinkKillTargets h self y =
      { h y with
        m_killTargets := if y = self then [] else (h y).m_killTargets
        m_killSources :=
          if y ∈ (h self).m_killTargets then Utility.erase (h y).m_killSources self
          else (h y).m_killSources } := by
  unfold unlinkKillTargets
  by_cases hy : y = self
  · subst hy
    simp [foldl_removeKillSource]
  · simp [foldl_removeKillSource, Function.update_noteq hy, hy]

theorem unlinkKillSources_apply (h : Heap) (self y : EntityId) :
    unlinkKillSources h self y =
      { h y with
        m_killSources := if y = self then [] else (h y).m_killSources
        m_killTargets :=
          if y ∈ (h self).m_killSources then Utility.erase (h y).m_killTargets self
          else (h y).m_killTargets } := by
  unfold unlinkKillSources
  by_cases hy : y = self
  · subst hy
    simp [foldl_removeKillTarget]
  · simp [foldl_removeKillTarget, Function.update_noteq hy, hy]

theorem insertLinkTargets_apply (h : Heap) (self : EntityId) (map : Map) (names : StringList)
    (y : EntityId) :
    insertLinkTargets h self map names y =
      { h y with m_linkTargets :=
          if y = self then (h y).m_linkTargets ++ names.flatMap map.entitiesWithTargetname
          else (h y).m_linkTargets } := by
  unfold insertLinkTargets
  induction names generalizing h with
  | nil => simp
  | cons n names ih =>
    rw [List.foldl_cons, ih]
    by_cases hy : y = self
    · subst hy
      simp [List.flatMap_cons]
    · simp [Function.update_noteq hy, hy]

theorem insertKillTargets_apply (h : Heap) (self : EntityId) (map : Map) (names : StringList)
    (y : EntityId) :
    insertKillTargets h self map names y =
      { h y with m_killTargets :=
          if y = self then (h y).m_killTargets ++ names.flatMap map.entitiesWithTargetname
          else (h y).m_killTargets } := by
  unfold insertKillTargets
  induction names generalizing h with
  | nil => simp
  | cons n names ih =>
    rw [List.foldl_cons, ih]
    by_cases hy : y = self
    · subst hy
      simp [List.flatMap_cons]
    · simp [Function.update_noteq hy, hy]

theorem registerLinkTargets_apply (h : Heap) (self y : EntityId) :
    registerLinkTargets h self y =
      { h y with m_linkSources :=
          (h y).m_linkSources ++ List.replicate ((h self).m_linkTargets.count y) self } := by
  unfold registerLinkTargets
  rw [foldl_addLinkSource]

theorem registerKillTargets_apply (h : Heap) (self y : EntityId) :
    registerKillTargets h self y =
      { h y with m_killSources :=
          (h y).m_killSources ++ List.replicate ((h self).m_killTargets.count y) self } := by
  unfold registerKillTargets
  rw [foldl_addKillSource]

theorem relinkLinkSources_apply (h : Heap) (self : EntityId) (L : EntityList) (y : EntityId) :
    relinkLinkSources h self L y =
      { h y with
        m_linkTargets := (h y).m_linkTargets ++ List.replicate (L.count y) self
        m_linkSources := if y = self then (h y).m_linkSources ++ L else (h y).m_linkSources } := by
  unfold relinkLinkSources
  induction L generalizing h with
  | nil => simp
  | cons x L ih =>
    rw [List.foldl_cons, ih]
    by_cases hy : y = self <;> by_cases hx : y = x
    · subst hy; subst hx
      simp [addLinkTarget, List.replicate_succ]
    · subst hy
      have hxy : ¬ (x = y) := fun e => hx e.symm
      simp [addLinkTarget, hx, hxy, List.count_cons]
    · subst hx
      have hsy : ¬ (self = y) := fun e => hy e.symm
      simp [addLinkTarget, hy, hsy, List.replicate_succ]
    · have hxy : ¬ (x = y) := fun e => hx e.symm
      simp [addLinkTarget, hy, hx, hxy, List.count_cons]

theorem relinkKillSources_apply (h : Heap) (self : EntityId) (L : EntityList) (y : EntityId) :
    relinkKillSources h self L y =
      { h y with
        m_killTargets := (h y).m_killTargets ++ List.replicate (L.count y) self
        m_killSources := if y = self then (h y).m_killSources ++ L else (h y).m_killSources } := by
  unfold relinkKillSources
  induction L generalizing h with
  | nil => simp
  | cons x L ih =>
    rw [List.foldl_cons, ih]
    by_cases hy : y = self <;> by_cases hx : y = x
    · subst hy; subst hx
      simp [addKillTarget, List.replicate_succ]
    · subst hy
      have hxy : ¬ (x = y) := fun e => hx e.symm
      simp [addKillTarget, hx, hxy, List.count_cons]
    · subst hx
      have hsy : ¬ (self = y) := fun e => hy e.symm
      simp [addKillTarget, hy, hsy, List.replicate_succ]
    · have hxy : ¬ (x = y) := fun e => hx e.symm
      simp [addKillTarget, hy, hx, hxy, List.count_cons]

theorem createLinkTargets_apply (h : Heap) (self : EntityId) (L : EntityList) (y : EntityId) :
    createLinkTargets h self L y =
      { h y with
        m_linkSources := (h y).m_linkSources ++ List.replicate (L.count y) self
        m_linkTargets := if y = self then (h y).m_linkTargets ++ L else (h y).m_linkTargets } := by
  unfold createLinkTargets
  induction L generalizing h with
  | nil => simp
  | cons x L ih =>
    rw [List.foldl_cons, ih]
    by_cases hy : y = self <;> by_cases hx : y = x
    · subst hy; subst hx
      simp [addLinkSource, List.replicate_succ]
    · subst hy
      have hxy : ¬ (x = y) := fun e => hx e.symm
      simp [addLinkSource, hx, hxy, List.count_cons]
    · subst hx
      have hsy : ¬ (self = y) := fun e => hy e.symm
      simp [addLinkSource, hy, hsy, List.replicate_succ]
    · have hxy : ¬ (x = y) := fun e => hx e.symm
      simp [addLinkSource, hy, hx, hxy, List.count_cons]

theorem createKillTargets_apply (h : Heap) (self : EntityId) (L : EntityList) (y : EntityId) :
    createKillTargets h self L y =
      { h y with
        m_killSources := (h y).m_killSources ++ List.replicate (L.count y) self
        m_killTargets := if y = self then (h y).m_killTargets ++ L else (h y).m_killTargets } := by
  unfold createKillTargets
  induction L generalizing h with
  | nil => simp
  | cons x L ih =>
    rw [List.foldl_cons, ih]
    by_cases hy : y = self <;> by_cases hx : y = x
    · subst hy; subst hx
      simp [addKillSource, List.replicate_succ]
    · subst hy
      have hxy : ¬ (x = y) := fun e => hx e.symm
      simp [addKillSource, hx, hxy, List.count_cons]
    · subst hx
      have hsy : ¬ (self = y) := fun e => hy e.symm
      simp [addKillSource, hy, hsy, List.replicate_succ]
    · have hxy : ¬ (x = y) := fun e => hx e.symm
      simp [addKillSource, hy, hx, hxy, List.count_cons]

/-! ## Symmetry through the loops -/

theorem symmetric_congr {h h' : Heap}
    (hl : ∀ y, (h' y).m_linkTargets = (h y).m_linkTargets ∧ (h' y).m_linkSources = (h y).m_linkSources ∧
      (h' y).m_killTargets = (h y).m_killTargets ∧ (h' y).m_killSources = (h y).m_killSources)
    (hs : Symmetric h) : Symmetric h' := by
  intro e x
  rw [(hl e).1, (hl x).2.1, (hl e).2.2.1, (hl x).2.2.2]
  exact hs e x

theorem unlinkLink_apply {h : Heap} (hs : Symmetric h) (self y : EntityId) :
    unlinkLinkSources (unlinkLinkTargets h self) self y =
      { h y with
        m_linkTargets := if y = self then [] else Utility.erase (h y).m_linkTargets self
        m_linkSources := if y = self then [] else Utility.erase (h y).m_linkSources self } := by
  rw [unlinkLinkSources_apply, unlinkLinkTargets_apply, unlinkLinkTargets_apply]
  by_cases hy : y = self
  · subst hy
    simp [erase_nil]
  · have h1 : (y ∈ (h self).m_linkTargets) ↔ self ∈ (h y).m_linkSources := (hs self y).1
    have h2 : (self ∈ (h y).m_linkTargets) ↔ y ∈ (h self).m_linkSources := (hs y self).1
    have hm : (y ∈ if self ∈ (h self).m_linkTargets then Utility.erase (h self).m_linkSources self
        else (h self).m_linkSources) ↔ y ∈ (h self).m_linkSources := by
      split_ifs <;> simp [mem_erase, hy]
    by_cases ha : self ∈ (h y).m_linkSources <;> by_cases hb : self ∈ (h y).m_linkTargets
    · have ha' := h1.2 ha
      have hb' := h2.1 hb
      simp [hy, ha', hb', hm, mem_erase]
    · have ha' := h1.2 ha
      have hb' : y ∉ (h self).m_linkSources := fun c => hb (h2.2 c)
      simp [hy, ha', hb', hm, mem_erase, erase_eq_self hb]
    · have ha' : y ∉ (h self).m_linkTargets := fun c => ha (h1.1 c)
      have hb' := h2.1 hb
      simp [hy, ha', hb', hm, mem_erase, erase_eq_self ha]
    · have ha' : y ∉ (h self).m_linkTargets := fun c => ha (h1.1 c)
      have hb' : y ∉ (h self).m_linkSources := fun c => hb (h2.2 c)
      simp [hy, ha', hb', hm, mem_erase, erase_eq_self ha, erase_eq_self hb]

theorem unlinkKill_apply {h : Heap} (hs : Symmetric h) (self y : EntityId) :
    unlinkKillSources (unlinkKillTargets h self) self y =
      { h y with
        m_killTargets := if y = self then [] else Utility.erase (h y).m_killTargets self
        m_killSources := if y = self then [] else Utility.erase (h y).m_killSources self } := by
  rw [unlinkKillSources_apply, unlinkKillTargets_apply, unlinkKillTargets_apply]
  by_cases hy : y = self
  · subst hy
    simp [erase_nil]
  · have h1 : (y ∈ (h self).m_killTargets) ↔ self ∈ (h y).m_killSources := (hs self y).2
    have h2 : (self ∈ (h y).m_killTargets) ↔ y ∈ (h self).m_killSources := (hs y self).2
    have hm : (y ∈ if self ∈ (h self).m_killTargets then Utility.erase (h self).m_killSources self
        else (h self).m_killSources) ↔ y ∈ (h self).m_killSources := by
      split_ifs <;> simp [mem_erase, hy]
    by_cases ha : self ∈ (h y).m_killSources <;> by_cases hb : self ∈ (h y).m_killTargets
    · have ha' := h1.2 ha
      have hb' := h2.1 hb
      simp [hy, ha', hb', hm, mem_erase]
    · have ha' := h1.2 ha
      have hb' : y ∉ (h self).m_killSources := fun c => hb (h2.2 c)
      simp [hy, ha', hb', hm, mem_erase, erase_eq_self hb]
    · have ha' : y ∉ (h self).m_killTargets := fun c => ha (h1.1 c)
      have hb' := h2.1 hb
      simp [hy, ha', hb', hm, mem_erase, erase_eq_self ha]
    · have ha' : y ∉ (h self).m_killTargets := fun c => ha (h1.1 c)
      have hb' : y ∉ (h self).m_killSources := fun c => hb (h2.2 c)
      simp [hy, ha', hb', hm, mem_erase, erase_eq_self ha, erase_eq_self hb]

theorem symmetric_unlinkLink {h : Heap} (hs : Symmetric h) (self : EntityId) :
    Symmetric (unlinkLinkSources (unlinkLinkTargets h self) self) := by
  intro e x
  rw [unlinkLink_apply hs, unlinkLink_apply hs]
  have h1 := (hs e x).1
  have h2 := (hs e x).2
  refine ⟨?_, by simpa using h2⟩
  by_cases he : e = self <;> by_cases hx : x = self <;> simp [he, hx, mem_erase, h1]

theorem symmetric_unlinkKill {h : Heap} (hs : Symmetric h) (self : EntityId) :
    Symmetric (unlinkKillSources (unlinkKillTargets h self) self) := by
  intro e x
  rw [unlinkKill_apply hs, unlinkKill_apply hs]
  have h1 := (hs e x).1
  have h2 := (hs e x).2
  refine ⟨by simpa using h1, ?_⟩
  by_cases he : e = self <;> by_cases hx : x = self <;> simp [he, hx, mem_erase, h2]

theorem symmetric_registerLinkTargets {h : Heap} (hs : Symmetric h) (self : EntityId) (map : Map)
    (names : StringList) :
    Symmetric (registerLinkTargets (insertLinkTargets h self map names) self) := by
  intro e x
  have h1 := (hs e x).1
  have h2 := (hs e x).2
  have h3 := (hs self x).1
  simp only [registerLinkTargets_apply, insertLinkTargets_apply]
  refine ⟨?_, by simpa using h2⟩
  by_cases he : e = self
  · subst he
    simp [-List.mem_flatMap, List.count_eq_zero, h1]
    tauto
  · simp [he, List.count_eq_zero, h1]

theorem symmetric_registerKillTargets {h : Heap} (hs : Symmetric h) (self : EntityId) (map : Map)
    (names : StringList) :
    Symmetric (registerKillTargets (insertKillTargets h self map names) self) := by
  intro e x
  have h1 := (hs e x).1
  have h2 := (hs e x).2
  have h3 := (hs self x).2
  simp only [registerKillTargets_apply, insertKillTargets_apply]
  refine ⟨by simpa using h1, ?_⟩
  by_cases he : e = self
  · subst he
    simp [-List.mem_flatMap, List.count_eq_zero, h2]
    tauto
  · simp [he, List.count_eq_zero, h2]

theorem symmetric_relinkLinkSources {h : Heap} (hs : Symmetric h) (self : EntityId)
    (L : EntityList) : Symmetric (relinkLinkSources h self L) := by
  intro e x
  have h1 := (hs e x).1
  have h2 := (hs e x).2
  simp only [relinkLinkSources_apply]
  refine ⟨?_, by simpa using h2⟩
  by_cases hx : x = self
  · subst hx
    simp [List.count_eq_zero, h1]
  · simp [hx, List.count_eq_zero, h1]

theorem symmetric_relinkKillSources {h : Heap} (hs : Symmetric h) (self : EntityId)
    (L : EntityList) : Symmetric (relinkKillSources h self L) := by
  intro e x
  have h1 := (hs e x).1
  have h2 := (hs e x).2
  simp only [relinkKillSources_apply]
  refine ⟨by simpa using h1, ?_⟩
  by_cases hx : x = self
  · subst hx
    simp [List.count_eq_zero, h2]
  · simp [hx, List.count_eq_zero, h2]

theorem symmetric_createLinkTargets {h : Heap} (hs : Symmetric h) (self : EntityId)
    (L : EntityList) : Symmetric (createLinkTargets h self L) := by
  intro e x
  have h1 := (hs e x).1
  have h2 := (hs e x).2
  simp only [createLinkTargets_apply]
  refine ⟨?_, by simpa using h2⟩
  by_cases he : e = self
  · subst he
    simp [List.count_eq_zero, h1]
  · simp [he, List.count_eq_zero, h1]

theorem symmetric_createKillTargets {h : Heap} (hs : Symmetric h) (self : EntityId)
    (L : EntityList) : Symmetric (createKillTargets h self L) := by
  intro e x
  have h1 := (hs e x).1
  have h2 := (hs e x).2
  simp only [createKillTargets_apply]
  refine ⟨by simpa using h1, ?_⟩
  by_cases he : e = self
  · subst he
    simp [List.count_eq_zero, h2]
  · simp [he, List.count_eq_zero, h2]

theorem symmetric_update {h : Heap} (hs : Symmetric h) (self : EntityId) (e' : Entity)
    (hlt : e'.m_linkTargets = (h self).m_linkTargets)
    (hls : e'.m_linkSources = (h self).m_linkSources)
    (hkt : e'.m_killTargets = (h self).m_killTargets)
    (hks : e'.m_killSources = (h self).m_killSources) :
    Symmetric (Function.update h self e') := by
  refine symmetric_congr (fun y => ?_) hs
  by_cases hy : y = self
  · subst hy
    simp [hlt, hls, hkt, hks]
  · simp [Function.update_noteq hy]

/-- The four unlinking loops of `setMap`, one after the other. -/
theorem symmetric_unlink {h : Heap} (hs : Symmetric h) (self : EntityId) :
    Symmetric (unlinkKillSources (unlinkKillTargets
      (unlinkLinkSources (unlinkLinkTargets h self) self) self) self) :=
  symmetric_unlinkKill (symmetric_unlinkLink hs self) self

/-- C2: from a symmetric state, for every entity and every registry argument (null or not),
the adjacency lists of all entities are symmetric after `setMap`: `x` is a link target of `e`
exactly when `e` is a link source of `x`, and likewise for kill targets and kill sources. -/
theorem setMap_symmetric (w : World) (self : EntityId) (map : Option MapId)
    (hs : Symmetric w.entities) : Symmetric (setMap w self map).entities := by
  unfold setMap
  split_ifs with hm
  · exact hs
  · have h0 : Symmetric (Function.update w.entities self { w.entities self with m_map := map }) :=
      symmetric_update hs self _ rfl rfl rfl rfl
    have hu := symmetric_unlink h0 self
    cases map with
    | none => exact hu
    | some m =>
      simp only
      have hl := symmetric_registerLinkTargets hu self (w.maps m)
      have hk := fun names => symmetric_registerKillTargets (hl names) self (w.maps m)
      split
      · exact hk _ _
      · split_ifs
        · exact symmetric_relinkKillSources (symmetric_relinkLinkSources (hk _ _) self _) self _
        · exact hk _ _

/-! ## The loop that severs the links to the old target -/

theorem propertyForKey_update (h : Heap) (self : EntityId) (e' : Entity)
    (hp : e'.m_propertyStore = (h self).m_propertyStore) (t : EntityId) (key : PropertyKey) :
    propertyForKey (Function.update h self e' t) key = propertyForKey (h t) key := by
  by_cases ht : t = self
  · subst ht
    simp [propertyForKey, hp]
  · simp [Function.update_noteq ht]

theorem severLinkTargets_spec (self : EntityId) (old : PropertyValue) :
    ∀ (L : EntityList) (h h' : Heap), (h self).m_linkTargets = L →
      severLinkTargets self old L h = .returns h' →
      (∀ t ∈ L, propertyForKey (h t) TargetnameKey = none ∨
        propertyForKey (h t) TargetnameKey = some old) ∧
      ∀ y, h' y =
        { h y with
          m_linkTargets := if y = self then [] else (h y).m_linkTargets
          m_linkSources :=
            if y ∈ L ∧ propertyForKey (h y) TargetnameKey = some old then
              Utility.erase (h y).m_linkSources self
            else (h y).m_linkSources } := by
  intro L
  induction L with
  | nil =>
    intro h h' hL hr
    simp only [severLinkTargets, Outcome.returns.injEq] at hr
    subst hr
    refine ⟨by simp, fun y => ?_⟩
    by_cases hy : y = self
    · subst hy
      simp only [List.not_mem_nil, false_and, if_false, if_true]
      rw [← hL]
    · simp [hy]
  | cons t rest ih =>
    intro h h' hL hr
    rw [severLinkTargets] at hr
    cases hp : propertyForKey (h t) TargetnameKey with
    | none =>
      rw [hp] at hr
      simp only at hr
      have hstep := ih _ h' (by simp) hr
      have hpk : ∀ z, propertyForKey
          (Function.update h self { h self with m_linkTargets := rest } z) TargetnameKey =
            propertyForKey (h z) TargetnameKey := by
        intro z
        apply propertyForKey_update
        rfl
      simp only [hpk] at hstep
      refine ⟨?_, fun y => ?_⟩
      · intro z hz
        rcases List.mem_cons.1 hz with rfl | hz
        · exact Or.inl hp
        · exact hstep.1 z hz
      · rw [hstep.2 y]
        by_cases hy : y = self
        · subst hy
          by_cases hyt : y = t
          · subst hyt
            simp [hp]
          · simp [hyt]
        · by_cases hyt : y = t
          · subst hyt
            simp [hy, hp]
          · simp [hy, hyt, Function.update_noteq hy]
    | some n =>
      rw [hp] at hr
      simp only at hr
      by_cases hn : n = old
      · subst hn
        simp only [if_true] at hr
        have hstep := ih _ h' (by simp) hr
        have hpk : ∀ z, propertyForKey
            (Function.update (removeLinkSource h t self) self
              { removeLinkSource h t self self with m_linkTargets := rest } z) TargetnameKey =
              propertyForKey (h z) TargetnameKey := by
          intro z
          refine (propertyForKey_update _ _ _ ?_ z _).trans (propertyForKey_update h t _ ?_ z _) <;> rfl
        simp only [hpk] at hstep
        refine ⟨?_, fun y => ?_⟩
        · intro z hz
          rcases List.mem_cons.1 hz with rfl | hz
          · exact Or.inr hp
          · exact hstep.1 z hz
        · rw [hstep.2 y]
          by_cases hy : y = self
          · subst hy
            by_cases hyt : y = t
            · subst hyt
              simp [hp, removeLinkSource, erase_erase]
            · simp [hyt, removeLinkSource, Function.update_noteq hyt]
          · by_cases hyt : y = t
            · subst hyt
              simp [hy, hp, removeLinkSource, Function.update_noteq hy, erase_erase]
            · simp [hy, hyt, removeLinkSource, Function.update_noteq hy, Function.update_noteq hyt]
      · simp [hn] at hr

theorem severLinkTargets_total (self : EntityId) (old : PropertyValue) :
    ∀ (L : EntityList) (h : Heap),
      (∀ t ∈ L, propertyForKey (h t) TargetnameKey = none ∨
        propertyForKey (h t) TargetnameKey = some old) →
      ∃ h', severLinkTargets self old L h = .returns h' := by
  intro L
  induction L with
  | nil => intro h _; exact ⟨h, rfl⟩
  | cons t rest ih =>
    intro h hall
    rw [severLinkTargets]
    have hrest : ∀ z ∈ rest, propertyForKey (h z) TargetnameKey = none ∨
        propertyForKey (h z) TargetnameKey = some old :=
      fun z hz => hall z (List.mem_cons_of_mem _ hz)
    rcases hall t (List.mem_cons_self _ _) with hp | hp
    · rw [hp]
      apply ih
      intro z hz
      have e1 : propertyForKey (Function.update h self { h self with m_linkTargets := rest } z)
          TargetnameKey = propertyForKey (h z) TargetnameKey := by
        apply propertyForKey_update
        rfl
      rw [e1]
      exact hrest z hz
    · rw [hp]
      simp only [if_true]
      apply ih
      intro z hz
      have e1 : propertyForKey (Function.update (removeLinkSource h t self) self
          { removeLinkSource h t self self with m_linkTargets := rest } z) TargetnameKey =
          propertyForKey (h z) TargetnameKey := by
        refine (propertyForKey_update _ _ _ ?_ z _).trans (propertyForKey_update h t _ ?_ z _) <;> rfl
      rw [e1]
      exact hrest z hz

/-- The loop is never left when the list holds an entity whose targetname is present and
differs from the old value. -/
theorem severLinkTargets_stuck (self : EntityId) (old : PropertyValue) :
    ∀ (L : EntityList) (h : Heap) (t : EntityId) (n : PropertyValue), t ∈ L →
      propertyForKey (h t) TargetnameKey = some n → n ≠ old →
      severLinkTargets self old L h = .diverges := by
  intro L
  induction L with
  | nil => intro h t n ht; simp at ht
  | cons x rest ih =>
    intro h t n ht hp hn
    rw [severLinkTargets]
    cases hx : propertyForKey (h x) TargetnameKey with
    | none =>
      simp only
      rcases List.mem_cons.1 ht with rfl | ht'
      · rw [hx] at hp; cases hp
      · refine ih _ t n ht' ?_ hn
        rw [← hp]
        apply propertyForKey_update
        rfl
    | some m =>
      simp only
      by_cases hm : m = old
      · subst hm
        simp only [if_true]
        rcases List.mem_cons.1 ht with rfl | ht'
        · rw [hx] at hp
          exact absurd (Option.some.inj hp).symm hn
        · refine ih _ t n ht' ?_ hn
          rw [← hp]
          refine (propertyForKey_update _ _ _ ?_ t _).trans (propertyForKey_update h x _ ?_ t _) <;> rfl
      · simp [hm]

/-! ## Symmetry through setProperty -/

theorem symmetric_unlinkLinkTargets {h : Heap} (hs : Symmetric h) (self : EntityId) :
    Symmetric (unlinkLinkTargets h self) := by
  intro e x
  have h1 := (hs e x).1
  have h2 := (hs e x).2
  have h3 := (hs self x).1
  simp only [unlinkLinkTargets_apply]
  refine ⟨?_, by simpa using h2⟩
  by_cases he : e = self
  · subst he
    by_cases hx : x ∈ (h e).m_linkTargets
    · simp [hx, mem_erase]
    · simp [hx, ← h1]
  · by_cases hx : x ∈ (h self).m_linkTargets
    · simp [he, hx, mem_erase, h1]
    · simp [he, hx, h1]

theorem symmetric_unlinkLinkSources {h : Heap} (hs : Symmetric h) (self : EntityId) :
    Symmetric (unlinkLinkSources h self) := by
  intro e x
  have h1 := (hs e x).1
  have h2 := (hs e x).2
  have h3 := (hs e self).1
  simp only [unlinkLinkSources_apply]
  refine ⟨?_, by simpa using h2⟩
  by_cases hx : x = self
  · subst hx
    by_cases he : e ∈ (h x).m_linkSources
    · simp [he, mem_erase]
    · simp [he, h1]
  · by_cases he : e ∈ (h self).m_linkSources
    · simp [he, hx, mem_erase, h1]
    · simp [he, hx, h1]

theorem symmetric_unlinkKillSources {h : Heap} (hs : Symmetric h) (self : EntityId) :
    Symmetric (unlinkKillSources h self) := by
  intro e x
  have h1 := (hs e x).1
  have h2 := (hs e x).2
  have h3 := (hs e self).2
  simp only [unlinkKillSources_apply]
  refine ⟨by simpa using h1, ?_⟩
  by_cases hx : x = self
  · subst hx
    by_cases he : e ∈ (h x).m_killSources
    · simp [he, mem_erase]
    · simp [he, h2]
  · by_cases he : e ∈ (h self).m_killSources
    · simp [he, hx, mem_erase, h2]
    · simp [he, hx, h2]

/-- When every link target has the old value as its targetname, the severing loop is the
unlinking loop of `setMap`. -/
theorem severLinkTargets_eq_unlink (self : EntityId) (old : PropertyValue) (h h' : Heap)
    (hall : ∀ t ∈ (h self).m_linkTargets, propertyForKey (h t) TargetnameKey ≠ none)
    (hr : severLinkTargets self old (h self).m_linkTargets h = .returns h') :
    h' = unlinkLinkTargets h self := by
  have hspec := severLinkTargets_spec self old _ h h' rfl hr
  funext y
  rw [hspec.2 y, unlinkLinkTargets_apply]
  by_cases hy : y ∈ (h self).m_linkTargets
  · have := hspec.1 y hy
    have hne := hall y hy
    have hp : propertyForKey (h y) TargetnameKey = some old := by tauto
    simp [hy, hp]
  · simp [hy]

theorem classnameChanged_frame {w w1 : World} {self : EntityId} {key : PropertyKey}
    {value : Option PropertyValue} (hr : classnameChanged w self key value = .returns w1) :
    w1.maps = w.maps ∧ ∀ y,
      (w1.entities y).m_map = (w.entities y).m_map ∧
      (w1.entities y).m_propertyStore = (w.entities y).m_propertyStore ∧
      (w1.entities y).m_linkTargets = (w.entities y).m_linkTargets ∧
      (w1.entities y).m_linkSources = (w.entities y).m_linkSources ∧
      (w1.entities y).m_killTargets = (w.entities y).m_killTargets ∧
      (w1.entities y).m_killSources = (w.entities y).m_killSources := by
  unfold classnameChanged at hr
  split_ifs at hr with hk hv
  · cases value with
    | none => simp at hr
    | some v =>
      simp only [Outcome.returns.injEq] at hr
      subst hr
      refine ⟨rfl, fun y => ?_⟩
      by_cases hy : y = self
      · subst hy
        simp [setDefinition, invalidateGeometry]
      · simp [setDefinition, invalidateGeometry, Function.update_noteq hy]
  · simp only [Outcome.returns.injEq] at hr
    subst hr
    exact ⟨rfl, fun y => ⟨rfl, rfl, rfl, rfl, rfl, rfl⟩⟩
  · simp only [Outcome.returns.injEq] at hr
    subst hr
    exact ⟨rfl, fun y => ⟨rfl, rfl, rfl, rfl, rfl, rfl⟩⟩

theorem storeValue_frame (w : World) (self : EntityId) (key : PropertyKey)
    (value : Option PropertyValue) :
    (storeValue w self key value).maps = w.maps ∧ ∀ y,
      ((storeValue w self key value).entities y).m_map = (w.entities y).m_map ∧
      ((storeValue w self key value).entities y).m_linkTargets = (w.entities y).m_linkTargets ∧
      ((storeValue w self key value).entities y).m_linkSources = (w.entities y).m_linkSources ∧
      ((storeValue w self key value).entities y).m_killTargets = (w.entities y).m_killTargets ∧
      ((storeValue w self key value).entities y).m_killSources = (w.entities y).m_killSources := by
  refine ⟨rfl, fun y => ?_⟩
  by_cases hy : y = self
  · subst hy
    simp [storeValue, invalidateGeometry]
  · simp [storeValue, invalidateGeometry, Function.update_noteq hy]

theorem linkNewTarget_symmetric (u : MapUpdates) (w : World) (h : Heap) (self : EntityId)
    (value oldValue : Option PropertyValue) (hs : Symmetric h) :
    Symmetric (linkNewTarget u w h self value oldValue).entities := by
  unfold linkNewTarget
  split
  · exact hs
  · simp only
    split
    · split_ifs
      · exact symmetric_createLinkTargets hs self _
      · exact hs
    · exact hs

theorem linkNewKillTarget_symmetric (u : MapUpdates) (w : World) (h : Heap) (self : EntityId)
    (value oldValue : Option PropertyValue) (hs : Symmetric h) :
    Symmetric (linkNewKillTarget u w h self value oldValue).entities := by
  unfold linkNewKillTarget
  split
  · exact hs
  · simp only
    split
    · split_ifs
      · exact symmetric_createKillTargets hs self _
      · exact hs
    · exact hs

theorem linkNewTargetname_symmetric (u : MapUpdates) (w : World) (h : Heap) (self : EntityId)
    (value oldValue : Option PropertyValue) (hs : Symmetric h) :
    Symmetric (linkNewTargetname u w h self value oldValue).entities := by
  unfold linkNewTargetname
  split
  · exact hs
  · simp only
    split
    · split_ifs
      · exact symmetric_relinkKillSources (symmetric_relinkLinkSources hs self _) self _
      · exact hs
    · exact hs

theorem targetChanged_symmetric (u : MapUpdates) (w w' : World) (self : EntityId)
    (value oldValue : Option PropertyValue) (hs : Symmetric w.entities)
    (htn : ∀ t ∈ (w.entities self).m_linkTargets,
      propertyForKey (w.entities t) TargetnameKey ≠ none)
    (hr : targetChanged u w self value oldValue = .returns w') : Symmetric w'.entities := by
  unfold targetChanged at hr
  cases hsev : severOldTarget w.entities self oldValue with
  | returns h1 =>
    rw [hsev] at hr
    simp only [Outcome.bind, Outcome.returns.injEq] at hr
    subst hr
    apply linkNewTarget_symmetric
    unfold severOldTarget at hsev
    split at hsev
    · split_ifs at hsev
      · have := severLinkTargets_eq_unlink self _ _ h1 htn hsev
        subst this
        exact symmetric_unlinkLinkTargets hs self
      · simp only [Outcome.returns.injEq] at hsev
        subst hsev
        exact hs
    · simp only [Outcome.returns.injEq] at hsev
      subst hsev
      exact hs
  | diverges => rw [hsev] at hr; simp [Outcome.bind] at hr
  | undefined => rw [hsev] at hr; simp [Outcome.bind] at hr

theorem killTargetChanged_symmetric (u : MapUpdates) (w w' : World) (self : EntityId)
    (value oldValue : Option PropertyValue) (hs : Symmetric w.entities)
    (hr : killTargetChanged u w self value oldValue = .returns w') : Symmetric w'.entities := by
  unfold killTargetChanged at hr
  cases hsev : severOldKillTarget w.entities oldValue with
  | returns h1 =>
    rw [hsev] at hr
    simp only [Outcome.bind, Outcome.returns.injEq] at hr
    subst hr
    apply linkNewKillTarget_symmetric
    unfold severOldKillTarget at hsev
    split at hsev
    · split_ifs at hsev
      simp only [Outcome.returns.injEq] at hsev
      subst hsev
      exact hs
    · simp only [Outcome.returns.injEq] at hsev
      subst hsev
      exact hs
  | diverges => rw [hsev] at hr; simp [Outcome.bind] at hr
  | undefined => rw [hsev] at hr; simp [Outcome.bind] at hr

theorem targetnameChanged_symmetric (u : MapUpdates) (w : World) (self : EntityId)
    (value oldValue : Option PropertyValue) (hs : Symmetric w.entities) :
    Symmetric (targetnameChanged u w self value oldValue).entities := by
  unfold targetnameChanged
  exact linkNewTargetname_symmetric u w _ self value oldValue
    (symmetric_unlinkKillSources (symmetric_unlinkLinkSources hs self) self)

theorem linksChanged_symmetric (u : MapUpdates) (w w' : World) (self : EntityId)
    (key : PropertyKey) (value oldValue : Option PropertyValue) (hs : Symmetric w.entities)
    (htn : isNumberedProperty TargetKey key = true →
      ∀ t ∈ (w.entities self).m_linkTargets,
        propertyForKey (w.entities t) TargetnameKey ≠ none)
    (hr : linksChanged u w self key value oldValue = .returns w') : Symmetric w'.entities := by
  unfold linksChanged at hr
  split_ifs at hr with h1 h2 h3
  · exact targetChanged_symmetric u w w' self value oldValue hs (htn h1) hr
  · exact killTargetChanged_symmetric u w w' self value oldValue hs hr
  · simp only [Outcome.returns.injEq] at hr
    subst hr
    exact targetnameChanged_symmetric u w self value oldValue hs
  · simp only [Outcome.returns.injEq] at hr
    subst hr
    exact hs

/-- C1, amended: from a symmetric state in which every link target of the entity has a
targetname property (asked for a numbered target key only), the adjacency lists of all
entities are symmetric again after `setProperty(key, value)` has returned, for every key
and every value, present or absent. -/
theorem setProperty_symmetric (u : MapUpdates) (w w' : World) (self : EntityId)
    (key : PropertyKey) (value : Option PropertyValue) (hs : Symmetric w.entities)
    (htn : isNumberedProperty TargetKey key = true →
      ∀ t ∈ (w.entities self).m_linkTargets,
        propertyForKey (w.entities t) TargetnameKey ≠ none)
    (hr : setProperty u w self key value = .returns w') : Symmetric w'.entities := by
  unfold setProperty at hr
  simp only at hr
  split_ifs at hr with h0
  · simp only [Outcome.returns.injEq] at hr
    subst hr
    exact hs
  · cases hc : classnameChanged w self key value with
    | returns w1 =>
      rw [hc] at hr
      simp only [Outcome.bind] at hr
      have hf := classnameChanged_frame hc
      have hs1 : Symmetric w1.entities :=
        symmetric_congr (fun y => ⟨(hf.2 y).2.2.1, (hf.2 y).2.2.2.1, (hf.2 y).2.2.2.2.1,
          (hf.2 y).2.2.2.2.2⟩) hs
      cases hl : linksChanged u w1 self key value (propertyForKey (w.entities self) key) with
      | returns w2 =>
        rw [hl] at hr
        simp only [Outcome.bind, Outcome.returns.injEq] at hr
        subst hr
        have hs2 : Symmetric w2.entities := by
          refine linksChanged_symmetric u w1 w2 self key value _ hs1 ?_ hl
          intro hk t ht
          rw [(hf.2 self).2.2.1] at ht
          have := htn hk t ht
          simpa [propertyForKey, (hf.2 t).2.1] using this
        have hsf := storeValue_frame w2 self key value
        exact symmetric_congr (fun y => (hsf.2 y).2) hs2
      | diverges => rw [hl] at hr; simp [Outcome.bind] at hr
      | undefined => rw [hl] at hr; simp [Outcome.bind] at hr
    | diverges => rw [hc] at hr; simp [Outcome.bind] at hr
    | undefined => rw [hc] at hr; simp [Outcome.bind] at hr

/-! ## The property store -/

theorem propertyValue_setPropertyValue_same (ps : PropertyList) (key : PropertyKey)
    (value : PropertyValue) :
    PropertyStore.propertyValue (PropertyStore.setPropertyValue ps key value) key = some value := by
  induction ps with
  | nil => simp [PropertyStore.setPropertyValue, PropertyStore.propertyValue]
  | cons p rest ih =>
    by_cases hp : p.key = key
    · simp [PropertyStore.setPropertyValue, PropertyStore.propertyValue, hp]
    · simp [PropertyStore.setPropertyValue, PropertyStore.propertyValue, hp, ih]

theorem propertyValue_setPropertyValue_other (ps : PropertyList) (key k' : PropertyKey)
    (value : PropertyValue) (hk : k' ≠ key) :
    PropertyStore.propertyValue (PropertyStore.setPropertyValue ps key value) k' =
      PropertyStore.propertyValue ps k' := by
  have hk2 : ¬ key = k' := fun e => hk e.symm
  induction ps with
  | nil => simp [PropertyStore.setPropertyValue, PropertyStore.propertyValue, hk2]
  | cons p rest ih =>
    by_cases hp : p.key = key
    · have hp' : ¬ p.key = k' := fun e => hk2 (hp ▸ e)
      simp [PropertyStore.setPropertyValue, PropertyStore.propertyValue, hp, hp', hk2]
    · rw [PropertyStore.setPropertyValue, if_neg hp, PropertyStore.propertyValue,
        PropertyStore.propertyValue, ih]

theorem removeProperty_cons (p : Property) (rest : PropertyList) (key : PropertyKey) :
    PropertyStore.removeProperty (p :: rest) key =
      if p.key = key then PropertyStore.removeProperty rest key
      else p :: PropertyStore.removeProperty rest key := by
  unfold PropertyStore.removeProperty
  by_cases hp : p.key = key
  · simp [List.filter_cons, hp]
  · simp [List.filter_cons, hp]

theorem propertyValue_removeProperty_same (ps : PropertyList) (key : PropertyKey) :
    PropertyStore.propertyValue (PropertyStore.removeProperty ps key) key = none := by
  induction ps with
  | nil => rfl
  | cons p rest ih =>
    rw [removeProperty_cons]
    by_cases hp : p.key = key
    · rw [if_pos hp, ih]
    · rw [if_neg hp, PropertyStore.propertyValue, if_neg hp, ih]

theorem propertyValue_removeProperty_other (ps : PropertyList) (key k' : PropertyKey)
    (hk : k' ≠ key) :
    PropertyStore.propertyValue (PropertyStore.removeProperty ps key) k' =
      PropertyStore.propertyValue ps k' := by
  induction ps with
  | nil => rfl
  | cons p rest ih =>
    rw [removeProperty_cons]
    by_cases hp : p.key = key
    · have hp' : ¬ p.key = k' := fun e => hk (e.symm.trans hp)
      rw [if_pos hp, ih, PropertyStore.propertyValue, if_neg hp']
    · rw [if_neg hp, PropertyStore.propertyValue, PropertyStore.propertyValue, ih]

theorem keys_setPropertyValue (ps : PropertyList) (key : PropertyKey) (value : PropertyValue) :
    (PropertyStore.setPropertyValue ps key value).map Property.key =
      if key ∈ ps.map Property.key then ps.map Property.key
      else ps.map Property.key ++ [key] := by
  induction ps with
  | nil => simp [PropertyStore.setPropertyValue]
  | cons p rest ih =>
    by_cases hp : p.key = key
    · simp [PropertyStore.setPropertyValue, hp]
    · have hp' : ¬ key = p.key := fun e => hp e.symm
      simp only [PropertyStore.setPropertyValue, hp, if_false, List.map_cons, ih, List.mem_cons,
        hp', false_or]
      split_ifs <;> simp

theorem keysUnique_setPropertyValue (ps : PropertyList) (key : PropertyKey)
    (value : PropertyValue) (hu : PropertyStore.KeysUnique ps) :
    PropertyStore.KeysUnique (PropertyStore.setPropertyValue ps key value) := by
  unfold PropertyStore.KeysUnique at *
  rw [keys_setPropertyValue]
  split_ifs with hm
  · exact hu
  · rw [List.nodup_append]
    refine ⟨hu, List.nodup_singleton _, ?_⟩
    intro a ha hb
    simp only [List.mem_singleton] at hb
    subst hb
    exact hm ha

theorem keysUnique_removeProperty (ps : PropertyList) (key : PropertyKey)
    (hu : PropertyStore.KeysUnique ps) :
    PropertyStore.KeysUnique (PropertyStore.removeProperty ps key) := by
  unfold PropertyStore.KeysUnique PropertyStore.removeProperty at *
  exact (List.filter_sublist ps).map Property.key |>.nodup hu

/-! ## What the link branches leave alone -/

theorem linkNewTarget_store (u : MapUpdates) (w : World) (h : Heap) (self : EntityId)
    (value oldValue : Option PropertyValue) (y : EntityId) :
    ((linkNewTarget u w h self value oldValue).entities y).m_propertyStore =
        (h y).m_propertyStore ∧
      ((linkNewTarget u w h self value oldValue).entities y).m_map = (h y).m_map := by
  unfold linkNewTarget
  split
  · exact ⟨rfl, rfl⟩
  · simp only
    split
    · split_ifs
      · simp [createLinkTargets_apply]
      · exact ⟨rfl, rfl⟩
    · exact ⟨rfl, rfl⟩

theorem linkNewKillTarget_store (u : MapUpdates) (w : World) (h : Heap) (self : EntityId)
    (value oldValue : Option PropertyValue) (y : EntityId) :
    ((linkNewKillTarget u w h self value oldValue).entities y).m_propertyStore =
        (h y).m_propertyStore ∧
      ((linkNewKillTarget u w h self value oldValue).entities y).m_map = (h y).m_map := by
  unfold linkNewKillTarget
  split
  · exact ⟨rfl, rfl⟩
  · simp only
    split
    · split_ifs
      · simp [createKillTargets_apply]
      · exact ⟨rfl, rfl⟩
    · exact ⟨rfl, rfl⟩

theorem linkNewTargetname_store (u : MapUpdates) (w : World) (h : Heap) (self : EntityId)
    (value oldValue : Option PropertyValue) (y : EntityId) :
    ((linkNewTargetname u w h self value oldValue).entities y).m_propertyStore =
        (h y).m_propertyStore ∧
      ((linkNewTargetname u w h self value oldValue).entities y).m_map = (h y).m_map := by
  unfold linkNewTargetname
  split
  · exact ⟨rfl, rfl⟩
  · simp only
    split
    · split_ifs
      · simp [relinkKillSources_apply, relinkLinkSources_apply]
      · exact ⟨rfl, rfl⟩
    · exact ⟨rfl, rfl⟩

theorem severOldTarget_store {h h1 : Heap} {self : EntityId} {oldValue : Option PropertyValue}
    (hr : severOldTarget h self oldValue = .returns h1) (y : EntityId) :
    (h1 y).m_propertyStore = (h y).m_propertyStore ∧ (h1 y).m_map = (h y).m_map := by
  unfold severOldTarget at hr
  split at hr
  · split_ifs at hr
    · have := (severLinkTargets_spec self _ _ h h1 rfl hr).2 y
      rw [this]
      exact ⟨rfl, rfl⟩
    · simp only [Outcome.returns.injEq] at hr
      subst hr
      exact ⟨rfl, rfl⟩
  · simp only [Outcome.returns.injEq] at hr
    subst hr
    exact ⟨rfl, rfl⟩

theorem severOldKillTarget_eq {h h1 : Heap} {oldValue : Option PropertyValue}
    (hr : severOldKillTarget h oldValue = .returns h1) : h1 = h := by
  unfold severOldKillTarget at hr
  split at hr
  · split_ifs at hr
    simp only [Outcome.returns.injEq] at hr
    exact hr.symm
  · simp only [Outcome.returns.injEq] at hr
    exact hr.symm

/-- The killtarget branch has no defined outcome whenever the old value is present and not
empty. -/
theorem killTargetChanged_undefined (u : MapUpdates) (w : World) (self : EntityId)
    (value : Option PropertyValue) (old : PropertyValue) (ho : old ≠ "") :
    killTargetChanged u w self value (some old) = .undefined := by
  simp [killTargetChanged, severOldKillTarget, ho, Outcome.bind]

theorem bind_returns {α β : Type} {o : Outcome α} {f : α → Outcome β} {b : β}
    (hr : o.bind f = .returns b) : ∃ a, o = .returns a ∧ f a = .returns b := by
  cases o with
  | returns a => exact ⟨a, rfl, hr⟩
  | diverges => simp [Outcome.bind] at hr
  | undefined => simp [Outcome.bind] at hr

theorem linksChanged_store {u : MapUpdates} {w w2 : World} {self : EntityId} {key : PropertyKey}
    {value oldValue : Option PropertyValue}
    (hr : linksChanged u w self key value oldValue = .returns w2) (y : EntityId) :
    (w2.entities y).m_propertyStore = (w.entities y).m_propertyStore ∧
      (w2.entities y).m_map = (w.entities y).m_map := by
  unfold linksChanged at hr
  split_ifs at hr with h1 h2 h3
  · obtain ⟨h, hsev, hh⟩ := bind_returns hr
    simp only [Outcome.returns.injEq] at hh
    subst hh
    have a := linkNewTarget_store u w h self value oldValue y
    have b := severOldTarget_store hsev y
    exact ⟨a.1.trans b.1, a.2.trans b.2⟩
  · obtain ⟨h, hsev, hh⟩ := bind_returns hr
    simp only [Outcome.returns.injEq] at hh
    subst hh
    have a := linkNewKillTarget_store u w h self value oldValue y
    have b := severOldKillTarget_eq hsev
    subst b
    exact a
  · simp only [Outcome.returns.injEq] at hr
    subst hr
    unfold targetnameChanged
    have a := linkNewTargetname_store u w
      (unlinkKillSources (unlinkLinkSources w.entities self) self) self value oldValue y
    simp only [unlinkKillSources_apply, unlinkLinkSources_apply] at a
    exact a
  · simp only [Outcome.returns.injEq] at hr
    subst hr
    exact ⟨rfl, rfl⟩

/-- A call that returns either found the value unchanged, or went through the three parts. -/
theorem setProperty_returns {u : MapUpdates} {w w' : World} {self : EntityId}
    {key : PropertyKey} {value : Option PropertyValue}
    (hr : setProperty u w self key value = .returns w') :
    (propertyForKey (w.entities self) key = value ∧ w' = w) ∨
    (propertyForKey (w.entities self) key ≠ value ∧ ∃ w1 w2,
      classnameChanged w self key value = .returns w1 ∧
      linksChanged u w1 self key value (propertyForKey (w.entities self) key) = .returns w2 ∧
      w' = storeValue w2 self key value) := by
  unfold setProperty at hr
  simp only at hr
  split_ifs at hr with h0
  · simp only [Outcome.returns.injEq] at hr
    exact Or.inl ⟨h0, hr.symm⟩
  · obtain ⟨w1, hc, hr1⟩ := bind_returns hr
    obtain ⟨w2, hl, hr2⟩ := bind_returns hr1
    simp only [Outcome.returns.injEq] at hr2
    exact Or.inr ⟨h0, w1, w2, hc, hl, hr2.symm⟩

theorem storeValue_store (w : World) (self : EntityId) (key : PropertyKey)
    (value : Option PropertyValue) :
    ((storeValue w self key value).entities self).m_propertyStore =
      applyValue (w.entities self).m_propertyStore key value := by
  simp [storeValue, invalidateGeometry]

/-- The store of the entity after a call that returned and changed something. -/
theorem setProperty_store {u : MapUpdates} {w w' : World} {self : EntityId}
    {key : PropertyKey} {value : Option PropertyValue}
    (hr : setProperty u w self key value = .returns w')
    (hne : propertyForKey (w.entities self) key ≠ value) :
    (w'.entities self).m_propertyStore =
      applyValue (w.entities self).m_propertyStore key value := by
  rcases setProperty_returns hr with ⟨h0, _⟩ | ⟨_, w1, w2, hc, hl, hw⟩
  · exact absurd h0 hne
  · subst hw
    rw [storeValue_store, (linksChanged_store hl self).1, ((classnameChanged_frame hc).2 self).2.1]

theorem propertyValue_applyValue_same (ps : PropertyList) (key : PropertyKey)
    (value : Option PropertyValue) :
    PropertyStore.propertyValue (applyValue ps key value) key = value := by
  cases value with
  | none => exact propertyValue_removeProperty_same ps key
  | some v => exact propertyValue_setPropertyValue_same ps key v

theorem propertyValue_applyValue_other (ps : PropertyList) (key k' : PropertyKey)
    (value : Option PropertyValue) (hk : k' ≠ key) :
    PropertyStore.propertyValue (applyValue ps key value) k' =
      PropertyStore.propertyValue ps k' := by
  cases value with
  | none => exact propertyValue_removeProperty_other ps key k' hk
  | some v => exact propertyValue_setPropertyValue_other ps key k' v hk

theorem keysUnique_applyValue (ps : PropertyList) (key : PropertyKey)
    (value : Option PropertyValue) (hu : PropertyStore.KeysUnique ps) :
    PropertyStore.KeysUnique (applyValue ps key value) := by
  cases value with
  | none => exact keysUnique_removeProperty ps key hu
  | some v => exact keysUnique_setPropertyValue ps key v hu

/-! ## The claims about the property store -/

theorem setProperty_noop (u : MapUpdates) (w : World) (self : EntityId)
    (key : PropertyKey) (value : Option PropertyValue)
    (h : propertyForKey (w.entities self) key = value) :
    setProperty u w self key value = .returns w := by
  unfold setProperty
  simp [h]

/-- C9: when the new value equals the current value of the key by content (both present
with equal strings, or both absent), `setProperty` returns at once and nothing has changed:
the property store, the worldspawn flag, the definition, the adjacency lists of every
entity, the geometry flag and the registries (no notification is sent) are as before. -/
theorem setProperty_same_value (u : MapUpdates) (w : World) (self : EntityId)
    (key : PropertyKey) (value : Option PropertyValue)
    (h : propertyForKey (w.entities self) key = value) :
    setProperty u w self key value = .returns w :=
  setProperty_noop u w self key value h

/-- C10: after `setProperty(k, v)` has returned, `propertyForKey(k)` is `v` (absent when the
value was absent), `propertyForKey` of every other key is what it was, and unique keys stay
unique. -/
theorem setProperty_propertyForKey (u : MapUpdates) (w w' : World) (self : EntityId)
    (key : PropertyKey) (value : Option PropertyValue)
    (hr : setProperty u w self key value = .returns w') :
    propertyForKey (w'.entities self) key = value ∧
    (∀ k', k' ≠ key →
      propertyForKey (w'.entities self) k' = propertyForKey (w.entities self) k') ∧
    (PropertyStore.KeysUnique (w.entities self).m_propertyStore →
      PropertyStore.KeysUnique (w'.entities self).m_propertyStore) := by
  by_cases h0 : propertyForKey (w.entities self) key = value
  · rw [setProperty_noop u w self key value h0] at hr
    simp only [Outcome.returns.injEq] at hr
    subst hr
    exact ⟨h0, fun _ _ => rfl, fun hu => hu⟩
  · have hs := setProperty_store hr h0
    unfold propertyForKey
    rw [hs]
    exact ⟨propertyValue_applyValue_same _ _ _,
      fun k' hk => propertyValue_applyValue_other _ _ _ _ hk,
      fun hu => keysUnique_applyValue _ _ _ hu⟩

/-! ## setMap: idempotence and detaching -/

theorem setMap_m_map (w : World) (self : EntityId) (map : Option MapId) :
    ((setMap w self map).entities self).m_map = map := by
  unfold setMap
  split_ifs with hm
  · exact hm
  · cases map with
    | none =>
      simp [unlinkKillSources_apply, unlinkKillTargets_apply, unlinkLinkSources_apply,
        unlinkLinkTargets_apply]
    | some m =>
      simp only
      split
      · simp [registerKillTargets_apply, insertKillTargets_apply, registerLinkTargets_apply,
          insertLinkTargets_apply, unlinkKillSources_apply, unlinkKillTargets_apply,
          unlinkLinkSources_apply, unlinkLinkTargets_apply]
      · split_ifs
        · simp [relinkKillSources_apply, relinkLinkSources_apply, registerKillTargets_apply,
            insertKillTargets_apply, registerLinkTargets_apply,
            insertLinkTargets_apply, unlinkKillSources_apply, unlinkKillTargets_apply,
            unlinkLinkSources_apply, unlinkLinkTargets_apply]
        · simp [registerKillTargets_apply, insertKillTargets_apply, registerLinkTargets_apply,
            insertLinkTargets_apply, unlinkKillSources_apply, unlinkKillTargets_apply,
            unlinkLinkSources_apply, unlinkLinkTargets_apply]

theorem setMap_attached (w : World) (self : EntityId) (map : Option MapId)
    (h : (w.entities self).m_map = map) : setMap w self map = w := by
  unfold setMap
  simp [h]

/-- C7: `setMap` is idempotent. The state of every entity (and of the whole world) after
`setMap(M); setMap(M)` is the state after one `setMap(M)`; in particular `setMap` with the
registry the entity is attached to changes nothing. -/
theorem setMap_idempotent (w : World) (self : EntityId) (map : Option MapId) :
    setMap (setMap w self map) self map = setMap w self map ∧
    setMap w self (w.entities self).m_map = w :=
  ⟨setMap_attached _ self map (setMap_m_map w self map), setMap_attached w self _ rfl⟩

theorem setMap_none_apply (w : World) (self : EntityId) (hs : Symmetric w.entities)
    (hatt : (w.entities self).m_map ≠ none) (y : EntityId) :
    (setMap w self none).entities y =
      { w.entities y with
        m_map := if y = self then none else (w.entities y).m_map
        m_linkTargets := if y = self then [] else Utility.erase (w.entities y).m_linkTargets self
        m_linkSources := if y = self then [] else Utility.erase (w.entities y).m_linkSources self
        m_killTargets := if y = self then [] else Utility.erase (w.entities y).m_killTargets self
        m_killSources := if y = self then [] else Utility.erase (w.entities y).m_killSources self } := by
  unfold setMap
  rw [if_neg hatt]
  simp only
  have h0 : Symmetric (Function.update w.entities self { w.entities self with m_map := none }) :=
    symmetric_update hs self _ rfl rfl rfl rfl
  rw [unlinkKill_apply (symmetric_unlinkLink h0 self), unlinkLink_apply h0]
  by_cases hy : y = self
  · subst hy
    simp
  · simp [hy, Function.update_noteq hy]

/-- C8: for an attached entity in a symmetric state, after `setMap(NULL)` (what the destructor
does first) the four adjacency lists of the entity are empty, no list of another entity
holds the entity, and the lists of every other entity are otherwise unchanged: the entries
other than the entity are all still there, in their order. -/
theorem setMap_null_severs (w : World) (self : EntityId) (hs : Symmetric w.entities)
    (hatt : (w.entities self).m_map ≠ none) :
    (((setMap w self none).entities self).m_linkTargets = [] ∧
      ((setMap w self none).entities self).m_linkSources = [] ∧
      ((setMap w self none).entities self).m_killTargets = [] ∧
      ((setMap w self none).entities self).m_killSources = []) ∧
    ∀ y, y ≠ self →
      (self ∉ ((setMap w self none).entities y).m_linkTargets ∧
        self ∉ ((setMap w self none).entities y).m_linkSources ∧
        self ∉ ((setMap w self none).entities y).m_killTargets ∧
        self ∉ ((setMap w self none).entities y).m_killSources) ∧
      (((setMap w self none).entities y).m_linkTargets =
          (w.entities y).m_linkTargets.filter (fun x => x ≠ self) ∧
        ((setMap w self none).entities y).m_linkSources =
          (w.entities y).m_linkSources.filter (fun x => x ≠ self) ∧
        ((setMap w self none).entities y).m_killTargets =
          (w.entities y).m_killTargets.filter (fun x => x ≠ self) ∧
        ((setMap w self none).entities y).m_killSources =
          (w.entities y).m_killSources.filter (fun x => x ≠ self)) := by
  refine ⟨?_, fun y hy => ?_⟩
  · rw [setMap_none_apply w self hs hatt self]
    simp
  · rw [setMap_none_apply w self hs hatt y]
    simp [hy, mem_erase, Utility.erase]

/-! ## The targetname branch -/

theorem targetname_not_numbered :
    isNumberedProperty TargetKey TargetnameKey = false ∧
      isNumberedProperty KillTargetKey TargetnameKey = false ∧
      TargetnameKey ≠ ClassnameKey := by
  decide

theorem setProperty_targetname_eq (u : MapUpdates) (w : World) (self : EntityId)
    (value : Option PropertyValue)
    (hne : propertyForKey (w.entities self) TargetnameKey ≠ value) :
    setProperty u w self TargetnameKey value =
      .returns (storeValue
        (targetnameChanged u w self value (propertyForKey (w.entities self) TargetnameKey))
        self TargetnameKey value) := by
  unfold setProperty
  simp only [if_neg hne]
  have h1 : classnameChanged w self TargetnameKey value = .returns w := by
    unfold classnameChanged
    rw [if_neg targetname_not_numbered.2.2]
  rw [h1]
  simp only [Outcome.bind]
  unfold linksChanged
  simp [targetname_not_numbered.1, targetname_not_numbered.2.1, Outcome.bind]

theorem targetnameChanged_lists (u : MapUpdates) (w : World) (self : EntityId)
    (value oldValue : Option PropertyValue) (y : EntityId) :
    let w' := targetnameChanged u w self value oldValue
    let linked : Option (EntityList × EntityList) :=
      match (w.entities self).m_map, value with
      | some m, some v =>
        if v ≠ "" then some ((w.maps m).entitiesWithTarget v, (w.maps m).entitiesWithKillTarget v)
        else none
      | _, _ => none
    (w'.entities y).m_linkSources =
        (if y = self then (linked.map Prod.fst).getD [] else (w.entities y).m_linkSources) ∧
    (w'.entities y).m_killSources =
        (if y = self then (linked.map Prod.snd).getD [] else (w.entities y).m_killSources) ∧
    (w'.entities y).m_linkTargets =
        (if y ∈ (w.entities self).m_linkSources then
            Utility.erase (w.entities y).m_linkTargets self
          else (w.entities y).m_linkTargets) ++
          List.replicate (((linked.map Prod.fst).getD []).count y) self ∧
    (w'.entities y).m_killTargets =
        (if y ∈ (w.entities self).m_killSources then
            Utility.erase (w.entities y).m_killTargets self
          else (w.entities y).m_killTargets) ++
          List.replicate (((linked.map Prod.snd).getD []).count y) self := by
  intro w' linked
  have hm : ((unlinkKillSources (unlinkLinkSources w.entities self) self) self).m_map =
      (w.entities self).m_map := by
    simp [unlinkKillSources_apply, unlinkLinkSources_apply]
  show _ ∧ _ ∧ _ ∧ _
  simp only [w', linked, targetnameChanged, linkNewTargetname, hm]
  cases hmap : (w.entities self).m_map with
  | none =>
    by_cases hy : y = self
    · subst hy
      simp [unlinkKillSources_apply, unlinkLinkSources_apply]
    · simp [unlinkKillSources_apply, unlinkLinkSources_apply, hy]
  | some m =>
    cases value with
    | none =>
      by_cases hy : y = self
      · subst hy
        simp [unlinkKillSources_apply, unlinkLinkSources_apply]
      · simp [unlinkKillSources_apply, unlinkLinkSources_apply, hy]
    | some v =>
      by_cases hv : v = ""
      · by_cases hy : y = self
        · subst hy
          simp [unlinkKillSources_apply, unlinkLinkSources_apply, hv]
        · simp [unlinkKillSources_apply, unlinkLinkSources_apply, hy, hv]
      · by_cases hy : y = self
        · subst hy
          simp [unlinkKillSources_apply, unlinkLinkSources_apply, hv,
            relinkKillSources_apply, relinkLinkSources_apply]
        · simp [unlinkKillSources_apply, unlinkLinkSources_apply, hy, hv,
            relinkKillSources_apply, relinkLinkSources_apply]

/-- A key that is neither the classname key nor a numbered target or killtarget key: the
call has no loop to get caught in and no pointer to dereference, it returns. -/
theorem setProperty_returns_plain (u : MapUpdates) (w : World) (self : EntityId)
    (key : PropertyKey) (value : Option PropertyValue) (hc : key ≠ ClassnameKey)
    (ht : isNumberedProperty TargetKey key = false)
    (hk : isNumberedProperty KillTargetKey key = false) :
    ∃ w', setProperty u w self key value = .returns w' := by
  by_cases h0 : propertyForKey (w.entities self) key = value
  · exact ⟨w, by simp [setProperty, h0]⟩
  · by_cases hn : key = TargetnameKey
    · subst hn
      exact ⟨_, setProperty_targetname_eq u w self value h0⟩
    · exact ⟨storeValue w self key value,
        by simp [setProperty, h0, classnameChanged, linksChanged, hc, ht, hk, hn, Outcome.bind]⟩


/-- C5, amended: `setProperty("targetname", v)` with `v` different from the current value
returns, and afterwards: a former link source (kill source) that is not a link source (kill
source) of the entity again no longer has the entity in its link targets (kill targets); if
the entity is attached to a registry and `v` is present and not empty, its link sources are
the registry's `entitiesWithTarget(v)`, its kill sources are `entitiesWithKillTarget(v)`, and
each of those entities has the entity in its link targets (kill targets); otherwise its link
sources and kill sources are both empty. -/
theorem setProperty_targetname_relinks (u : MapUpdates) (w : World) (self : EntityId)
    (value : Option PropertyValue)
    (hne : propertyForKey (w.entities self) TargetnameKey ≠ value) :
    ∃ w', setProperty u w self TargetnameKey value = .returns w' ∧
      (∀ s ∈ (w.entities self).m_linkSources, s ∉ (w'.entities self).m_linkSources →
        self ∉ (w'.entities s).m_linkTargets) ∧
      (∀ s ∈ (w.entities self).m_killSources, s ∉ (w'.entities self).m_killSources →
        self ∉ (w'.entities s).m_killTargets) ∧
      (∀ m v, (w.entities self).m_map = some m → value = some v → v ≠ "" →
        (w'.entities self).m_linkSources = (w.maps m).entitiesWithTarget v ∧
        (w'.entities self).m_killSources = (w.maps m).entitiesWithKillTarget v ∧
        (∀ s ∈ (w.maps m).entitiesWithTarget v, self ∈ (w'.entities s).m_linkTargets) ∧
        (∀ s ∈ (w.maps m).entitiesWithKillTarget v, self ∈ (w'.entities s).m_killTargets)) ∧
      (((w.entities self).m_map = none ∨ value = none ∨ value = some "") →
        (w'.entities self).m_linkSources = [] ∧ (w'.entities self).m_killSources = []) := by
  refine ⟨_, setProperty_targetname_eq u w self value hne, ?_⟩
  have hf := storeValue_frame
    (targetnameChanged u w self value (propertyForKey (w.entities self) TargetnameKey))
    self TargetnameKey value
  have hl := targetnameChanged_lists u w self value
    (propertyForKey (w.entities self) TargetnameKey)
  simp only [ne_eq, ite_not] at hl
  refine ⟨?_, ?_, ?_, ?_⟩
  · intro s hs hnot
    rw [(hf.2 self).2.2.1, (hl self).1] at hnot
    rw [(hf.2 s).2.1, (hl s).2.2.1]
    simp only [if_true] at hnot
    simp [hs, mem_erase, List.count_eq_zero, hnot]
  · intro s hs hnot
    rw [(hf.2 self).2.2.2.2, (hl self).2.1] at hnot
    rw [(hf.2 s).2.2.2.1, (hl s).2.2.2]
    simp only [if_true] at hnot
    simp [hs, mem_erase, List.count_eq_zero, hnot]
  · intro m v hm hv hve
    subst hv
    refine ⟨?_, ?_, ?_, ?_⟩
    · rw [(hf.2 self).2.2.1, (hl self).1]
      simp [hm, hve]
    · rw [(hf.2 self).2.2.2.2, (hl self).2.1]
      simp [hm, hve]
    · intro s hs
      rw [(hf.2 s).2.1, (hl s).2.2.1]
      simp [hm, hve, List.count_eq_zero, hs]
    · intro s hs
      rw [(hf.2 s).2.2.2.1, (hl s).2.2.2]
      simp [hm, hve, List.count_eq_zero, hs]
  · intro hcase
    rw [(hf.2 self).2.2.1, (hl self).1, (hf.2 self).2.2.2.2, (hl self).2.1]
    rcases hcase with hm | hv | hv
    · simp [hm]
    · subst hv
      cases (w.entities self).m_map <;> simp
    · subst hv
      cases (w.entities self).m_map <;> simp

/-! ## The target branch -/

theorem numbered_target_ne_targetname {key : PropertyKey}
    (hk : isNumberedProperty TargetKey key = true) : key ≠ TargetnameKey := by
  intro h
  subst h
  rw [targetname_not_numbered.1] at hk
  cases hk

theorem linkNewTarget_lists (u : MapUpdates) (w : World) (h : Heap) (self : EntityId)
    (value oldValue : Option PropertyValue) (y : EntityId) :
    ((linkNewTarget u w h self value oldValue).entities y).m_linkTargets =
        (if y = self then (h y).m_linkTargets ++ newTargets w (h self).m_map value
          else (h y).m_linkTargets) ∧
    ((linkNewTarget u w h self value oldValue).entities y).m_linkSources =
        (h y).m_linkSources ++ List.replicate ((newTargets w (h self).m_map value).count y) self := by
  unfold linkNewTarget newTargets
  cases hm : (h self).m_map with
  | none => by_cases hy : y = self <;> simp [hy]
  | some m =>
    cases value with
    | none => by_cases hy : y = self <;> simp [hy]
    | some v =>
      by_cases hv : v = ""
      · by_cases hy : y = self <;> simp [hy, hv]
      · by_cases hy : y = self <;> simp [hy, hv, createLinkTargets_apply]

theorem setProperty_store_all {u : MapUpdates} {w w' : World} {self : EntityId}
    {key : PropertyKey} {value : Option PropertyValue}
    (hr : setProperty u w self key value = .returns w') (y : EntityId) (hy : y ≠ self) :
    (w'.entities y).m_propertyStore = (w.entities y).m_propertyStore := by
  rcases setProperty_returns hr with ⟨_, hw⟩ | ⟨_, w1, w2, hc, hl, hw⟩
  · rw [hw]
  · subst hw
    have : ((storeValue w2 self key value).entities y).m_propertyStore =
        (w2.entities y).m_propertyStore := by
      simp [storeValue, invalidateGeometry, Function.update_noteq hy]
    rw [this, (linksChanged_store hl y).1, ((classnameChanged_frame hc).2 y).2.1]

/-- The lists after a call for a numbered target key that returned and changed the value. -/
theorem setProperty_target_lists {u : MapUpdates} {w w' : World} {self : EntityId}
    {key : PropertyKey} {value : Option PropertyValue}
    (hk : isNumberedProperty TargetKey key = true)
    (hne : propertyForKey (w.entities self) key ≠ value)
    (hr : setProperty u w self key value = .returns w') :
    ∃ h1, severOldTarget w.entities self (propertyForKey (w.entities self) key) = .returns h1 ∧
      ∀ y,
        (w'.entities y).m_linkTargets =
          (if y = self then (h1 y).m_linkTargets ++ newTargets w (w.entities self).m_map value
            else (h1 y).m_linkTargets) ∧
        (w'.entities y).m_linkSources =
          (h1 y).m_linkSources ++
            List.replicate ((newTargets w (w.entities self).m_map value).count y) self := by
  rcases setProperty_returns hr with ⟨h0, _⟩ | ⟨_, w1, w2, hc, hl, hw⟩
  · exact absurd h0 hne
  · subst hw
    unfold linksChanged at hl
    rw [if_pos hk] at hl
    obtain ⟨h1, hsev, hh⟩ := bind_returns hl
    simp only [Outcome.returns.injEq] at hh
    subst hh
    have hf := classnameChanged_frame hc
    -- the classname part leaves the lists, the stores and the registries alone
    have hsev' : ∃ h1', severOldTarget w.entities self (propertyForKey (w.entities self) key) =
        .returns h1' ∧ ∀ y, (h1' y).m_linkTargets = (h1 y).m_linkTargets ∧
          (h1' y).m_linkSources = (h1 y).m_linkSources := by
      unfold severOldTarget at hsev ⊢
      cases hold : propertyForKey (w.entities self) key with
      | none =>
        rw [hold] at hsev
        simp only [Outcome.returns.injEq] at hsev
        subst hsev
        exact ⟨_, rfl, fun y => ⟨((hf.2 y).2.2.1).symm, ((hf.2 y).2.2.2.1).symm⟩⟩
      | some old =>
        rw [hold] at hsev
        simp only at hsev ⊢
        by_cases ho : old = ""
        · simp only [ho, ne_eq, not_true_eq_false, if_false, Outcome.returns.injEq] at hsev ⊢
          subst hsev
          exact ⟨_, rfl, fun y => ⟨((hf.2 y).2.2.1).symm, ((hf.2 y).2.2.2.1).symm⟩⟩
        · simp only [ne_eq, ho, not_false_eq_true, if_true] at hsev ⊢
          have hspec := severLinkTargets_spec self old _ _ h1 rfl hsev
          have hall : ∀ t ∈ (w.entities self).m_linkTargets,
              propertyForKey (w.entities t) TargetnameKey = none ∨
                propertyForKey (w.entities t) TargetnameKey = some old := by
            intro t ht
            have := hspec.1 t (by rw [(hf.2 self).2.2.1]; exact ht)
            simpa [propertyForKey, (hf.2 t).2.1] using this
          obtain ⟨h1', hr'⟩ := severLinkTargets_total self old _ w.entities hall
          refine ⟨h1', hr', fun y => ?_⟩
          have hspec' := severLinkTargets_spec self old _ _ h1' rfl hr'
          rw [hspec'.2 y, hspec.2 y]
          simp [propertyForKey, (hf.2 y).2.1, (hf.2 y).2.2.1, (hf.2 y).2.2.2.1,
            (hf.2 self).2.2.1]
    obtain ⟨h1', hs1, heq⟩ := hsev'
    refine ⟨h1', hs1, fun y => ?_⟩
    have hsf := storeValue_frame (linkNewTarget u w1 h1 self value
      (propertyForKey (w.entities self) key)) self key value
    have hl2 := linkNewTarget_lists u w1 h1 self value (propertyForKey (w.entities self) key) y
    have hmap : (h1 self).m_map = (w.entities self).m_map :=
      ((severOldTarget_store hsev self).2).trans ((hf.2 self).1)
    have hnt : newTargets w1 (h1 self).m_map value = newTargets w (w.entities self).m_map value := by
      rw [hmap]
      unfold newTargets
      rw [hf.1]
    rw [(hsf.2 y).2.1, (hsf.2 y).2.2.1, hl2.1, hl2.2, hnt, (heq y).1, (heq y).2]
    exact ⟨rfl, rfl⟩

theorem mem_newTargets {w : World} {map : Option MapId} {value : Option PropertyValue}
    {t : EntityId} (ht : t ∈ newTargets w map value) :
    ∃ m v, map = some m ∧ value = some v ∧ t ∈ (w.maps m).entitiesWithTargetname v := by
  unfold newTargets at ht
  cases map with
  | none => simp at ht
  | some m =>
    cases value with
    | none => simp at ht
    | some v =>
      by_cases hv : v = ""
      · simp [hv] at ht
      · simp only [hv, if_false] at ht
        exact ⟨m, v, rfl, rfl, ht⟩

theorem setProperty_targetname_kept {u : MapUpdates} {w w' : World} {self : EntityId}
    {key : PropertyKey} {value : Option PropertyValue}
    (hk : key ≠ TargetnameKey)
    (hr : setProperty u w self key value = .returns w') (t : EntityId) :
    propertyForKey (w'.entities t) TargetnameKey = propertyForKey (w.entities t) TargetnameKey := by
  by_cases ht : t = self
  · subst ht
    by_cases h0 : propertyForKey (w.entities t) key = value
    · rcases setProperty_returns hr with ⟨_, hw⟩ | ⟨hne, _⟩
      · rw [hw]
      · exact absurd h0 hne
    · unfold propertyForKey
      rw [setProperty_store hr h0]
      exact propertyValue_applyValue_other _ _ _ _ (fun e => hk e.symm)
  · unfold propertyForKey
    rw [setProperty_store_all hr t ht]

/-- In a symmetric state, with a registry whose `entitiesWithTargetname(v)` holds only
entities whose targetname is `v`, let the entity have a numbered target property with the
non-empty value `N`. Whenever the call of `setProperty` that clears or changes this property
returns, no entity whose targetname is (or was) `N` is a link target of the entity, and none
of them has the entity as a link source. -/
theorem setProperty_target_returned (u : MapUpdates) (w w' : World) (self : EntityId)
    (key : PropertyKey) (N : PropertyValue) (value : Option PropertyValue)
    (hs : Symmetric w.entities)
    (hk : isNumberedProperty TargetKey key = true)
    (hN : propertyForKey (w.entities self) key = some N) (hNe : N ≠ "")
    (hv : value ≠ some N)
    (hreg : ∀ m v, (w.entities self).m_map = some m → value = some v →
      ∀ t ∈ (w.maps m).entitiesWithTargetname v,
        propertyForKey (w.entities t) TargetnameKey = some v)
    (hr : setProperty u w self key value = .returns w') :
    ∀ t, (propertyForKey (w.entities t) TargetnameKey = some N ∨
        propertyForKey (w'.entities t) TargetnameKey = some N) →
      t ∉ (w'.entities self).m_linkTargets ∧ self ∉ (w'.entities t).m_linkSources := by
  intro t ht
  have ht' : propertyForKey (w.entities t) TargetnameKey = some N := by
    rcases ht with ht | ht
    · exact ht
    · rw [← setProperty_targetname_kept (numbered_target_ne_targetname hk) hr t]
      exact ht
  have hne : propertyForKey (w.entities self) key ≠ value := by
    rw [hN]
    exact fun e => hv e.symm
  obtain ⟨h1, hsev, hl⟩ := setProperty_target_lists hk hne hr
  rw [hN] at hsev
  unfold severOldTarget at hsev
  simp only [ne_eq, hNe, not_false_eq_true, if_true] at hsev
  have hspec := severLinkTargets_spec self N _ _ h1 rfl hsev
  have hnew : t ∉ newTargets w (w.entities self).m_map value := by
    intro hmem
    obtain ⟨m, v, hm, hval, hin⟩ := mem_newTargets hmem
    have := hreg m v hm hval t hin
    rw [ht'] at this
    have hNv : N = v := Option.some.inj this
    exact hv (by rw [hval, hNv])
  have hsrc : self ∉ (h1 t).m_linkSources := by
    rw [hspec.2 t]
    by_cases hin : t ∈ (w.entities self).m_linkTargets
    · simp [hin, ht', mem_erase]
    · have : self ∉ (w.entities t).m_linkSources := fun c => hin ((hs self t).1.2 c)
      simp [hin, this]
  refine ⟨?_, ?_⟩
  · rw [(hl self).1, hspec.2 self]
    simpa using hnew
  · rw [(hl t).2]
    simp [hsrc, List.count_eq_zero, hnew]

/-- C3: the claim fails in the code. In a symmetric state, with a registry whose
`entitiesWithTargetname(v)` holds only entities whose targetname is `v`, let the entity have a
numbered target property with the non-empty value `N`, and let a call of `setProperty` clear
or change it. When one of the link targets of the entity has a targetname that differs from
`N` (the target of another numbered target property), the loop that severs the old links
never gets past that entry and the call does not return, so the links to the entities named
`N` are not severed. Only when every link target is named `N` or has no targetname does the
call return, and then no entity whose targetname is (or was) `N` is a link target of the
entity and none of them has the entity as a link source. -/
theorem setProperty_target_severs_or_runs_on (u : MapUpdates) (w : World) (self : EntityId)
    (key : PropertyKey) (N : PropertyValue) (value : Option PropertyValue)
    (hs : Symmetric w.entities)
    (hk : isNumberedProperty TargetKey key = true)
    (hN : propertyForKey (w.entities self) key = some N) (hNe : N ≠ "")
    (hv : value ≠ some N)
    (hreg : ∀ m v, (w.entities self).m_map = some m → value = some v →
      ∀ t ∈ (w.maps m).entitiesWithTargetname v,
        propertyForKey (w.entities t) TargetnameKey = some v) :
    ((∃ t ∈ (w.entities self).m_linkTargets, ∃ n,
        propertyForKey (w.entities t) TargetnameKey = some n ∧ n ≠ N) →
      setProperty u w self key value = .diverges) ∧
    ((∀ t ∈ (w.entities self).m_linkTargets,
        propertyForKey (w.entities t) TargetnameKey = none ∨
          propertyForKey (w.entities t) TargetnameKey = some N) →
      ∃ w', setProperty u w self key value = .returns w' ∧
        ∀ t, (propertyForKey (w.entities t) TargetnameKey = some N ∨
            propertyForKey (w'.entities t) TargetnameKey = some N) →
          t ∉ (w'.entities self).m_linkTargets ∧ self ∉ (w'.entities t).m_linkSources) := by
  have hc : key ≠ ClassnameKey := by
    intro e
    rw [e] at hk
    exact absurd hk (by decide)
  have hv' : ¬ (some N = value) := fun e => hv e.symm
  refine ⟨?_, ?_⟩
  · rintro ⟨t, ht, n, hn, hd⟩
    simp [setProperty, hN, hv', classnameChanged, hc, linksChanged, hk, targetChanged,
      severOldTarget, hNe, severLinkTargets_stuck self N _ w.entities t n ht hn hd,
      Outcome.bind]
  · intro hall
    obtain ⟨h1, hsev⟩ := severLinkTargets_total self N (w.entities self).m_linkTargets
      w.entities hall
    have hr : setProperty u w self key value =
        .returns (storeValue (linkNewTarget u w h1 self value (some N)) self key value) := by
      simp [setProperty, hN, hv', classnameChanged, hc, linksChanged, hk, targetChanged,
        severOldTarget, hNe, hsev, Outcome.bind]
    exact ⟨_, hr, setProperty_target_returned u w _ self key N value hs hk hN hNe hv hreg hr⟩

/-! ## The example worlds -/

theorem forkWorld_symmetric : Symmetric forkWorld.entities := by
  intro e x
  rcases e with _ | _ | _ | e <;> rcases x with _ | _ | _ | x <;> simp [forkWorld]

theorem staleWorld_symmetric : Symmetric staleWorld.entities := by
  intro e x
  rcases e with _ | _ | e <;> rcases x with _ | _ | x <;> simp [staleWorld]

theorem linkedWorld_symmetric : Symmetric linkedWorld.entities := by
  intro e x
  rcases e with _ | _ | _ | _ | e <;> rcases x with _ | _ | _ | _ | x <;> simp [linkedWorld]

theorem misfiledWorld_symmetric : Symmetric misfiledWorld.entities := by
  intro e x
  rcases e with _ | _ | e <;> rcases x with _ | _ | x <;> simp [misfiledWorld]

/-! ## Witnesses, counterexamples and failing inputs -/

/-- C1 as stated fails: in the symmetric state `staleWorld`, clearing the target property of
entity 0 returns, entity 1 (which has no targetname) is dropped from the link targets of
entity 0 but still lists entity 0 as a link source. -/
theorem setProperty_symmetry_lost :
    Symmetric staleWorld.entities ∧
    ∃ w', setProperty quietUpdates staleWorld 0 "target" none = .returns w' ∧
      (w'.entities 0).m_linkTargets = [] ∧ (w'.entities 1).m_linkSources = [0] ∧
      ¬ Symmetric w'.entities := by
  refine ⟨staleWorld_symmetric,
    (setProperty quietUpdates staleWorld 0 "target" none).get staleWorld, rfl, by decide,
    by decide, fun hs => ?_⟩
  exact absurd ((hs 0 1).1.2 (by decide)) (by decide)

/-- C1, amended, at work: in `linkedWorld` the link target of entity 0 has a targetname;
changing the target of entity 0 from "a" to "b" returns and the lists are symmetric. -/
theorem setProperty_symmetric_witness :
    Symmetric linkedWorld.entities ∧
    setProperty quietUpdates linkedWorld 0 "target" (some "b") =
      .returns ((setProperty quietUpdates linkedWorld 0 "target" (some "b")).get linkedWorld) ∧
    Symmetric
      ((setProperty quietUpdates linkedWorld 0 "target" (some "b")).get linkedWorld).entities :=
  ⟨linkedWorld_symmetric, rfl,
    setProperty_symmetric quietUpdates linkedWorld _ 0 "target" (some "b") linkedWorld_symmetric
      (by decide) rfl⟩

/-- C2 at work: entity 3 of `linkedWorld` is moved to another registry. -/
theorem setMap_symmetric_witness :
    Symmetric linkedWorld.entities ∧ Symmetric (setMap linkedWorld 3 (some 1)).entities :=
  ⟨linkedWorld_symmetric, setMap_symmetric linkedWorld 3 (some 1) linkedWorld_symmetric⟩

/-- C3 at work: entity 0 of `forkWorld` targets "a" and, with the property target2, "b", and
is linked to the entities 1 and 2 that carry these names; the state is symmetric. Clearing
target2 does not return, so entity 2 is never unlinked. In `linkedWorld`, where entity 0 has
the one link target named "a", changing its target from "a" to "b" returns and entity 1 is
unlinked in both directions. -/
theorem setProperty_target_severs_or_runs_on_witness :
    Symmetric forkWorld.entities ∧
    propertyForKey (forkWorld.entities 0) "target2" = some "b" ∧
    (forkWorld.entities 0).m_linkTargets = [1, 2] ∧
    propertyForKey (forkWorld.entities 1) TargetnameKey = some "a" ∧
    setProperty quietUpdates forkWorld 0 "target2" none = .diverges ∧
    ∃ w', setProperty quietUpdates linkedWorld 0 "target" (some "b") = .returns w' ∧
      1 ∉ (w'.entities 0).m_linkTargets ∧ 0 ∉ (w'.entities 1).m_linkSources := by
  have hfork := (setProperty_target_severs_or_runs_on quietUpdates forkWorld 0 "target2" "b"
    none forkWorld_symmetric (by decide) (by decide) (by decide) (by decide)
    (fun m v _ hv => by simp at hv)).1 ⟨1, by decide, "a", by decide, by decide⟩
  obtain ⟨w', hr, hsev⟩ := (setProperty_target_severs_or_runs_on quietUpdates linkedWorld 0
    "target" "a" (some "b") linkedWorld_symmetric (by decide) (by decide) (by decide)
    (by decide)
    (by
      intro m v _ hv t ht
      have hv' : v = "b" := (Option.some.inj hv).symm
      subst hv'
      have ht' : t = 2 := by simpa [linkedWorld, exampleMap] using ht
      subst ht'
      decide)).2
    (by
      intro t ht
      have ht' : t = 1 := by simpa [linkedWorld] using ht
      subst ht'
      exact Or.inr (by decide))
  exact ⟨forkWorld_symmetric, by decide, rfl, by decide, hfork, w', hr,
    hsev 1 (Or.inl (by decide))⟩

/-- C4, the failing input: entity 0 of `killWorld` has killtarget = "a" and is linked to
entity 1. Clearing the property enters the severing loop with an iterator of `m_linkTargets`
against `m_killTargets`: the call has no defined outcome, and entity 1 is not unlinked. -/
theorem setProperty_killtarget_undefined :
    propertyForKey (killWorld.entities 0) "killtarget" = some "a" ∧
    (killWorld.entities 0).m_killTargets = [1] ∧
    setProperty quietUpdates killWorld 0 "killtarget" none = .undefined := by
  refine ⟨by decide, by decide, rfl⟩

/-- C5 as stated fails: in `linkedWorld` entity 3 is a link source of entity 2 (targetname
"b") and also targets "c". After `setProperty("targetname", "c")` on entity 2, the former
link source 3 has entity 2 in its link targets again. -/
theorem setProperty_targetname_source_kept :
    Symmetric linkedWorld.entities ∧
    propertyForKey (linkedWorld.entities 2) TargetnameKey = some "b" ∧
    3 ∈ (linkedWorld.entities 2).m_linkSources ∧
    ∃ w', setProperty quietUpdates linkedWorld 2 TargetnameKey (some "c") = .returns w' ∧
      2 ∈ (w'.entities 3).m_linkTargets :=
  ⟨linkedWorld_symmetric, by decide, by decide,
    (setProperty quietUpdates linkedWorld 2 TargetnameKey (some "c")).get linkedWorld, rfl,
    by decide⟩

/-- C5, amended, at work: the targetname of entity 2 of `linkedWorld` is changed from "b" to
"c"; afterwards its link sources are what the registry gives for "c". -/
theorem setProperty_targetname_relinks_witness :
    ∃ w', setProperty quietUpdates linkedWorld 2 TargetnameKey (some "c") = .returns w' ∧
      (w'.entities 2).m_linkSources = [3] ∧ (w'.entities 2).m_killSources = [] ∧
      2 ∈ (w'.entities 3).m_linkTargets := by
  obtain ⟨w', hr, _, _, h3, _⟩ :=
    setProperty_targetname_relinks quietUpdates linkedWorld 2 (some "c") (by decide)
  have h := h3 0 "c" rfl rfl (by decide)
  exact ⟨w', hr, h.1, h.2.1, h.2.2.1 3 (by decide)⟩

/-- C6, the failing input: entity 0 of `emptyNameWorld` has target = "" (present, empty).
`setMap` hands the empty name to the registry and links what it answers, entity 1, in both
directions; `setProperty`, given the same empty value on the attached entity, links
nothing. -/
theorem setMap_links_empty_value :
    linkTargetnames (emptyNameWorld.entities 0) = [""] ∧
    ((setMap emptyNameWorld 0 (some 0)).entities 0).m_linkTargets = [1] ∧
    ((setMap emptyNameWorld 0 (some 0)).entities 1).m_linkSources = [0] ∧
    (((setProperty quietUpdates emptyNameAttached 0 "target" (some "")).get
        emptyNameAttached).entities 0).m_linkTargets = [] ∧
    setProperty quietUpdates emptyNameAttached 0 "target" (some "") =
      .returns ((setProperty quietUpdates emptyNameAttached 0 "target" (some "")).get
        emptyNameAttached) := by
  refine ⟨by decide, by decide, by decide, by decide, rfl⟩

/-- An entity that targets itself is entered twice by `setMap`, once by the rebuild of its
link targets and once by the rebuild of its link sources. -/
theorem setMap_self_link_twice :
    ((setMap selfWorld 0 (some 0)).entities 0).m_linkTargets = [0, 0] ∧
    ((setMap selfWorld 0 (some 0)).entities 0).m_linkSources = [0, 0] := by
  refine ⟨by decide, by decide⟩

/-- C8 at work: entity 2 of `linkedWorld` is detached. -/
theorem setMap_null_severs_witness :
    ((setMap linkedWorld 2 none).entities 2).m_linkSources = [] ∧
    2 ∉ ((setMap linkedWorld 2 none).entities 3).m_linkTargets ∧
    ((setMap linkedWorld 2 none).entities 0).m_linkTargets = [1] := by
  have h := setMap_null_severs linkedWorld 2 linkedWorld_symmetric (by decide)
  refine ⟨h.1.2.1, (h.2 3 (by decide)).1.1, ?_⟩
  rw [(h.2 0 (by decide)).2.1]
  decide

/-- C9 at work: entity 0 of `linkedWorld` already has target = "a". -/
theorem setProperty_same_value_witness :
    setProperty quietUpdates linkedWorld 0 "target" (some "a") = .returns linkedWorld :=
  setProperty_same_value quietUpdates linkedWorld 0 "target" (some "a") (by decide)

/-- C10 at work: entity 1 of `linkedWorld` gets the property message = "hi"; the call
returns, the new property is there and the targetname is as before. -/
theorem setProperty_propertyForKey_witness :
    setProperty quietUpdates linkedWorld 1 "message" (some "hi") =
      .returns ((setProperty quietUpdates linkedWorld 1 "message" (some "hi")).get linkedWorld) ∧
    propertyForKey
      (((setProperty quietUpdates linkedWorld 1 "message" (some "hi")).get linkedWorld).entities 1)
      "message" = some "hi" ∧
    propertyForKey
      (((setProperty quietUpdates linkedWorld 1 "message" (some "hi")).get linkedWorld).entities 1)
      "targetname" = some "a" := by
  have h := setProperty_propertyForKey quietUpdates linkedWorld
    ((setProperty quietUpdates linkedWorld 1 "message" (some "hi")).get linkedWorld)
    1 "message" (some "hi") rfl
  exact ⟨rfl, h.1, (h.2.1 "targetname" (by decide)).trans (by decide)⟩

/-! ## The classname branch -/

theorem classname_not_numbered :
    isNumberedProperty TargetKey ClassnameKey = false ∧
      isNumberedProperty KillTargetKey ClassnameKey = false ∧
      ClassnameKey ≠ TargetnameKey := by
  decide

/-- C11: for every entity and every present value `v` different from its current classname,
`setProperty("classname", v)` returns, and afterwards `worldspawn()` is true exactly when `v`
is the string "worldspawn" and the entity has no definition. -/
theorem setProperty_classname_worldspawn (u : MapUpdates) (w : World) (self : EntityId)
    (v : PropertyValue) (hne : classname (w.entities self) ≠ some v) :
    ∃ w', setProperty u w self ClassnameKey (some v) = .returns w' ∧
      ((w'.entities self).m_worldspawn = true ↔ v = "worldspawn") ∧
      (w'.entities self).m_definition = none := by
  have hne' : propertyForKey (w.entities self) ClassnameKey ≠ some v := hne
  have hne2 : some v ≠ classname (w.entities self) := fun e => hne e.symm
  have hk : ¬ (ClassnameKey = TargetnameKey) := classname_not_numbered.2.2
  unfold setProperty classnameChanged linksChanged
  simp only [if_neg hne', ne_eq, hne2, not_false_eq_true, if_true, Outcome.bind,
    classname_not_numbered.1, classname_not_numbered.2.1, Bool.false_eq_true, if_false, hk]
  refine ⟨_, rfl, ?_, ?_⟩
  · simp [storeValue, setDefinition, invalidateGeometry]
  · simp [storeValue, setDefinition, invalidateGeometry]

/-- C11 at work: the player start of `definedWorld` becomes the worldspawn entity. -/
theorem setProperty_classname_worldspawn_witness :
    ∃ w', setProperty quietUpdates definedWorld 0 ClassnameKey (some "worldspawn") = .returns w' ∧
      (w'.entities 0).m_worldspawn = true ∧ (w'.entities 0).m_definition = none := by
  obtain ⟨w', hr, hw, hd⟩ :=
    setProperty_classname_worldspawn quietUpdates definedWorld 0 "worldspawn" (by decide)
  exact ⟨w', hr, hw.2 rfl, hd⟩

/-! ## Mutability, removal, renaming -/

/-- C13: `propertyIsMutable(k)` is false exactly for `_mod`, `_def`, `wad`, `_point_format`;
`propertyKeyIsMutable(k)` is false exactly for `classname`, `origin`, `spawnflags` and those
four; so a key whose key is mutable also has a mutable value. -/
theorem mutability_tables (key : PropertyKey) :
    (propertyIsMutable key = false ↔
      key = "_mod" ∨ key = "_def" ∨ key = "wad" ∨ key = "_point_format") ∧
    (propertyKeyIsMutable key = false ↔
      key = "classname" ∨ key = "origin" ∨ key = "spawnflags" ∨
        key = "_mod" ∨ key = "_def" ∨ key = "wad" ∨ key = "_point_format") ∧
    (propertyKeyIsMutable key = true → propertyIsMutable key = true) := by
  unfold propertyIsMutable propertyKeyIsMutable
  refine ⟨?_, ?_, ?_⟩
  · split_ifs <;> simp_all
  · split_ifs <;> simp_all
  · split_ifs <;> simp_all

/-- C13 at work on the key `angle`, which is mutable in both senses. -/
theorem mutability_tables_witness :
    propertyKeyIsMutable "angle" = true ∧ propertyIsMutable "angle" = true :=
  ⟨by decide, (mutability_tables "angle").2.2 (by decide)⟩

theorem removeProperty_asserts (u : MapUpdates) (w : World) (self : EntityId)
    (key : PropertyKey) :
    removeProperty u w self key = .assertionFailed ↔ propertyKeyIsMutable key = false := by
  unfold removeProperty
  cases h : propertyKeyIsMutable key
  · simp
  · simp only [if_true]
    split_ifs <;> simp

theorem renameProperty_asserts (stale : PropertyValue) (u : MapUpdates) (w : World)
    (self : EntityId) (oldKey newKey : PropertyKey) :
    renameProperty stale u w self oldKey newKey = .assertionFailed ↔
      propertyKeyIsMutable oldKey = false := by
  rw [← removeProperty_asserts u w self oldKey]
  unfold renameProperty
  cases h : removeProperty u w self oldKey with
  | assertionFailed => simp
  | passed o => simp

/-- A call of `renameProperty` that returns is a removal that returned followed by a call of
`setProperty` for the new key that returned. -/
theorem renameProperty_returns {stale : PropertyValue} {u : MapUpdates} {w w' : World}
    {self : EntityId} {oldKey newKey : PropertyKey}
    (hr : renameProperty stale u w self oldKey newKey = .passed (.returns w')) :
    ∃ w1, removeProperty u w self oldKey = .passed (.returns w1) ∧
      setProperty u w1 self newKey
        ((propertyForKey (w.entities self) oldKey).map fun _ => stale) = .returns w' := by
  unfold renameProperty at hr
  cases h : removeProperty u w self oldKey with
  | assertionFailed => simp [h] at hr
  | passed removed =>
    simp only [h, Asserted.passed.injEq] at hr
    obtain ⟨w1, h1, h2⟩ := bind_returns hr
    exact ⟨w1, by rw [h1], h2⟩

theorem removeProperty_absent (u : MapUpdates) (w : World) (self : EntityId)
    (key : PropertyKey) (hk : propertyKeyIsMutable key = true)
    (ha : propertyForKey (w.entities self) key = none) :
    removeProperty u w self key = .passed (.returns w) := by
  unfold removeProperty
  unfold propertyForKey at ha
  simp [hk, PropertyStore.containsProperty, ha]

/-- A key that is mutable and not a numbered target or killtarget key: `removeProperty` removes
the property when it is present. -/
theorem removeProperty_plain (u : MapUpdates) (w : World) (self : EntityId)
    (key : PropertyKey) (hk : propertyKeyIsMutable key = true)
    (ht : isNumberedProperty TargetKey key = false)
    (hkt : isNumberedProperty KillTargetKey key = false)
    (hp : propertyForKey (w.entities self) key ≠ none) :
    ∃ w', removeProperty u w self key = .passed (.returns w') ∧
      propertyForKey (w'.entities self) key = none ∧
      ∀ k', k' ≠ key →
        propertyForKey (w'.entities self) k' = propertyForKey (w.entities self) k' := by
  have hc : key ≠ ClassnameKey := by
    intro h
    subst h
    exact absurd hk (by decide)
  obtain ⟨w', hr⟩ := setProperty_returns_plain u w self key none hc ht hkt
  have hs := setProperty_store hr hp
  refine ⟨w', ?_, ?_, ?_⟩
  · unfold removeProperty
    have hcont : PropertyStore.containsProperty (w.entities self).m_propertyStore key = true := by
      unfold propertyForKey at hp
      unfold PropertyStore.containsProperty
      cases h : PropertyStore.propertyValue (w.entities self).m_propertyStore key with
      | none => exact absurd h hp
      | some v => rfl
    simp [hk, hcont, hr]
  · unfold propertyForKey
    rw [hs]
    exact propertyValue_applyValue_same _ _ _
  · intro k' hk'
    unfold propertyForKey
    rw [hs]
    exact propertyValue_applyValue_other _ _ _ _ hk'

/-- C12, the failing input: entity 0 of `killWorld` has killtarget = "a". The key is
key-mutable, so the assertion of `removeProperty` passes; the call goes on to
`setProperty("killtarget", NULL)`, whose severing loop uses an iterator of `m_linkTargets`
on `m_killTargets`: the call has no defined outcome and the property is not removed. -/
theorem removeProperty_killtarget_undefined :
    propertyKeyIsMutable "killtarget" = true ∧
    propertyForKey (killWorld.entities 0) "killtarget" = some "a" ∧
    removeProperty quietUpdates killWorld 0 "killtarget" = .passed .undefined := by
  refine ⟨by decide, by decide, rfl⟩

/-- C14 as stated fails: entity 0 of `modWorld` has `_mod` = "id1", a key whose value is not
mutable; `setProperty("_mod", "hipnotic")` returns and the stored value is "hipnotic". -/
theorem setProperty_changes_immutable_value :
    propertyIsMutable "_mod" = false ∧
    propertyForKey (modWorld.entities 0) "_mod" = some "id1" ∧
    ∃ w', setProperty quietUpdates modWorld 0 "_mod" (some "hipnotic") = .returns w' ∧
      propertyForKey (w'.entities 0) "_mod" = some "hipnotic" :=
  ⟨by decide, by decide,
    (setProperty quietUpdates modWorld 0 "_mod" (some "hipnotic")).get modWorld, rfl, by decide⟩

/-- C14, amended: `setProperty` does not consult `propertyIsMutable`. For every entity and
every key among `_mod`, `_def`, `wad`, `_point_format` that has a value, `setProperty(k, v)`
with a different `v` returns and `v` is the stored value of `k` afterwards. -/
theorem setProperty_immutable_value (u : MapUpdates) (w : World) (self : EntityId)
    (key : PropertyKey) (old v : PropertyValue)
    (hk : propertyIsMutable key = false)
    (ho : propertyForKey (w.entities self) key = some old) (hv : v ≠ old) :
    ∃ w', setProperty u w self key (some v) = .returns w' ∧
      propertyForKey (w'.entities self) key = some v := by
  have hkeys : key = "_mod" ∨ key = "_def" ∨ key = "wad" ∨ key = "_point_format" := by
    unfold propertyIsMutable at hk
    split_ifs at hk <;> simp_all
  have hplain : key ≠ ClassnameKey ∧ isNumberedProperty TargetKey key = false ∧
      isNumberedProperty KillTargetKey key = false := by
    rcases hkeys with h | h | h | h <;> subst h <;> decide
  obtain ⟨w', hr⟩ := setProperty_returns_plain u w self key (some v) hplain.1 hplain.2.1 hplain.2.2
  have hne : propertyForKey (w.entities self) key ≠ some v := by
    rw [ho]
    exact fun e => hv (Option.some.inj e).symm
  refine ⟨w', hr, ?_⟩
  unfold propertyForKey
  rw [setProperty_store hr hne]
  exact propertyValue_applyValue_same _ _ _

/-- C14, amended, at work on the `_mod` of `modWorld`. -/
theorem setProperty_immutable_value_witness :
    ∃ w', setProperty quietUpdates modWorld 0 "_mod" (some "hipnotic") = .returns w' ∧
      propertyForKey (w'.entities 0) "_mod" = some "hipnotic" :=
  setProperty_immutable_value quietUpdates modWorld 0 "_mod" "id1" "hipnotic" (by decide)
    (by decide) (by decide)

/-! ## The rotation policy -/

/-- C15, amended: for an entity whose classname starts with "light", `rotationInfo` gives
(Euler angles, "mangle") when a mangle property exists; otherwise, when no "target" property
exists, (Euler angles, "angles") when an angles property exists and (single-axis angle,
"angle") when not; otherwise, with a target and no mangle, the kind none. -/
theorem rotationInfo_light {F : Type} (fl : FloatOps F) (center : CenterOf F) (w : World)
    (self : EntityId) (name : PropertyValue)
    (hc : classname (w.entities self) = some name)
    (hl : Utility.startsWith name "light" = true) :
    (propertyForKey (w.entities self) MangleKey ≠ none →
      rotationInfo fl center w self = { type := .RTEulerAngles, property := MangleKey }) ∧
    (propertyForKey (w.entities self) MangleKey = none →
      propertyForKey (w.entities self) TargetKey = none →
      propertyForKey (w.entities self) AnglesKey ≠ none →
      rotationInfo fl center w self = { type := .RTEulerAngles, property := AnglesKey }) ∧
    (propertyForKey (w.entities self) MangleKey = none →
      propertyForKey (w.entities self) TargetKey = none →
      propertyForKey (w.entities self) AnglesKey = none →
      rotationInfo fl center w self = { type := .RTZAngle, property := AngleKey }) ∧
    (propertyForKey (w.entities self) MangleKey = none →
      propertyForKey (w.entities self) TargetKey ≠ none →
      (rotationInfo fl center w self).type = .RTNone) := by
  refine ⟨?_, ?_, ?_, ?_⟩
  · intro hm
    simp [rotationInfo, hc, hl, hm]
  · intro hm ht ha
    simp [rotationInfo, hc, hl, hm, ht, ha]
  · intro hm ht ha
    simp [rotationInfo, hc, hl, hm, ht, ha]
  · intro hm ht
    simp [rotationInfo, hc, hl, hm, ht]

/-- C16: for an entity with a classname that does not start with "light" and that owns a
brush or has a definition of brush type, `rotationInfo` gives (Euler angles, "angles") when an
angles property exists, else (single-axis with up/down, "angle") when an angle property
exists, else the kind none. -/
theorem rotationInfo_brush_entity {F : Type} (fl : FloatOps F) (center : CenterOf F)
    (w : World) (self : EntityId) (name : PropertyValue)
    (hc : classname (w.entities self) = some name)
    (hl : Utility.startsWith name "light" = false)
    (hb : (w.entities self).m_brushes ≠ [] ∨
      ∃ d, (w.entities self).m_definition = some d ∧
        (w.definitions d).m_type = EntityDefinitionType.BrushEntity) :
    (propertyForKey (w.entities self) AnglesKey ≠ none →
      rotationInfo fl center w self = { type := .RTEulerAngles, property := AnglesKey }) ∧
    (propertyForKey (w.entities self) AnglesKey = none →
      propertyForKey (w.entities self) AngleKey ≠ none →
      rotationInfo fl center w self = { type := .RTZAngleWithUpDown, property := AngleKey }) ∧
    (propertyForKey (w.entities self) AnglesKey = none →
      propertyForKey (w.entities self) AngleKey = none →
      (rotationInfo fl center w self).type = .RTNone) := by
  have hbe : brushEntity w self = true := by
    rcases hb with hb | ⟨d, hd, ht⟩
    · cases hbr : (w.entities self).m_brushes with
      | nil => exact absurd hbr hb
      | cons b bs => simp [brushEntity, hbr]
    · simp [brushEntity, hd, ht]
  refine ⟨?_, ?_, ?_⟩
  · intro ha
    simp [rotationInfo, hc, hl, hbe, ha]
  · intro ha hg
    simp [rotationInfo, hc, hl, hbe, ha, hg]
  · intro ha hg
    simp [rotationInfo, hc, hl, hbe, ha, hg]

/-! ## The number overloads on keys without side effects -/

/-- A key that is not the classname key, not a numbered target or killtarget key and not the
targetname key: the call stores the value and does nothing else. -/
theorem setProperty_plain_eq (u : MapUpdates) (w : World) (self : EntityId)
    (key : PropertyKey) (value : Option PropertyValue) (hc : key ≠ ClassnameKey)
    (ht : isNumberedProperty TargetKey key = false)
    (hk : isNumberedProperty KillTargetKey key = false) (hn : key ≠ TargetnameKey) :
    setProperty u w self key value =
      .returns (if propertyForKey (w.entities self) key = value then w
        else storeValue w self key value) := by
  by_cases h0 : propertyForKey (w.entities self) key = value
  · simp [setProperty, h0]
  · simp [setProperty, h0, classnameChanged, linksChanged, hc, ht, hk, hn, Outcome.bind]

/-- What a call on such a key leaves behind: the key has the new value, every other key has
its old value, and the brushes, the definition and the definitions are as before. -/
theorem setProperty_plain (u : MapUpdates) (w : World) (self : EntityId)
    (key : PropertyKey) (value : Option PropertyValue) (hc : key ≠ ClassnameKey)
    (ht : isNumberedProperty TargetKey key = false)
    (hk : isNumberedProperty KillTargetKey key = false) (hn : key ≠ TargetnameKey) :
    ∃ w', setProperty u w self key value = .returns w' ∧
      propertyForKey (w'.entities self) key = value ∧
      (∀ k, k ≠ key →
        propertyForKey (w'.entities self) k = propertyForKey (w.entities self) k) ∧
      (w'.entities self).m_brushes = (w.entities self).m_brushes ∧
      (w'.entities self).m_definition = (w.entities self).m_definition ∧
      w'.definitions = w.definitions := by
  refine ⟨_, setProperty_plain_eq u w self key value hc ht hk hn, ?_⟩
  by_cases h0 : propertyForKey (w.entities self) key = value
  · simp [h0]
  · simp only [h0, if_false]
    refine ⟨?_, ?_, ?_, ?_, ?_⟩
    · unfold propertyForKey
      rw [storeValue_store]
      exact propertyValue_applyValue_same _ _ _
    · intro k hk'
      unfold propertyForKey
      rw [storeValue_store]
      exact propertyValue_applyValue_other _ _ _ _ hk'
    · simp [storeValue, invalidateGeometry]
    · simp [storeValue, invalidateGeometry]
    · simp [storeValue]

/-- The keys the rotation code writes have no side effects. -/
theorem rotation_keys_plain :
    ∀ key ∈ [OriginKey, AngleKey, AnglesKey, MangleKey],
      key ≠ ClassnameKey ∧ isNumberedProperty TargetKey key = false ∧
        isNumberedProperty KillTargetKey key = false ∧ key ≠ TargetnameKey := by
  decide

/-- The key `rotationInfo` names is "angle", "angles" or "mangle" unless the kind is none. -/
theorem rotationInfo_property {F : Type} (fl : FloatOps F) (center : CenterOf F) (w : World)
    (self : EntityId) (h : (rotationInfo fl center w self).type ≠ .RTNone) :
    (rotationInfo fl center w self).property ∈ [AngleKey, AnglesKey, MangleKey] := by
  revert h
  unfold rotationInfo
  simp only
  split
  · simp
  · split_ifs <;> simp

/-- The geometry flag does not matter to the properties. -/
theorem propertyForKey_invalidated (w : World) (self : EntityId) (key : PropertyKey) :
    propertyForKey ((invalidated w self).entities self) key =
      propertyForKey (w.entities self) key := by
  simp [invalidated, invalidateGeometry, propertyForKey]

/-- `setProperty(key, float, true)` on a key without side effects returns and leaves the
digits of the whole number. -/
theorem setPropertyWhole_plain (u : MapUpdates) (w : World) (self : EntityId)
    (key : PropertyKey) (value : Int) (hkey : key ∈ [OriginKey, AngleKey, AnglesKey, MangleKey]) :
    ∃ w', setPropertyWhole u w self key value = .returns w' ∧
      propertyForKey (w'.entities self) key = some (toString value) := by
  obtain ⟨hc, ht, hk, hn⟩ := rotation_keys_plain key hkey
  obtain ⟨w', hr, hv, -⟩ := setProperty_plain u w self key (some (toString value)) hc ht hk hn
  exact ⟨w', hr, hv⟩

/-- C19: the claim fails in the code. For an entity of the kind single-axis with up/down and
a rotation about Z, when the stored angle is no sentinel, the heading derived from it rounds
to 0 degrees and its Y component is negative (as for a stored angle of 359.7), then
`applyRotation` stores `360 - 0`, the number 360, which is not below 360: the loop of line
226 corrects negative numbers only. -/
theorem applyRotation_updown_stores_360 {F : Type} (fl : FloatOps F) (center : CenterOf F)
    (u : MapUpdates) (w : World) (self : EntityId) (rotation : Quat F) (value : PropertyValue)
    (hinfo : rotationInfo fl center w self =
      { type := .RTZAngleWithUpDown, property := AngleKey })
    (haxis : fl.firstComponent rotation.v = Axis.AZ)
    (hvalue : propertyForKey (w.entities self) AngleKey = some value)
    (hup : fl.eq (fl.atof value) (fl.ofInt (-1)) = false)
    (hdown : fl.eq (fl.atof value) (fl.ofInt (-2)) = false)
    (hflat : fl.lt fl.ninetyPercent (fl.ofInt 0) = false ∧
      fl.lt (fl.ofInt 0) (fl.neg fl.ninetyPercent) = false)
    (hround : fl.round (fl.degrees (fl.acos (fl.normalize
      { x := fl.cos (fl.radians (fl.atof value)), y := fl.sin (fl.radians (fl.atof value)),
        z := fl.ofInt 0 }).x)) = 0)
    (hneg : fl.lt (fl.normalize
      { x := fl.cos (fl.radians (fl.atof value)), y := fl.sin (fl.radians (fl.atof value)),
        z := fl.ofInt 0 }).y (fl.ofInt 0) = true) :
    ∃ w', applyRotation fl center u w self rotation = .returns w' ∧
      propertyForKey (w'.entities self) AngleKey = some "360" := by
  obtain ⟨w', hr, hv⟩ := setPropertyWhole_plain u w self AngleKey 360 (by simp)
  refine ⟨w', ?_, hv⟩
  rw [← hr]
  unfold applyRotation
  simp only [hinfo]
  unfold applyZAngleWithUpDown
  simp only [haxis, ne_eq, not_true_eq_false, if_false, storedAngle, hvalue, hup, hdown,
    Bool.false_eq_true, hflat.1, hflat.2, planeAngle, hround, hneg, if_true]
  rfl

/-! ## flip -/

/-- The first step of `flip`: it returns, and only the origin has changed. -/
theorem moveOriginFlipped_frame {F : Type} (fl : FloatOps F) (center : CenterOf F)
    (u : MapUpdates) (w : World) (self : EntityId) (axis : Axis) (flipCenter : Vec3f F) :
    ∃ w1, moveOriginFlipped fl center u w self axis flipCenter = .returns w1 ∧
      ∀ k, k ≠ OriginKey →
        propertyForKey (w1.entities self) k = propertyForKey (w.entities self) k := by
  obtain ⟨hc, ht, hk, hn⟩ := rotation_keys_plain OriginKey (by simp)
  by_cases hb : (w.entities self).m_brushes.isEmpty = true
  · obtain ⟨w1, hr, -, hframe, -⟩ := setProperty_plain u w self OriginKey
      (some (toString (castInt (fl.round (fl.vadd (fl.flipped (center w self) axis flipCenter)
          (fl.vsub (origin fl (w.entities self)) (center w self))).x)) ++ " " ++
        toString (castInt (fl.round (fl.vadd (fl.flipped (center w self) axis flipCenter)
          (fl.vsub (origin fl (w.entities self)) (center w self))).y)) ++ " " ++
        toString (castInt (fl.round (fl.vadd (fl.flipped (center w self) axis flipCenter)
          (fl.vsub (origin fl (w.entities self)) (center w self))).z)))) hc ht hk hn
    exact ⟨w1, by simpa [moveOriginFlipped, setPropertyVec3f, hb] using hr, hframe⟩
  · exact ⟨w, by simp [moveOriginFlipped, hb], fun _ _ => rfl⟩

/-- `setProperty(key, float, true)` on a key of the rotation code returns and leaves the
rounded number as the stream writes it. -/
theorem setPropertyFloat_plain {F : Type} (fl : FloatOps F) (u : MapUpdates) (w : World)
    (self : EntityId) (key : PropertyKey) (value : F)
    (hkey : key ∈ [OriginKey, AngleKey, AnglesKey, MangleKey]) :
    ∃ w', setPropertyFloat fl u w self key value true = .returns w' ∧
      propertyForKey (w'.entities self) key = some (fl.printRounded value) := by
  obtain ⟨hc, ht, hk, hn⟩ := rotation_keys_plain key hkey
  obtain ⟨w', hr, hv, -⟩ :=
    setProperty_plain u w self key (some (fl.printRounded value)) hc ht hk hn
  exact ⟨w', by simpa [setPropertyFloat] using hr, hv⟩

/-- `setProperty(key, Vec3f, true)` on a key of the rotation code returns and leaves the
digits of the three rounded numbers. -/
theorem setPropertyVec3f_plain {F : Type} (fl : FloatOps F) (u : MapUpdates) (w : World)
    (self : EntityId) (key : PropertyKey) (value : Vec3f F)
    (hkey : key ∈ [OriginKey, AngleKey, AnglesKey, MangleKey]) :
    ∃ w', setPropertyVec3f fl u w self key value true = .returns w' ∧
      propertyForKey (w'.entities self) key =
        some (toString (castInt (fl.round value.x)) ++ " " ++ toString (castInt (fl.round value.y)) ++ " " ++
          toString (castInt (fl.round value.z))) := by
  obtain ⟨hc, ht, hk, hn⟩ := rotation_keys_plain key hkey
  obtain ⟨w', hr, hv, -⟩ := setProperty_plain u w self key
    (some (toString (castInt (fl.round value.x)) ++ " " ++ toString (castInt (fl.round value.y)) ++ " " ++
      toString (castInt (fl.round value.z)))) hc ht hk hn
  exact ⟨w', by simpa [setPropertyVec3f] using hr, hv⟩

/-- The key of a rotation that is not of the kind none is a key of the rotation code and is
not the origin key. -/
theorem rotationInfo_key {F : Type} (fl : FloatOps F) (center : CenterOf F) (w : World)
    (self : EntityId) (h : (rotationInfo fl center w self).type ≠ .RTNone) :
    (rotationInfo fl center w self).property ∈ [OriginKey, AngleKey, AnglesKey, MangleKey] ∧
      (rotationInfo fl center w self).property ≠ OriginKey := by
  have hm := rotationInfo_property fl center w self h
  simp only [List.mem_cons, List.mem_singleton, List.not_mem_nil, or_false] at hm
  rcases hm with hm | hm | hm <;> rw [hm] <;> decide

/-- The second step of `flip`: for a kind other than none it returns and the key of the
rotation holds what the case of the kind wrote. -/
theorem flipOrientation_stores {F : Type} (fl : FloatOps F) (center : CenterOf F)
    (u : MapUpdates) (w1 : World) (self : EntityId) (axis : Axis) :
    ∃ w2, flipOrientation fl center u w1 self axis = .returns w2 ∧
      ((rotationInfo fl center w1 self).type = .RTZAngle →
        propertyForKey (w2.entities self) (rotationInfo fl center w1 self).property =
          some (fl.printRounded (flippedAngle fl
            (storedAngle fl (w1.entities self) (rotationInfo fl center w1 self).property)
            axis))) ∧
      ((rotationInfo fl center w1 self).type = .RTZAngleWithUpDown →
        propertyForKey (w2.entities self) (rotationInfo fl center w1 self).property =
          some (fl.printRounded (flippedAngleWithUpDown fl
            (storedAngle fl (w1.entities self) (rotationInfo fl center w1 self).property)
            axis))) ∧
      ((rotationInfo fl center w1 self).type = .RTEulerAngles →
        propertyForKey (w2.entities self) (rotationInfo fl center w1 self).property =
          some (toString (castInt (fl.round (flippedAngles fl
              (storedAngles fl (w1.entities self) (rotationInfo fl center w1 self).property)
              axis).x)) ++ " " ++
            toString (castInt (fl.round (flippedAngles fl
              (storedAngles fl (w1.entities self) (rotationInfo fl center w1 self).property)
              axis).y)) ++ " " ++
            toString (castInt (fl.round (flippedAngles fl
              (storedAngles fl (w1.entities self) (rotationInfo fl center w1 self).property)
              axis).z)))) := by
  cases htype : (rotationInfo fl center w1 self).type with
  | RTNone =>
    exact ⟨w1, by simp [flipOrientation, htype], by simp⟩
  | RTZAngle =>
    have hkey := (rotationInfo_key fl center w1 self (by simp [htype])).1
    obtain ⟨w2, hr, hv⟩ := setPropertyFloat_plain fl u w1 self _
      (flippedAngle fl
        (storedAngle fl (w1.entities self) (rotationInfo fl center w1 self).property) axis) hkey
    exact ⟨w2, by simpa [flipOrientation, htype, flipZAngle] using hr, by simpa using hv⟩
  | RTZAngleWithUpDown =>
    have hkey := (rotationInfo_key fl center w1 self (by simp [htype])).1
    obtain ⟨w2, hr, hv⟩ := setPropertyFloat_plain fl u w1 self _
      (flippedAngleWithUpDown fl
        (storedAngle fl (w1.entities self) (rotationInfo fl center w1 self).property) axis) hkey
    exact ⟨w2, by simpa [flipOrientation, htype, flipZAngleWithUpDown] using hr,
      by simpa using hv⟩
  | RTEulerAngles =>
    have hkey := (rotationInfo_key fl center w1 self (by simp [htype])).1
    obtain ⟨w2, hr, hv⟩ := setPropertyVec3f_plain fl u w1 self _
      (flippedAngles fl
        (storedAngles fl (w1.entities self) (rotationInfo fl center w1 self).property) axis) hkey
    exact ⟨w2, by simpa [flipOrientation, htype, flipEulerAngles] using hr, by simpa using hv⟩

/-- The whole of `flip`: it returns, and for a kind other than none the key of the rotation
holds the digits of the flipped orientation, computed from the values stored before. -/
theorem flip_stores {F : Type} (fl : FloatOps F) (center : CenterOf F)
    (u : MapUpdates) (w : World) (self : EntityId) (axis : Axis) (flipCenter : Vec3f F)
    (info : RotationInfo)
    (hinfo : ∀ w1, moveOriginFlipped fl center u w self axis flipCenter = .returns w1 →
      rotationInfo fl center w1 self = info) :
    ∃ w', flip fl center u w self axis flipCenter = .returns w' ∧
      (info.type = .RTZAngle →
        propertyForKey (w'.entities self) info.property =
          some (fl.printRounded (flippedAngle fl
            (storedAngle fl (w.entities self) info.property) axis))) ∧
      (info.type = .RTZAngleWithUpDown →
        propertyForKey (w'.entities self) info.property =
          some (fl.printRounded (flippedAngleWithUpDown fl
            (storedAngle fl (w.entities self) info.property) axis))) ∧
      (info.type = .RTEulerAngles →
        propertyForKey (w'.entities self) info.property =
          some (toString (castInt (fl.round (flippedAngles fl
              (storedAngles fl (w.entities self) info.property) axis).x)) ++ " " ++
            toString (castInt (fl.round (flippedAngles fl
              (storedAngles fl (w.entities self) info.property) axis).y)) ++ " " ++
            toString (castInt (fl.round (flippedAngles fl
              (storedAngles fl (w.entities self) info.property) axis).z)))) := by
  obtain ⟨w1, hm, hframe⟩ := moveOriginFlipped_frame fl center u w self axis flipCenter
  have hi := hinfo w1 hm
  obtain ⟨w2, hr, h1, h2, h3⟩ := flipOrientation_stores fl center u w1 self axis
  rw [hi] at h1 h2 h3
  have hk : info.type ≠ .RTNone → info.property ≠ OriginKey := by
    intro hne
    have := (rotationInfo_key fl center w1 self (by rw [hi]; exact hne)).2
    rwa [hi] at this
  have ha : info.type ≠ .RTNone → storedAngle fl (w1.entities self) info.property =
      storedAngle fl (w.entities self) info.property := by
    intro hne
    unfold storedAngle
    rw [hframe _ (hk hne)]
  have hv : info.type ≠ .RTNone → storedAngles fl (w1.entities self) info.property =
      storedAngles fl (w.entities self) info.property := by
    intro hne
    unfold storedAngles
    rw [hframe _ (hk hne)]
  refine ⟨invalidated w2 self, ?_, ?_, ?_, ?_⟩
  · simp [flip, hm, hr, Outcome.bind]
  · intro ht
    rw [propertyForKey_invalidated, h1 ht, ha (by simp [ht])]
  · intro ht
    rw [propertyForKey_invalidated, h2 ht, ha (by simp [ht])]
  · intro ht
    rw [propertyForKey_invalidated, h3 ht, hv (by simp [ht])]

/-- What `printRounded` writes for a number that rounds to a whole number other than zero. -/
theorem printRounded_of_round {F : Type} (fl : FloatOps F) (x : F) (n : Int)
    (h : fl.round x = n) (hn : n ≠ 0) : fl.printRounded x = streamWhole n := by
  simp [FloatOps.printRounded, h, hn]

/-- C20, amended: `flip` returns and re-encodes the orientation per axis, and what it stores
is rounded to whole numbers. For the kind single-axis angle with stored angle `a`, an X-flip
stores 180 - a, a Y-flip 360 - a and a Z-flip a, each rounded by `Math::round` and written
as `printRounded` has it: the digits of the whole number when it has up to six, a mantissa
of six significant digits and an exponent when it has more, and "-0" for the negative zero.
For the kind with up/down the same holds when `a` is no sentinel; a Z-flip stores "-2" for
the sentinel -1 and "-1" for the sentinel -2, and X- and Y-flips store a sentinel back. For
the Euler kind a Z-flip negates the third component, X- and Y-flips map the first component
to 180 - yaw and 360 - yaw, and each of the three components is stored as the digits of the
`int` the rounded number is cast to. The kind is the one `rotationInfo` gives after the
origin has been moved, and a number equal to -1 or -2 is assumed to round to itself. -/
theorem flip_stores_rounded_as_streamed {F : Type} (fl : FloatOps F) (center : CenterOf F)
    (u : MapUpdates) (w : World) (self : EntityId) (axis : Axis) (flipCenter : Vec3f F)
    (info : RotationInfo)
    (hminusOne : ∀ x, fl.eq x (fl.ofInt (-1)) = true → fl.round x = -1)
    (hminusTwo : ∀ x, fl.eq x (fl.ofInt (-2)) = true → fl.round x = -2)
    (hsentinels : fl.round (fl.ofInt (-1)) = -1 ∧ fl.round (fl.ofInt (-2)) = -2)
    (hinfo : ∀ w1, moveOriginFlipped fl center u w self axis flipCenter = .returns w1 →
      rotationInfo fl center w1 self = info) :
    ∃ w', flip fl center u w self axis flipCenter = .returns w' ∧
      (info.type = .RTZAngle →
        (axis = .AX → propertyForKey (w'.entities self) info.property =
          some (fl.printRounded (fl.sub (fl.ofInt 180)
            (storedAngle fl (w.entities self) info.property)))) ∧
        (axis = .AY → propertyForKey (w'.entities self) info.property =
          some (fl.printRounded (fl.sub (fl.ofInt 360)
            (storedAngle fl (w.entities self) info.property)))) ∧
        (axis = .AZ → propertyForKey (w'.entities self) info.property =
          some (fl.printRounded (storedAngle fl (w.entities self) info.property)))) ∧
      (info.type = .RTZAngleWithUpDown →
        (fl.eq (storedAngle fl (w.entities self) info.property) (fl.ofInt (-1)) = false →
          fl.eq (storedAngle fl (w.entities self) info.property) (fl.ofInt (-2)) = false →
          (axis = .AX → propertyForKey (w'.entities self) info.property =
            some (fl.printRounded (fl.sub (fl.ofInt 180)
              (storedAngle fl (w.entities self) info.property)))) ∧
          (axis = .AY → propertyForKey (w'.entities self) info.property =
            some (fl.printRounded (fl.sub (fl.ofInt 360)
              (storedAngle fl (w.entities self) info.property)))) ∧
          (axis = .AZ → propertyForKey (w'.entities self) info.property =
            some (fl.printRounded (storedAngle fl (w.entities self) info.property)))) ∧
        (fl.eq (storedAngle fl (w.entities self) info.property) (fl.ofInt (-1)) = true →
          (axis = .AZ → propertyForKey (w'.entities self) info.property = some "-2") ∧
          (axis ≠ .AZ → propertyForKey (w'.entities self) info.property = some "-1")) ∧
        (fl.eq (storedAngle fl (w.entities self) info.property) (fl.ofInt (-1)) = false →
          fl.eq (storedAngle fl (w.entities self) info.property) (fl.ofInt (-2)) = true →
          (axis = .AZ → propertyForKey (w'.entities self) info.property = some "-1") ∧
          (axis ≠ .AZ → propertyForKey (w'.entities self) info.property = some "-2"))) ∧
      (info.type = .RTEulerAngles →
        (axis = .AX → propertyForKey (w'.entities self) info.property =
          some (toString (castInt (fl.round (fl.sub (fl.ofInt 180)
              (storedAngles fl (w.entities self) info.property).x))) ++ " " ++
            toString (castInt (fl.round (storedAngles fl (w.entities self) info.property).y)) ++ " " ++
            toString (castInt (fl.round (storedAngles fl (w.entities self) info.property).z)))) ∧
        (axis = .AY → propertyForKey (w'.entities self) info.property =
          some (toString (castInt (fl.round (fl.sub (fl.ofInt 360)
              (storedAngles fl (w.entities self) info.property).x))) ++ " " ++
            toString (castInt (fl.round (storedAngles fl (w.entities self) info.property).y)) ++ " " ++
            toString (castInt (fl.round (storedAngles fl (w.entities self) info.property).z)))) ∧
        (axis = .AZ → propertyForKey (w'.entities self) info.property =
          some (toString (castInt (fl.round (storedAngles fl (w.entities self) info.property).x)) ++
            " " ++
            toString (castInt (fl.round (storedAngles fl (w.entities self) info.property).y)) ++ " " ++
            toString (castInt (fl.round
              (fl.neg (storedAngles fl (w.entities self) info.property).z)))))) := by
  have hup : ∀ x, fl.eq x (fl.ofInt (-1)) = true → fl.printRounded x = "-1" :=
    fun x h => printRounded_of_round fl x (-1) (hminusOne x h) (by decide)
  have hdown : ∀ x, fl.eq x (fl.ofInt (-2)) = true → fl.printRounded x = "-2" :=
    fun x h => printRounded_of_round fl x (-2) (hminusTwo x h) (by decide)
  have hwhole : fl.printRounded (fl.ofInt (-1)) = "-1" ∧
      fl.printRounded (fl.ofInt (-2)) = "-2" :=
    ⟨printRounded_of_round fl _ (-1) hsentinels.1 (by decide),
      printRounded_of_round fl _ (-2) hsentinels.2 (by decide)⟩
  obtain ⟨w', hr, h1, h2, h3⟩ := flip_stores fl center u w self axis flipCenter info hinfo
  refine ⟨w', hr, ?_, ?_, ?_⟩
  · intro ht
    refine ⟨?_, ?_, ?_⟩ <;> intro hax <;> subst hax <;> exact h1 ht
  · intro ht
    refine ⟨?_, ?_, ?_⟩
    · intro e1 e2
      refine ⟨?_, ?_, ?_⟩ <;> intro hax <;> subst hax <;> rw [h2 ht] <;>
        simp [flippedAngleWithUpDown, e1, e2]
    · intro e1
      refine ⟨?_, ?_⟩
      · intro hax
        subst hax
        rw [h2 ht]
        simp [flippedAngleWithUpDown, e1, hwhole.2]
      · intro hax
        rw [h2 ht]
        cases axis with
        | AZ => exact absurd rfl hax
        | AX => simp [flippedAngleWithUpDown, e1, hup _ e1]
        | AY => simp [flippedAngleWithUpDown, e1, hup _ e1]
    · intro e1 e2
      refine ⟨?_, ?_⟩
      · intro hax
        subst hax
        rw [h2 ht]
        simp [flippedAngleWithUpDown, e1, e2, hwhole.1]
      · intro hax
        rw [h2 ht]
        cases axis with
        | AZ => exact absurd rfl hax
        | AX => simp [flippedAngleWithUpDown, e1, e2, hdown _ e2]
        | AY => simp [flippedAngleWithUpDown, e1, e2, hdown _ e2]
  · intro ht
    refine ⟨?_, ?_, ?_⟩ <;> intro hax <;> subst hax <;> exact h3 ht

/-! ## The rotation claims at work -/

/-- C15 as stated fails: the light of `lampWorld` has an angles property and neither a
mangle nor a target, and `rotationInfo` gives the kind Euler angles with the key "angles",
not the kind single-axis angle. -/
theorem rotationInfo_light_angles_euler :
    classname (lampWorld.entities 0) = some "light" ∧
    propertyForKey (lampWorld.entities 0) MangleKey = none ∧
    propertyForKey (lampWorld.entities 0) TargetKey = none ∧
    propertyForKey (lampWorld.entities 0) AnglesKey = some "0 90 0" ∧
    rotationInfo fixedPoint middleCenter lampWorld 0 =
      { type := .RTEulerAngles, property := "angles" } ∧
    (rotationInfo fixedPoint middleCenter lampWorld 0).type ≠ .RTZAngle := by
  decide

/-- C15, amended, at work: the torch of `torchWorld` has a classname that starts with "light"
and no mangle, target or angles property; its kind is single-axis angle with the key
"angle". -/
theorem rotationInfo_light_witness :
    Utility.startsWith "light_torch_small_walltorch" "light" = true ∧
    rotationInfo fixedPoint sideCenter torchWorld 0 =
      { type := .RTZAngle, property := "angle" } :=
  ⟨by decide,
    (rotationInfo_light fixedPoint sideCenter torchWorld 0 "light_torch_small_walltorch"
      (by decide) (by decide)).2.2.1 (by decide) (by decide) (by decide)⟩

/-- C16 at work: the door of `doorWorld` owns a brush and has an angle and no angles
property; its kind is single-axis with up/down and the key "angle". -/
theorem rotationInfo_brush_entity_witness :
    (doorWorld.entities 0).m_brushes = [7] ∧
    rotationInfo fixedPoint brushCenter doorWorld 0 =
      { type := .RTZAngleWithUpDown, property := "angle" } :=
  ⟨rfl,
    (rotationInfo_brush_entity fixedPoint brushCenter doorWorld 0 "func_door"
      (by decide) (by decide) (Or.inl (by decide))).2.1 (by decide) (by decide)⟩

/-- C19 at work: the train of `trainWorld` has the heading 359.7; a quarter turn about Z
makes `applyRotation` store the heading 360. -/
theorem applyRotation_updown_stores_360_witness :
    propertyForKey (trainWorld.entities 0) AngleKey = some "359.7" ∧
    ∃ w', applyRotation fixedPoint brushCenter quietUpdates trainWorld 0
        (quarterTurn fixedPoint Axis.AZ false) = .returns w' ∧
      propertyForKey (w'.entities 0) AngleKey = some "360" :=
  ⟨by decide,
    applyRotation_updown_stores_360 fixedPoint brushCenter quietUpdates trainWorld 0
      (quarterTurn fixedPoint Axis.AZ false) "359.7" (by decide) (by decide) (by decide)
      (by decide) (by decide) (by decide) (by decide) (by decide)⟩

/-- C20 as stated fails: the plat of `platWorld` has the heading 45.25; an X-flip stores
135, where 180 - 45.25 is 134.75, and a Z-flip, which should leave the heading unchanged,
stores 45. -/
theorem flip_stores_whole_number :
    rotationInfo fixedPoint brushCenter platWorld 0 =
      { type := .RTZAngleWithUpDown, property := "angle" } ∧
    propertyForKey (platWorld.entities 0) AngleKey = some "45.25" ∧
    fixedPoint.print (fixedPoint.sub (fixedPoint.ofInt 180) (fixedPoint.atof "45.25")) =
      "134.750000" ∧
    (∃ w', flip fixedPoint brushCenter quietUpdates platWorld 0 Axis.AX fixedPoint.null =
        .returns w' ∧
      propertyForKey (w'.entities 0) AngleKey = some "135") ∧
    (∃ w', flip fixedPoint brushCenter quietUpdates platWorld 0 Axis.AZ fixedPoint.null =
        .returns w' ∧
      propertyForKey (w'.entities 0) AngleKey = some "45") :=
  ⟨by decide, by decide, by decide,
    ⟨(flip fixedPoint brushCenter quietUpdates platWorld 0 Axis.AX fixedPoint.null).get
      platWorld, rfl, by decide⟩,
    ⟨(flip fixedPoint brushCenter quietUpdates platWorld 0 Axis.AZ fixedPoint.null).get
      platWorld, rfl, by decide⟩⟩

/-- In the decimal arithmetic a number equal to -1 or -2 rounds to itself. -/
theorem fixedPoint_round_sentinels :
    (∀ x, fixedPoint.eq x (fixedPoint.ofInt (-1)) = true → fixedPoint.round x = -1) ∧
    (∀ x, fixedPoint.eq x (fixedPoint.ofInt (-2)) = true → fixedPoint.round x = -2) := by
  refine ⟨?_, ?_⟩
  · intro x h
    have hx : x = fixedPoint.ofInt (-1) := by simpa [fixedPoint] using h
    rw [hx]
    decide
  · intro x h
    have hx : x = fixedPoint.ofInt (-2) := by simpa [fixedPoint] using h
    rw [hx]
    decide

/-- C20, amended, at work: the monster of `monsterWorld`, its box around the origin, is of
the kind single-axis angle and faces 45 degrees; an X-flip about the origin stores "135".
The plat of `spinWorld` is of the kind with up/down and has the heading 1234567; an X-flip
stores 180 - 1234567 = -1234387 as the stream writes it, "-1.23439e+06". -/
theorem flip_stores_rounded_as_streamed_witness :
    (propertyForKey (monsterWorld.entities 0) AngleKey = some "45" ∧
      ∃ w', flip fixedPoint middleCenter quietUpdates monsterWorld 0 Axis.AX fixedPoint.null =
          .returns w' ∧
        propertyForKey (w'.entities 0) AngleKey = some "135") ∧
    (propertyForKey (spinWorld.entities 0) AngleKey = some "1234567" ∧
      ∃ w', flip fixedPoint brushCenter quietUpdates spinWorld 0 Axis.AX fixedPoint.null =
          .returns w' ∧
        propertyForKey (w'.entities 0) AngleKey = some "-1.23439e+06") := by
  obtain ⟨w', hr, h1, -⟩ := flip_stores_rounded_as_streamed fixedPoint middleCenter
    quietUpdates monsterWorld 0 Axis.AX fixedPoint.null
    { type := .RTZAngle, property := AngleKey }
    fixedPoint_round_sentinels.1 fixedPoint_round_sentinels.2 (by decide)
    (fun w1 h => by
      obtain rfl : (moveOriginFlipped fixedPoint middleCenter quietUpdates monsterWorld 0
          Axis.AX fixedPoint.null).get monsterWorld = w1 := by rw [h]; rfl
      decide)
  obtain ⟨w2, hr2, -, h2, -⟩ := flip_stores_rounded_as_streamed fixedPoint brushCenter
    quietUpdates spinWorld 0 Axis.AX fixedPoint.null
    { type := .RTZAngleWithUpDown, property := AngleKey }
    fixedPoint_round_sentinels.1 fixedPoint_round_sentinels.2 (by decide)
    (fun w1 h => by
      obtain rfl : (moveOriginFlipped fixedPoint brushCenter quietUpdates spinWorld 0
          Axis.AX fixedPoint.null).get spinWorld = w1 := by rw [h]; rfl
      decide)
  exact ⟨⟨by decide, w', hr, ((h1 rfl).1 rfl).trans (by decide)⟩,
    ⟨by decide, w2, hr2, (((h2 rfl).1 (by decide) (by decide)).1 rfl).trans (by decide)⟩⟩


/-! ## applyRotation and the dominant axis -/

/-- C29: for an entity of the kind single-axis angle or single-axis with up/down and a
rotation whose dominant axis is not Z, `applyRotation` returns and leaves everything as it
is, the property store with the angle property included. -/
theorem applyRotation_other_axis {F : Type} (fl : FloatOps F) (center : CenterOf F)
    (u : MapUpdates) (w : World) (self : EntityId) (rotation : Quat F)
    (hkind : (rotationInfo fl center w self).type = .RTZAngle ∨
      (rotationInfo fl center w self).type = .RTZAngleWithUpDown)
    (haxis : fl.firstComponent rotation.v ≠ Axis.AZ) :
    applyRotation fl center u w self rotation = .returns w := by
  unfold applyRotation
  rcases hkind with hk | hk
  · simp [hk, applyZAngle, haxis]
  · simp [hk, applyZAngleWithUpDown, haxis]

/-- C29 at work: the door of `doorWorld` is of the kind single-axis with up/down; a quarter
turn about X leaves the world as it is. -/
theorem applyRotation_other_axis_witness :
    fixedPoint.firstComponent (quarterTurn fixedPoint Axis.AX false).v = Axis.AX ∧
    applyRotation fixedPoint brushCenter quietUpdates doorWorld 0
      (quarterTurn fixedPoint Axis.AX false) = .returns doorWorld :=
  ⟨by decide,
    applyRotation_other_axis fixedPoint brushCenter quietUpdates doorWorld 0
      (quarterTurn fixedPoint Axis.AX false) (Or.inr (by decide)) (by decide)⟩

/-- C28: the claim fails in the code. For an entity of the kind single-axis with up/down the
outcome of `applyRotation` is the same for any two rotations whose dominant axis is Z, a
quarter turn counter-clockwise and one clockwise included: the rotation is never applied to
the direction, the stored angle is only encoded anew. -/
theorem applyRotation_updown_ignores_rotation {F : Type} (fl : FloatOps F)
    (center : CenterOf F) (u : MapUpdates) (w : World) (self : EntityId)
    (rotation other : Quat F)
    (hkind : (rotationInfo fl center w self).type = .RTZAngleWithUpDown)
    (haxis : fl.firstComponent rotation.v = Axis.AZ)
    (hother : fl.firstComponent other.v = Axis.AZ) :
    applyRotation fl center u w self rotation = applyRotation fl center u w self other := by
  unfold applyRotation
  simp [hkind, applyZAngleWithUpDown, haxis, hother]

/-- C28 at work: the door of `doorWorld` faces 90 degrees. The quarter turn counter-clockwise
about Z, which should make it face 180 degrees, has the outcome of the quarter turn
clockwise, and the door still faces 90 degrees. -/
theorem applyRotation_updown_ignores_rotation_witness :
    propertyForKey (doorWorld.entities 0) AngleKey = some "90" ∧
    applyRotation fixedPoint brushCenter quietUpdates doorWorld 0
        (quarterTurn fixedPoint Axis.AZ false) =
      applyRotation fixedPoint brushCenter quietUpdates doorWorld 0
        (quarterTurn fixedPoint Axis.AZ true) ∧
    ∃ w', applyRotation fixedPoint brushCenter quietUpdates doorWorld 0
        (quarterTurn fixedPoint Axis.AZ false) = .returns w' ∧
      propertyForKey (w'.entities 0) AngleKey = some "90" :=
  ⟨by decide,
    applyRotation_updown_ignores_rotation fixedPoint brushCenter quietUpdates doorWorld 0
      (quarterTurn fixedPoint Axis.AZ false) (quarterTurn fixedPoint Axis.AZ true)
      (by decide) (by decide) (by decide),
    (applyRotation fixedPoint brushCenter quietUpdates doorWorld 0
      (quarterTurn fixedPoint Axis.AZ false)).get doorWorld, rfl, by decide⟩

/-! ## The severing loop does not end -/

/-- A pass through the loop leaves the targetname of every entity as it is. -/
theorem severLoopBody_targetname {self : EntityId} {old : PropertyValue} {h h1 : Heap}
    (hb : severLoopBody self old h = some h1) (t : EntityId) :
    propertyForKey (h1 t) TargetnameKey = propertyForKey (h t) TargetnameKey := by
  unfold severLoopBody at hb
  cases hL : (h self).m_linkTargets with
  | nil => simp [hL] at hb
  | cons x rest =>
    simp only [hL] at hb
    cases hx : propertyForKey (h x) TargetnameKey with
    | none =>
      simp only [hx, Option.some.injEq] at hb
      subst hb
      apply propertyForKey_update
      rfl
    | some n =>
      simp only [hx] at hb
      split_ifs at hb with hn
      · simp only [Option.some.injEq] at hb
        subst hb
        refine (propertyForKey_update _ _ _ ?_ t _).trans (propertyForKey_update h x _ ?_ t _) <;>
          rfl
      · simp only [Option.some.injEq] at hb
        subst hb
        rfl

/-- When the link-target list holds an entity whose targetname is present and differs from
the old value, the loop is still running after any number of passes. -/
theorem severLoopAfter_running (self : EntityId) (old : PropertyValue) :
    ∀ (L : EntityList) (h : Heap) (t : EntityId) (n : PropertyValue),
      (h self).m_linkTargets = L → t ∈ L →
      propertyForKey (h t) TargetnameKey = some n → n ≠ old →
      ∀ passes, ∃ h', severLoopAfter self old passes h = some h' ∧
        (h' self).m_linkTargets ≠ [] := by
  intro L
  induction L with
  | nil => intro h t n _ ht; simp at ht
  | cons x rest ih =>
    intro h t n hL ht hp hn passes
    cases hx : propertyForKey (h x) TargetnameKey with
    | none =>
      have hxt : t ≠ x := by
        intro e
        rw [e, hx] at hp
        exact Option.noConfusion hp
      have htr : t ∈ rest := by
        rcases List.mem_cons.mp ht with e | e
        · exact absurd e hxt
        · exact e
      have hb : severLoopBody self old h =
          some (Function.update h self { h self with m_linkTargets := rest }) := by
        simp [severLoopBody, hL, hx]
      cases passes with
      | zero => exact ⟨h, rfl, by simp [hL]⟩
      | succ k =>
        have := ih (Function.update h self { h self with m_linkTargets := rest }) t n
          (by simp) htr ((severLoopBody_targetname hb t).trans hp) hn k
        simpa [severLoopAfter, hb] using this
    | some m =>
      by_cases hm : m = old
      · have hxt : t ≠ x := by
          intro e
          rw [e, hx] at hp
          exact hn ((Option.some.inj hp).symm.trans hm)
        have htr : t ∈ rest := by
          rcases List.mem_cons.mp ht with e | e
          · exact absurd e hxt
          · exact e
        have hb : severLoopBody self old h =
            some (Function.update (removeLinkSource h x self) self
              { removeLinkSource h x self self with m_linkTargets := rest }) := by
          simp [severLoopBody, hL, hx, hm]
        cases passes with
        | zero => exact ⟨h, rfl, by simp [hL]⟩
        | succ k =>
          have := ih _ t n (by simp) htr ((severLoopBody_targetname hb t).trans hp) hn k
          simpa [severLoopAfter, hb] using this
      · have hb : severLoopBody self old h = some h := by
          simp [severLoopBody, hL, hx, hm]
        induction passes with
        | zero => exact ⟨h, rfl, by simp [hL]⟩
        | succ k ihk => simpa [severLoopAfter, hb] using ihk

/-- C30: the claim fails in the code. For a numbered target key with a non-empty current
value and a new value that differs from it, when the link-target list of the entity holds an
entity whose targetname is present and differs from the current value (the target of a second
property, say), the loop that severs the old links is still running after any number of
passes, and `setProperty` does not return. -/
theorem setProperty_target_loop_runs_on (u : MapUpdates) (w : World) (self : EntityId)
    (key : PropertyKey) (value : Option PropertyValue) (old n : PropertyValue) (t : EntityId)
    (hkey : isNumberedProperty TargetKey key = true)
    (hold : propertyForKey (w.entities self) key = some old) (hne : old ≠ "")
    (hv : value ≠ some old)
    (ht : t ∈ (w.entities self).m_linkTargets)
    (hn : propertyForKey (w.entities t) TargetnameKey = some n) (hd : n ≠ old) :
    (∀ passes, ∃ h', severLoopAfter self old passes w.entities = some h' ∧
      (h' self).m_linkTargets ≠ []) ∧
    setProperty u w self key value = .diverges := by
  refine ⟨severLoopAfter_running self old _ w.entities t n rfl ht hn hd, ?_⟩
  have hc : key ≠ ClassnameKey := by
    intro e
    rw [e] at hkey
    exact absurd hkey (by decide)
  have hv' : ¬ (some old = value) := fun e => hv e.symm
  simp [setProperty, hold, hv', classnameChanged, hc, linksChanged, hkey, targetChanged,
    severOldTarget, hne, severLinkTargets_stuck self old _ w.entities t n ht hn hd, Outcome.bind]

/-- C30 at work: entity 3 of `linkedWorld` targets "b" and, with the property target2, "c",
and is linked to entity 2, whose targetname is "b". Clearing target2 does not return. -/
theorem setProperty_target_loop_runs_on_witness :
    propertyForKey (linkedWorld.entities 3) "target2" = some "c" ∧
    (linkedWorld.entities 3).m_linkTargets = [2] ∧
    propertyForKey (linkedWorld.entities 2) TargetnameKey = some "b" ∧
    setProperty quietUpdates linkedWorld 3 "target2" none = .diverges :=
  ⟨by decide, rfl, by decide,
    (setProperty_target_loop_runs_on quietUpdates linkedWorld 3 "target2" none "c" "b" 2
      (by decide) (by decide) (by decide) (by decide) (by decide) (by decide)
      (by decide)).2⟩

/-! ## The origin under rotate90, rotate and flip -/

/-- `applyRotation` either changes nothing or is one `setProperty` on the key of the
rotation. -/
theorem applyRotation_cases {F : Type} (fl : FloatOps F) (center : CenterOf F)
    (u : MapUpdates) (w : World) (self : EntityId) (rotation : Quat F) :
    applyRotation fl center u w self rotation = .returns w ∨
      ((rotationInfo fl center w self).type ≠ .RTNone ∧
        ∃ s, applyRotation fl center u w self rotation =
          setProperty u w self (rotationInfo fl center w self).property (some s)) := by
  cases htype : (rotationInfo fl center w self).type with
  | RTNone => exact Or.inl (by simp [applyRotation, htype])
  | RTZAngle =>
    by_cases hax : fl.firstComponent rotation.v = Axis.AZ
    · refine Or.inr ⟨by simp, ?_⟩
      simp only [applyRotation, htype, applyZAngle, hax, ne_eq, not_true_eq_false, if_false,
        setPropertyWhole]
      exact ⟨_, rfl⟩
    · exact Or.inl (by simp [applyRotation, htype, applyZAngle, hax])
  | RTZAngleWithUpDown =>
    by_cases hax : fl.firstComponent rotation.v = Axis.AZ
    · refine Or.inr ⟨by simp, ?_⟩
      simp only [applyRotation, htype, applyZAngleWithUpDown, hax, ne_eq, not_true_eq_false,
        if_false, setPropertyWhole]
      split_ifs <;> exact ⟨_, rfl⟩
    · exact Or.inl (by simp [applyRotation, htype, applyZAngleWithUpDown, hax])
  | RTEulerAngles =>
    refine Or.inr ⟨by simp, ?_⟩
    simp only [applyRotation, htype, applyEulerAngles]
    exact ⟨_, rfl⟩

/-- The orientation step of `flip` either changes nothing or is one `setProperty` on the key
of the rotation. -/
theorem flipOrientation_cases {F : Type} (fl : FloatOps F) (center : CenterOf F)
    (u : MapUpdates) (w : World) (self : EntityId) (axis : Axis) :
    flipOrientation fl center u w self axis = .returns w ∨
      ((rotationInfo fl center w self).type ≠ .RTNone ∧
        ∃ s, flipOrientation fl center u w self axis =
          setProperty u w self (rotationInfo fl center w self).property (some s)) := by
  cases htype : (rotationInfo fl center w self).type with
  | RTNone => exact Or.inl (by simp [flipOrientation, htype])
  | RTZAngle =>
    refine Or.inr ⟨by simp, ?_⟩
    simp only [flipOrientation, htype, flipZAngle, setPropertyFloat, if_true]
    exact ⟨_, rfl⟩
  | RTZAngleWithUpDown =>
    refine Or.inr ⟨by simp, ?_⟩
    simp only [flipOrientation, htype, flipZAngleWithUpDown, setPropertyFloat, if_true]
    exact ⟨_, rfl⟩
  | RTEulerAngles =>
    refine Or.inr ⟨by simp, ?_⟩
    simp only [flipOrientation, htype, flipEulerAngles, setPropertyVec3f, if_true]
    exact ⟨_, rfl⟩

/-- `setProperty(OriginKey, value, true)` returns and leaves the rounded components as the
origin. -/
theorem setPropertyVec3f_origin {F : Type} (fl : FloatOps F) (u : MapUpdates) (w : World)
    (self : EntityId) (value : Vec3f F) :
    ∃ w', setPropertyVec3f fl u w self OriginKey value true = .returns w' ∧
      propertyForKey (w'.entities self) OriginKey = some (wholeDigits fl value) := by
  obtain ⟨w', hr, hv⟩ := setPropertyVec3f_plain fl u w self OriginKey value (by simp)
  exact ⟨w', hr, hv⟩

/-- C22: `validateGeometry`, called with the flag cleared, passes its assertion, returns and
sets the flag. For an entity with a definition of point type the bounds are the box of the
definition translated by the origin; for an entity with no definition or one of brush type
they are the merged bounds of its brushes when it owns one, and the box from -8 to 8
translated by the origin when it owns none; in every case the center is the center of the
bounds. -/
theorem validateGeometry_bounds {F : Type} (fl : FloatOps F) (bo : BoundsOps F) (s : Cached F)
    (self : EntityId) (hflag : (s.world.entities self).m_geometryValid = false) :
    ∃ s', validateGeometry fl bo s self = .passed (.returns s') ∧
      (s'.world.entities self).m_geometryValid = true ∧
      s'.cache.m_center self = bo.center (s'.cache.m_bounds self) ∧
      (∀ d, (s.world.entities self).m_definition = some d →
        (s.world.definitions d).m_type = EntityDefinitionType.PointEntity →
        s'.cache.m_bounds self =
          bo.translate (bo.definitionBounds d) (origin fl (s.world.entities self))) ∧
      (((s.world.entities self).m_definition = none ∨
          ∃ d, (s.world.entities self).m_definition = some d ∧
            (s.world.definitions d).m_type = EntityDefinitionType.BrushEntity) →
        (∀ first rest, (s.world.entities self).m_brushes = first :: rest →
          s'.cache.m_bounds self =
            rest.foldl (fun bounds brush => bo.mergeWith bounds (bo.brushBounds brush))
              (bo.brushBounds first)) ∧
        ((s.world.entities self).m_brushes = [] →
          s'.cache.m_bounds self =
            bo.translate
              { min := { x := fl.ofInt (-8), y := fl.ofInt (-8), z := fl.ofInt (-8) },
                max := { x := fl.ofInt 8, y := fl.ofInt 8, z := fl.ofInt 8 } }
              (origin fl (s.world.entities self)))) := by
  have hbounds : (revalidated fl bo s self).cache.m_bounds self =
      derivedBounds fl bo s.world self := by
    simp [revalidated, validateGeometry, hflag]
  refine ⟨revalidated fl bo s self, by simp [revalidated, validateGeometry, hflag],
    by simp [revalidated, validateGeometry, hflag],
    by simp [revalidated, validateGeometry, hflag], ?_, ?_⟩
  · intro d hd ht
    rw [hbounds]
    simp [derivedBounds, hd, ht]
  · intro hdef
    have hb : derivedBounds fl bo s.world self = brushBounds fl bo (s.world.entities self) := by
      rcases hdef with hd | ⟨d, hd, ht⟩
      · simp [derivedBounds, hd]
      · simp [derivedBounds, hd, ht]
    refine ⟨?_, ?_⟩
    · intro first rest hbr
      rw [hbounds, hb]
      simp [brushBounds, hbr]
    · intro hbr
      rw [hbounds, hb]
      simp [brushBounds, hbr]

/-- C22 at work: the monster of `monsterWorld`, a point entity at (64, 0, 24), gets the box of
its definition around its origin, from (48, -16, 0) to (80, 16, 56), and the center
(64, 0, 28). -/
theorem validateGeometry_bounds_witness :
    ∃ s', validateGeometry fixedPoint fixedBounds
        { world := monsterWorld, cache := emptyCache } 0 = .passed (.returns s') ∧
      (s'.cache.m_bounds 0).min.x = 48000000 ∧ (s'.cache.m_bounds 0).max.z = 56000000 ∧
      (s'.cache.m_center 0).x = 64000000 ∧ (s'.cache.m_center 0).z = 28000000 := by
  obtain ⟨s', hr, -, hc, hp, -⟩ := validateGeometry_bounds fixedPoint fixedBounds
    { world := monsterWorld, cache := emptyCache } 0 rfl
  have hb := hp 0 rfl rfl
  refine ⟨s', hr, ?_, ?_, ?_, ?_⟩
  · rw [hb]; decide
  · rw [hb]; decide
  · rw [hc, hb]; decide
  · rw [hc, hb]; decide

/-- C23: `pick` looks at the box that `bounds()` hands out and at nothing else of the
entity: the derived bounds when the flag is cleared, the cached box when it is set. When the
intersection of box and ray is not a number the collector is as before; otherwise one hit is
appended after the hits the collector holds, with the entity, the distance of the
intersection and the point of the ray at that distance. -/
theorem pick_bounds_only {F : Type} (fl : FloatOps F) (bo : BoundsOps F) (ro : RayOps F)
    (s : Cached F) (self : EntityId) (ray : Ray F) (pickResults : PickResult F) :
    ((s.world.entities self).m_geometryValid = false →
      (revalidated fl bo s self).cache.m_bounds self = derivedBounds fl bo s.world self) ∧
    ((s.world.entities self).m_geometryValid = true →
      (revalidated fl bo s self).cache.m_bounds self = s.cache.m_bounds self) ∧
    (ro.isnan (ro.intersectWithRay ((revalidated fl bo s self).cache.m_bounds self) ray) =
        true →
      (pick fl bo ro s self ray pickResults).2 = pickResults) ∧
    (ro.isnan (ro.intersectWithRay ((revalidated fl bo s self).cache.m_bounds self) ray) =
        false →
      (pick fl bo ro s self ray pickResults).2 =
        pickResults ++
          [{ object := .entity self,
             hitPoint := fl.vadd ray.origin (ro.scaled ray.direction
               (ro.intersectWithRay ((revalidated fl bo s self).cache.m_bounds self) ray)),
             distance :=
               ro.intersectWithRay ((revalidated fl bo s self).cache.m_bounds self) ray }]) := by
  refine ⟨?_, ?_, ?_, ?_⟩
  · intro hf
    simp [revalidated, validateGeometry, hf]
  · intro hf
    simp [revalidated, validateGeometry, hf]
  · intro hn
    simp [pick, hn]
  · intro hn
    simp [pick, hn, PickResult.add, pointAtDistance]

/-- C23 at work: the wall of `wallWorld` has the box from (0, 0, 0) to (32, 16, 16). The ray
from (8, -8, 8) along Y adds one hit at the distance 8 and the point (8, 0, 8) to an empty
collector; the ray against Y adds none. -/
theorem pick_bounds_only_witness :
    (pick fixedPoint fixedBounds fixedRays { world := wallWorld, cache := emptyCache } 0
        testRay []).2.map (fun hit => (hit.object, hit.distance, hit.hitPoint.y)) =
      [(HitObject.entity 0, 8000000, 0)] ∧
    (pick fixedPoint fixedBounds fixedRays { world := wallWorld, cache := emptyCache } 0
        awayRay []).2 = [] :=
  ⟨by
      rw [(pick_bounds_only fixedPoint fixedBounds fixedRays
        { world := wallWorld, cache := emptyCache } 0 testRay []).2.2.2 (by decide)]
      decide,
    (pick_bounds_only fixedPoint fixedBounds fixedRays
      { world := wallWorld, cache := emptyCache } 0 awayRay []).2.2.1 (by decide)⟩

/-! ## Usage counts -/

/-- An entity that is not in the list does not count. -/
theorem referencesTo_congr (h h' : Heap) (live : List EntityId) (self : EntityId)
    (x : DefinitionId) (hself : self ∉ live)
    (hother : ∀ e, e ≠ self → (h' e).m_definition = (h e).m_definition) :
    referencesTo h' live x = referencesTo h live x := by
  unfold referencesTo
  apply List.countP_congr
  intro e he
  have hne : e ≠ self := fun e1 => hself (e1 ▸ he)
  rw [hother e hne]

/-- The references after one entity of the list changed its definition. -/
theorem referencesTo_update (h h' : Heap) (live : List EntityId) (self : EntityId)
    (x : DefinitionId) (hnd : live.Nodup) (hself : self ∈ live)
    (hother : ∀ e, e ≠ self → (h' e).m_definition = (h e).m_definition) :
    (referencesTo h' live x : Int) =
      referencesTo h live x - (if (h self).m_definition = some x then 1 else 0) +
        (if (h' self).m_definition = some x then 1 else 0) := by
  induction live with
  | nil => simp at hself
  | cons a rest ih =>
    have hnd' := List.nodup_cons.mp hnd
    by_cases ha : a = self
    · subst ha
      have hrest := referencesTo_congr h h' rest a x hnd'.1 hother
      unfold referencesTo at hrest ⊢
      rw [List.countP_cons, List.countP_cons, hrest]
      by_cases h1 : (h a).m_definition = some x <;> by_cases h2 : (h' a).m_definition = some x <;>
        simp [h1, h2]
    · have hmem : self ∈ rest := by
        rcases List.mem_cons.mp hself with e | e
        · exact absurd e.symm ha
        · exact e
      have ih' := ih hnd'.2 hmem
      unfold referencesTo at ih' ⊢
      rw [List.countP_cons, List.countP_cons, hother a ha]
      push_cast
      rw [ih']
      ring

/-- When one live entity changes its definition and the counts move with it, the counts
stay the numbers of references. -/
theorem usageCounted_step {w w' : World} {live : List EntityId} {self : EntityId}
    (hnd : live.Nodup) (hself : self ∈ live) (hinv : UsageCounted w live)
    (hother : ∀ e, e ≠ self → (w'.entities e).m_definition = (w.entities e).m_definition)
    (hcount : ∀ x, (w'.definitions x).m_usageCount =
      (w.definitions x).m_usageCount -
        (if (w.entities self).m_definition = some x then 1 else 0) +
        (if (w'.entities self).m_definition = some x then 1 else 0)) :
    UsageCounted w' live := by
  intro x
  rw [hcount x, hinv x, referencesTo_update w.entities w'.entities live self x hnd hself hother]

/-- What `setDefinition` does to the counts and to the definitions the entities hold. -/
theorem setDefinition_effect (w : World) (self : EntityId) (d : Option DefinitionId) :
    (∀ x, ((setDefinition w self d).definitions x).m_usageCount =
      (w.definitions x).m_usageCount -
        (if (w.entities self).m_definition = some x then 1 else 0) +
        (if d = some x then 1 else 0)) ∧
    ((setDefinition w self d).entities self).m_definition = d ∧
    (∀ e, e ≠ self →
      ((setDefinition w self d).entities e).m_definition = (w.entities e).m_definition) ∧
    ((setDefinition w self d).entities self).m_geometryValid = false := by
  refine ⟨?_, ?_, ?_, ?_⟩
  · intro x
    unfold setDefinition
    cases hold : (w.entities self).m_definition with
    | none =>
      cases d with
      | none => simp
      | some b =>
        by_cases hb : b = x
        · subst hb
          simp [incUsageCount]
        · have hb' : ¬ (x = b) := fun e => hb e.symm
          simp [hb, Function.update_noteq hb']
    | some a =>
      cases d with
      | none =>
        by_cases hax : a = x
        · subst hax
          simp [decUsageCount]
        · have ha' : ¬ (x = a) := fun e => hax e.symm
          simp [hax, Function.update_noteq ha']
      | some b =>
        by_cases hax : a = x <;> by_cases hb : b = x
        · subst hax
          subst hb
          simp [incUsageCount, decUsageCount]
        · subst hax
          have hb' : ¬ (a = b) := fun e => hb e.symm
          simp [hb, Function.update_noteq hb', decUsageCount]
        · subst hb
          have ha' : ¬ (b = a) := fun e => hax e.symm
          simp [hax, Function.update_noteq ha', incUsageCount]
        · have ha' : ¬ (x = a) := fun e => hax e.symm
          have hb' : ¬ (x = b) := fun e => hb e.symm
          simp [hax, hb, Function.update_noteq ha', Function.update_noteq hb']
  · simp [setDefinition, invalidateGeometry]
  · intro e he
    simp [setDefinition, invalidateGeometry, Function.update_noteq he]
  · simp [setDefinition, invalidateGeometry]

/-- `setMap` leaves the definitions, and which definition an entity holds, as they are. -/
theorem setMap_definitions (w : World) (self : EntityId) (map : Option MapId) :
    (setMap w self map).definitions = w.definitions ∧
      ∀ y, ((setMap w self map).entities y).m_definition = (w.entities y).m_definition := by
  unfold setMap
  split_ifs with hm
  · exact ⟨rfl, fun _ => rfl⟩
  · cases map with
    | none =>
      refine ⟨rfl, fun y => ?_⟩
      by_cases hy : y = self
      · subst hy
        simp [unlinkKillSources_apply, unlinkKillTargets_apply, unlinkLinkSources_apply,
          unlinkLinkTargets_apply]
      · simp [unlinkKillSources_apply, unlinkKillTargets_apply, unlinkLinkSources_apply,
          unlinkLinkTargets_apply, Function.update_noteq hy]
    | some m =>
      simp only
      split
      · refine ⟨rfl, fun y => ?_⟩
        by_cases hy : y = self
        · subst hy
          simp [registerKillTargets_apply, insertKillTargets_apply, registerLinkTargets_apply,
            insertLinkTargets_apply, unlinkKillSources_apply, unlinkKillTargets_apply,
            unlinkLinkSources_apply, unlinkLinkTargets_apply]
        · simp [registerKillTargets_apply, insertKillTargets_apply, registerLinkTargets_apply,
            insertLinkTargets_apply, unlinkKillSources_apply, unlinkKillTargets_apply,
            unlinkLinkSources_apply, unlinkLinkTargets_apply, Function.update_noteq hy]
      · split_ifs
        · refine ⟨rfl, fun y => ?_⟩
          by_cases hy : y = self
          · subst hy
            simp [relinkKillSources_apply, relinkLinkSources_apply, registerKillTargets_apply,
              insertKillTargets_apply, registerLinkTargets_apply,
              insertLinkTargets_apply, unlinkKillSources_apply, unlinkKillTargets_apply,
              unlinkLinkSources_apply, unlinkLinkTargets_apply]
          · simp [relinkKillSources_apply, relinkLinkSources_apply, registerKillTargets_apply,
              insertKillTargets_apply, registerLinkTargets_apply,
              insertLinkTargets_apply, unlinkKillSources_apply, unlinkKillTargets_apply,
              unlinkLinkSources_apply, unlinkLinkTargets_apply, Function.update_noteq hy]
        · refine ⟨rfl, fun y => ?_⟩
          by_cases hy : y = self
          · subst hy
            simp [registerKillTargets_apply, insertKillTargets_apply, registerLinkTargets_apply,
              insertLinkTargets_apply, unlinkKillSources_apply, unlinkKillTargets_apply,
              unlinkLinkSources_apply, unlinkLinkTargets_apply]
          · simp [registerKillTargets_apply, insertKillTargets_apply, registerLinkTargets_apply,
              insertLinkTargets_apply, unlinkKillSources_apply, unlinkKillTargets_apply,
              unlinkLinkSources_apply, unlinkLinkTargets_apply, Function.update_noteq hy]

/-- A change of the classname returns and releases the definition the entity holds. -/
theorem setProperty_classname_effect (u : MapUpdates) (w : World) (self : EntityId)
    (v : PropertyValue) (hne : classname (w.entities self) ≠ some v) :
    ∃ w', setProperty u w self ClassnameKey (some v) = .returns w' ∧
      (w'.entities self).m_definition = none ∧
      (∀ e, e ≠ self → (w'.entities e).m_definition = (w.entities e).m_definition) ∧
      ∀ x, (w'.definitions x).m_usageCount =
        (w.definitions x).m_usageCount -
          (if (w.entities self).m_definition = some x then 1 else 0) := by
  have hne' : propertyForKey (w.entities self) ClassnameKey ≠ some v := hne
  have hne2 : some v ≠ classname (w.entities self) := fun e => hne e.symm
  have hk : ¬ (ClassnameKey = TargetnameKey) := classname_not_numbered.2.2
  have heff := setDefinition_effect
    (World.mk (Function.update w.entities self
      { w.entities self with m_worldspawn := decide (v = WorldspawnClassname) })
      w.maps w.definitions) self none
  unfold setProperty classnameChanged linksChanged
  simp only [if_neg hne', ne_eq, hne2, not_false_eq_true, if_true, Outcome.bind,
    classname_not_numbered.1, classname_not_numbered.2.1, Bool.false_eq_true, if_false, hk]
  refine ⟨_, rfl, ?_, ?_, ?_⟩
  · simp [storeValue, setDefinition, invalidateGeometry]
  · intro e he
    simp [storeValue, setDefinition, invalidateGeometry, Function.update_noteq he]
  · intro x
    have := heff.1 x
    simpa [storeValue] using this

/-- The destructor releases the definition the entity holds. -/
theorem destroy_effect (w : World) (self : EntityId) :
    ((destroy w self).entities self).m_definition = none ∧
      (∀ e, e ≠ self → ((destroy w self).entities e).m_definition = (w.entities e).m_definition) ∧
      ∀ x, ((destroy w self).definitions x).m_usageCount =
        (w.definitions x).m_usageCount -
          (if (w.entities self).m_definition = some x then 1 else 0) := by
  have hm := setMap_definitions w self none
  have heff := setDefinition_effect
    (World.mk (Function.update (setMap w self none).entities self
      { (setMap w self none).entities self with m_brushes := [] })
      (setMap w self none).maps (setMap w self none).definitions) self none
  refine ⟨?_, ?_, ?_⟩
  · simp [destroy, setDefinition, invalidateGeometry]
  · intro e he
    have := hm.2 e
    simpa [destroy, setDefinition, invalidateGeometry, Function.update_noteq he] using this
  · intro x
    have h1 := heff.1 x
    have h2 := hm.2 self
    simpa [destroy, hm.1, h2] using h1

/-- C26: `setDefinition(d)` takes one usage from the definition the entity held, if it held
one, and gives one to `d`, if `d` is not null; when the counts were the numbers of live
entities holding each definition, they still are afterwards. Assigning the definition the
entity holds leaves the counts as they are. A change of the classname returns, and it and
the destructor release the one usage of the definition the entity held and leave the counts
the numbers of references. -/
theorem setDefinition_usage_counted (u : MapUpdates) (w : World) (self : EntityId)
    (d : Option DefinitionId) (live : List EntityId) (v : PropertyValue)
    (hnd : live.Nodup) (hself : self ∈ live) (hinv : UsageCounted w live)
    (hv : classname (w.entities self) ≠ some v) :
    (∀ x, ((setDefinition w self d).definitions x).m_usageCount =
      (w.definitions x).m_usageCount -
        (if (w.entities self).m_definition = some x then 1 else 0) +
        (if d = some x then 1 else 0)) ∧
    UsageCounted (setDefinition w self d) live ∧
    (d = (w.entities self).m_definition →
      ∀ x, ((setDefinition w self d).definitions x).m_usageCount =
        (w.definitions x).m_usageCount) ∧
    (∃ w', setProperty u w self ClassnameKey (some v) = .returns w' ∧
      (w'.entities self).m_definition = none ∧
      (∀ x, (w'.definitions x).m_usageCount =
        (w.definitions x).m_usageCount -
          (if (w.entities self).m_definition = some x then 1 else 0)) ∧
      UsageCounted w' live) ∧
    (((destroy w self).entities self).m_definition = none ∧
      (∀ x, ((destroy w self).definitions x).m_usageCount =
        (w.definitions x).m_usageCount -
          (if (w.entities self).m_definition = some x then 1 else 0)) ∧
      UsageCounted (destroy w self) (live.erase self)) := by
  obtain ⟨hcount, hdef, hother, -⟩ := setDefinition_effect w self d
  refine ⟨hcount, ?_, ?_, ?_, ?_⟩
  · exact usageCounted_step hnd hself hinv hother (by
      intro x
      rw [hcount x, hdef])
  · intro hd x
    rw [hcount x, hd]
    split_ifs <;> simp
  · obtain ⟨w', hr, hnone, ho, hc⟩ := setProperty_classname_effect u w self v hv
    refine ⟨w', hr, hnone, hc, usageCounted_step hnd hself hinv ho ?_⟩
    intro x
    rw [hc x, hnone]
    simp
  · obtain ⟨hnone, ho, hc⟩ := destroy_effect w self
    refine ⟨hnone, hc, ?_⟩
    have hall : UsageCounted (destroy w self) live :=
      usageCounted_step hnd hself hinv ho (by
        intro x
        rw [hc x, hnone]
        simp)
    intro x
    rw [hall x]
    unfold referencesTo
    congr 1
    rw [hnd.erase_eq_filter, List.countP_filter]
    apply List.countP_congr
    intro e _
    by_cases hes : e = self
    · subst hes
      simp [hnone]
    · simp [hes]

/-- C26 at work: in `countedWorld` the counts are the numbers of references. Entity 0 moves
from the definition 0 to the definition 1: definition 0 drops from 2 to 1, definition 1
rises from 1 to 2, and the counts are again the numbers of references. -/
theorem setDefinition_usage_counted_witness :
    UsageCounted countedWorld [0, 1, 2] ∧
    ((setDefinition countedWorld 0 (some 1)).definitions 0).m_usageCount = 1 ∧
    ((setDefinition countedWorld 0 (some 1)).definitions 1).m_usageCount = 2 ∧
    UsageCounted (setDefinition countedWorld 0 (some 1)) [0, 1, 2] := by
  have hinv : UsageCounted countedWorld [0, 1, 2] := by
    intro d
    match d with
    | 0 => decide
    | 1 => decide
    | d + 2 => simp [countedWorld, referencesTo]
  have h := setDefinition_usage_counted quietUpdates countedWorld 0 (some 1) [0, 1, 2]
    "info_null" (by decide) (by decide) hinv (by decide)
  exact ⟨hinv, (h.1 0).trans (by decide), (h.1 1).trans (by decide), h.2.1⟩

/-! ## Cache coherence -/

theorem linkNewTarget_body (u : MapUpdates) (w : World) (h : Heap) (self : EntityId)
    (value oldValue : Option PropertyValue) (y : EntityId) :
    ((linkNewTarget u w h self value oldValue).entities y).m_brushes = (h y).m_brushes ∧
      ((linkNewTarget u w h self value oldValue).entities y).m_definition =
        (h y).m_definition ∧
      ((linkNewTarget u w h self value oldValue).entities y).m_geometryValid =
        (h y).m_geometryValid ∧
      (linkNewTarget u w h self value oldValue).definitions = w.definitions := by
  unfold linkNewTarget
  split
  · exact ⟨rfl, rfl, rfl, rfl⟩
  · simp only
    split
    · split_ifs
      · simp [createLinkTargets_apply]
      · simp
    · simp

theorem linkNewKillTarget_body (u : MapUpdates) (w : World) (h : Heap) (self : EntityId)
    (value oldValue : Option PropertyValue) (y : EntityId) :
    ((linkNewKillTarget u w h self value oldValue).entities y).m_brushes = (h y).m_brushes ∧
      ((linkNewKillTarget u w h self value oldValue).entities y).m_definition =
        (h y).m_definition ∧
      ((linkNewKillTarget u w h self value oldValue).entities y).m_geometryValid =
        (h y).m_geometryValid ∧
      (linkNewKillTarget u w h self value oldValue).definitions = w.definitions := by
  unfold linkNewKillTarget
  split
  · exact ⟨rfl, rfl, rfl, rfl⟩
  · simp only
    split
    · split_ifs
      · simp [createKillTargets_apply]
      · simp
    · simp

theorem linkNewTargetname_body (u : MapUpdates) (w : World) (h : Heap) (self : EntityId)
    (value oldValue : Option PropertyValue) (y : EntityId) :
    ((linkNewTargetname u w h self value oldValue).entities y).m_brushes = (h y).m_brushes ∧
      ((linkNewTargetname u w h self value oldValue).entities y).m_definition =
        (h y).m_definition ∧
      ((linkNewTargetname u w h self value oldValue).entities y).m_geometryValid =
        (h y).m_geometryValid ∧
      (linkNewTargetname u w h self value oldValue).definitions = w.definitions := by
  unfold linkNewTargetname
  split
  · exact ⟨rfl, rfl, rfl, rfl⟩
  · simp only
    split
    · split_ifs
      · simp [relinkKillSources_apply, relinkLinkSources_apply]
      · simp
    · simp

theorem severOldTarget_body {h h1 : Heap} {self : EntityId} {oldValue : Option PropertyValue}
    (hr : severOldTarget h self oldValue = .returns h1) (y : EntityId) :
    (h1 y).m_brushes = (h y).m_brushes ∧ (h1 y).m_definition = (h y).m_definition ∧
      (h1 y).m_geometryValid = (h y).m_geometryValid := by
  unfold severOldTarget at hr
  split at hr
  · split_ifs at hr
    · have := (severLinkTargets_spec self _ _ h h1 rfl hr).2 y
      rw [this]
      exact ⟨rfl, rfl, rfl⟩
    · simp only [Outcome.returns.injEq] at hr
      subst hr
      exact ⟨rfl, rfl, rfl⟩
  · simp only [Outcome.returns.injEq] at hr
    subst hr
    exact ⟨rfl, rfl, rfl⟩

/-- The link branches leave the brushes, the definition and the flag of every entity, and the
definitions, as they are. -/
theorem linksChanged_body {u : MapUpdates} {w w2 : World} {self : EntityId} {key : PropertyKey}
    {value oldValue : Option PropertyValue}
    (hr : linksChanged u w self key value oldValue = .returns w2) (y : EntityId) :
    (w2.entities y).m_brushes = (w.entities y).m_brushes ∧
      (w2.entities y).m_definition = (w.entities y).m_definition ∧
      (w2.entities y).m_geometryValid = (w.entities y).m_geometryValid ∧
      w2.definitions = w.definitions := by
  unfold linksChanged at hr
  split_ifs at hr with h1 h2 h3
  · obtain ⟨h, hsev, hh⟩ := bind_returns hr
    simp only [Outcome.returns.injEq] at hh
    subst hh
    have a := linkNewTarget_body u w h self value oldValue y
    have b := severOldTarget_body hsev y
    exact ⟨a.1.trans b.1, a.2.1.trans b.2.1, a.2.2.1.trans b.2.2, a.2.2.2⟩
  · obtain ⟨h, hsev, hh⟩ := bind_returns hr
    simp only [Outcome.returns.injEq] at hh
    subst hh
    have a := linkNewKillTarget_body u w h self value oldValue y
    have b := severOldKillTarget_eq hsev
    subst b
    exact a
  · simp only [Outcome.returns.injEq] at hr
    subst hr
    unfold targetnameChanged
    have a := linkNewTargetname_body u w
      (unlinkKillSources (unlinkLinkSources w.entities self) self) self value oldValue y
    simp only [unlinkKillSources_apply, unlinkLinkSources_apply] at a
    exact a
  · simp only [Outcome.returns.injEq] at hr
    subst hr
    exact ⟨rfl, rfl, rfl, rfl⟩

/-- The classname branch leaves the types of the definitions and, of every other entity, the
brushes, the definition and the flag as they are. -/
theorem classnameChanged_body {w w1 : World} {self : EntityId} {key : PropertyKey}
    {value : Option PropertyValue} (hr : classnameChanged w self key value = .returns w1) :
    (∀ d, (w1.definitions d).m_type = (w.definitions d).m_type) ∧
    ∀ y, y ≠ self →
      (w1.entities y).m_brushes = (w.entities y).m_brushes ∧
      (w1.entities y).m_definition = (w.entities y).m_definition ∧
      (w1.entities y).m_geometryValid = (w.entities y).m_geometryValid := by
  unfold classnameChanged at hr
  split_ifs at hr with hk hv
  · cases value with
    | none => simp at hr
    | some v =>
      simp only [Outcome.returns.injEq] at hr
      subst hr
      refine ⟨fun d => ?_, fun y hy => ?_⟩
      · unfold setDefinition
        cases hd : (w.entities self).m_definition with
        | none => simp [hd]
        | some a =>
          by_cases had : d = a
          · subst had
            simp [hd, decUsageCount]
          · simp [hd, Function.update_noteq had]
      · simp [setDefinition, invalidateGeometry, Function.update_noteq hy]
  · simp only [Outcome.returns.injEq] at hr
    subst hr
    exact ⟨fun _ => rfl, fun _ _ => ⟨rfl, rfl, rfl⟩⟩
  · simp only [Outcome.returns.injEq] at hr
    subst hr
    exact ⟨fun _ => rfl, fun _ _ => ⟨rfl, rfl, rfl⟩⟩

theorem geometryKept_refl (w : World) (self : EntityId) : GeometryKept w w self :=
  ⟨fun _ => rfl, fun _ _ => ⟨rfl, rfl, rfl, rfl⟩, Or.inr rfl⟩

theorem geometryKept_trans {w w1 w2 : World} {self : EntityId}
    (h1 : GeometryKept w w1 self) (h2 : GeometryKept w1 w2 self) : GeometryKept w w2 self := by
  refine ⟨fun d => (h2.1 d).trans (h1.1 d), fun y hy => ?_, ?_⟩
  · have a := h1.2.1 y hy
    have b := h2.2.1 y hy
    exact ⟨b.1.trans a.1, b.2.1.trans a.2.1, b.2.2.1.trans a.2.2.1, b.2.2.2.trans a.2.2.2⟩
  · rcases h2.2.2 with hf | he
    · exact Or.inl hf
    · subst he
      exact h1.2.2

/-- An operation that ends with `invalidateGeometry()`. -/
theorem geometryKept_invalidated {w w1 : World} {self : EntityId}
    (h1 : GeometryKept w w1 self) : GeometryKept w (invalidated w1 self) self := by
  refine ⟨h1.1, fun y hy => ?_, Or.inl ?_⟩
  · have a := h1.2.1 y hy
    simpa [invalidated, invalidateGeometry, Function.update_noteq hy] using a
  · simp [invalidated, invalidateGeometry]

/-- `setProperty` keeps what the geometry of the other entities is derived from, and clears
the flag of the entity unless it changes nothing. -/
theorem setProperty_geometryKept {u : MapUpdates} {w w' : World} {self : EntityId}
    {key : PropertyKey} {value : Option PropertyValue}
    (hr : setProperty u w self key value = .returns w') : GeometryKept w w' self := by
  rcases setProperty_returns hr with ⟨_, hw⟩ | ⟨_, w1, w2, hc, hl, hw⟩
  · subst hw
    exact geometryKept_refl w' self
  · subst hw
    have hcb := classnameChanged_body hc
    refine ⟨fun d => ?_, fun y hy => ?_, Or.inl ?_⟩
    · have := (linksChanged_body hl self).2.2.2
      simp only [storeValue]
      rw [this]
      exact hcb.1 d
    · have hl' := linksChanged_body hl y
      have hc' := hcb.2 y hy
      refine ⟨setProperty_store_all hr y hy, ?_, ?_, ?_⟩
      · simpa [storeValue, invalidateGeometry, Function.update_noteq hy] using hl'.1.trans hc'.1
      · simpa [storeValue, invalidateGeometry, Function.update_noteq hy] using
          hl'.2.1.trans hc'.2.1
      · simpa [storeValue, invalidateGeometry, Function.update_noteq hy] using
          hl'.2.2.1.trans hc'.2.2
    · simp [storeValue, invalidateGeometry]

/-- A step that changes nothing or is one `setProperty`. -/
theorem geometryKept_step (u : MapUpdates) {w w' : World} {self : EntityId}
    {step : Outcome World}
    (h : step = .returns w ∨ ∃ key value, step = setProperty u w self key value)
    (hr : step = .returns w') : GeometryKept w w' self := by
  rcases h with h | ⟨key, value, h⟩
  · rw [h] at hr
    cases hr
    exact geometryKept_refl w self
  · rw [h] at hr
    exact setProperty_geometryKept hr

theorem applyRotation_geometryKept {F : Type} (fl : FloatOps F) (center : CenterOf F)
    (u : MapUpdates) (w w' : World) (self : EntityId) (rotation : Quat F)
    (hr : applyRotation fl center u w self rotation = .returns w') : GeometryKept w w' self := by
  refine geometryKept_step u ?_ hr
  rcases applyRotation_cases fl center u w self rotation with h | ⟨-, s, h⟩
  · exact Or.inl h
  · exact Or.inr ⟨_, _, h⟩

theorem flipOrientation_geometryKept {F : Type} (fl : FloatOps F) (center : CenterOf F)
    (u : MapUpdates) (w w' : World) (self : EntityId) (axis : Axis)
    (hr : flipOrientation fl center u w self axis = .returns w') : GeometryKept w w' self := by
  refine geometryKept_step u ?_ hr
  rcases flipOrientation_cases fl center u w self axis with h | ⟨-, s, h⟩
  · exact Or.inl h
  · exact Or.inr ⟨_, _, h⟩

theorem rotate90_geometryKept {F : Type} (fl : FloatOps F) (center : CenterOf F)
    (u : MapUpdates) (w w' : World) (self : EntityId) (axis : Axis) (c : Vec3f F)
    (clockwise : Bool)
    (hr : rotate90 fl center u w self axis c clockwise = .returns w') :
    GeometryKept w w' self := by
  unfold rotate90 at hr
  obtain ⟨w1, h1, hr1⟩ := bind_returns hr
  obtain ⟨w2, h2, hr2⟩ := bind_returns hr1
  cases hr2
  have k1 : GeometryKept w w1 self := by
    by_cases hb : (w.entities self).m_brushes.isEmpty = true
    · simp only [moveOrigin90, hb, if_true, setPropertyVec3f] at h1
      exact setProperty_geometryKept h1
    · simp only [moveOrigin90, hb, Bool.false_eq_true, if_false, Outcome.returns.injEq] at h1
      subst h1
      exact geometryKept_refl w self
  exact geometryKept_invalidated
    (geometryKept_trans k1 (applyRotation_geometryKept fl center u w1 w2 self _ h2))

theorem rotate_geometryKept {F : Type} (fl : FloatOps F) (center : CenterOf F)
    (u : MapUpdates) (w w' : World) (self : EntityId) (rotation : Quat F) (c : Vec3f F)
    (hr : rotate fl center u w self rotation c = .returns w') : GeometryKept w w' self := by
  unfold rotate at hr
  obtain ⟨w1, h1, hr1⟩ := bind_returns hr
  obtain ⟨w2, h2, hr2⟩ := bind_returns hr1
  cases hr2
  have k1 : GeometryKept w w1 self := by
    by_cases hb : (w.entities self).m_brushes.isEmpty = true
    · simp only [moveOriginRotated, hb, if_true, setPropertyVec3f] at h1
      exact setProperty_geometryKept h1
    · simp only [moveOriginRotated, hb, Bool.false_eq_true, if_false, Outcome.returns.injEq] at h1
      subst h1
      exact geometryKept_refl w self
  exact geometryKept_invalidated
    (geometryKept_trans k1 (applyRotation_geometryKept fl center u w1 w2 self _ h2))

theorem flip_geometryKept {F : Type} (fl : FloatOps F) (center : CenterOf F)
    (u : MapUpdates) (w w' : World) (self : EntityId) (axis : Axis) (c : Vec3f F)
    (hr : flip fl center u w self axis c = .returns w') : GeometryKept w w' self := by
  unfold flip at hr
  obtain ⟨w1, h1, hr1⟩ := bind_returns hr
  obtain ⟨w2, h2, hr2⟩ := bind_returns hr1
  cases hr2
  have k1 : GeometryKept w w1 self := by
    by_cases hb : (w.entities self).m_brushes.isEmpty = true
    · simp only [moveOriginFlipped, hb, if_true, setPropertyVec3f] at h1
      exact setProperty_geometryKept h1
    · simp only [moveOriginFlipped, hb, Bool.false_eq_true, if_false, Outcome.returns.injEq] at h1
      subst h1
      exact geometryKept_refl w self
  exact geometryKept_invalidated
    (geometryKept_trans k1 (flipOrientation_geometryKept fl center u w1 w2 self _ h2))

theorem translate_geometryKept {F : Type} (fl : FloatOps F) (u : MapUpdates) (w w' : World)
    (self : EntityId) (delta : Vec3f F)
    (hr : translate fl u w self delta = .returns w') : GeometryKept w w' self := by
  unfold translate at hr
  split_ifs at hr
  · cases hr
    exact geometryKept_refl w self
  · obtain ⟨w1, h1, hr1⟩ := bind_returns hr
    cases hr1
    simp only [setPropertyVec3f, if_true] at h1
    exact geometryKept_invalidated (setProperty_geometryKept h1)

theorem removeProperty_geometryKept {u : MapUpdates} {w w' : World} {self : EntityId}
    {key : PropertyKey} (hr : removeProperty u w self key = .passed (.returns w')) :
    GeometryKept w w' self := by
  unfold removeProperty at hr
  split_ifs at hr
  · simp only [Asserted.passed.injEq] at hr
    exact setProperty_geometryKept hr
  · simp only [Asserted.passed.injEq, Outcome.returns.injEq] at hr
    subst hr
    exact geometryKept_refl w self

/-- The loop of `setProperties`. -/
theorem setProperties_loop_geometryKept (u : MapUpdates) (self : EntityId) :
    ∀ (properties : PropertyList) (start : Outcome World) (w' : World),
      properties.foldl
        (fun acc property => acc.bind fun w1 =>
          setProperty u w1 self property.key (some property.value)) start = .returns w' →
      ∃ w0, start = .returns w0 ∧ GeometryKept w0 w' self := by
  intro properties
  induction properties with
  | nil =>
    intro start w' hr
    exact ⟨w', hr, geometryKept_refl w' self⟩
  | cons p rest ih =>
    intro start w' hr
    rw [List.foldl_cons] at hr
    obtain ⟨w1, h1, k1⟩ := ih _ w' hr
    obtain ⟨w0, h0, hs⟩ := bind_returns h1
    exact ⟨w0, h0, geometryKept_trans (setProperty_geometryKept hs) k1⟩

theorem clearProperties_geometryKept {u : MapUpdates} {w w' : World} {self : EntityId}
    (hr : clearProperties u w self = .returns w') : GeometryKept w w' self := by
  unfold clearProperties at hr
  have hk := setProperty_geometryKept hr
  refine ⟨hk.1, fun y hy => ?_, Or.inl ?_⟩
  · have := hk.2.1 y hy
    simpa [Function.update_noteq hy] using this
  · rcases setProperty_returns hr with ⟨h0, _⟩ | ⟨_, w1, w2, _, _, hw⟩
    · simp [propertyForKey, PropertyStore.propertyValue] at h0
    · subst hw
      simp [storeValue, invalidateGeometry]

theorem setProperties_geometryKept {u : MapUpdates} {w w' : World} {self : EntityId}
    {properties : PropertyList} {replace : Bool}
    (hr : setProperties u w self properties replace = .returns w') :
    GeometryKept w w' self := by
  unfold setProperties at hr
  obtain ⟨w0, h0, k0⟩ := setProperties_loop_geometryKept u self properties _ w' hr
  cases replace with
  | true =>
    simp only [if_true] at h0
    exact geometryKept_trans (clearProperties_geometryKept h0) k0
  | false =>
    simp only [Bool.false_eq_true, if_false, Outcome.returns.injEq] at h0
    subst h0
    exact k0

/-- Every operation keeps what the geometry of the other entities is derived from, and
clears the flag of the entity unless it changes nothing. -/
theorem mutation_geometryKept {F : Type} {fl : FloatOps F} {center : CenterOf F}
    {u : MapUpdates} {w w' : World} {self : EntityId}
    (hm : Mutation fl center u w self w') : GeometryKept w w' self := by
  cases hm with
  | setProperty key value _ hr => exact setProperty_geometryKept hr
  | setProperties properties replace _ hr => exact setProperties_geometryKept hr
  | removeProperty key _ hr => exact removeProperty_geometryKept hr
  | renameProperty stale oldKey newKey _ hr =>
    obtain ⟨w1, h1, h2⟩ := renameProperty_returns hr
    exact geometryKept_trans (removeProperty_geometryKept h1) (setProperty_geometryKept h2)
  | addBrush brush =>
    refine ⟨fun _ => rfl, fun y hy => ?_, Or.inl ?_⟩
    · simp [addBrush, invalidateGeometry, Function.update_noteq hy]
    · simp [addBrush, invalidateGeometry]
  | addBrushes brushes =>
    refine ⟨fun _ => rfl, fun y hy => ?_, Or.inl ?_⟩
    · simp [addBrushes, invalidateGeometry, Function.update_noteq hy]
    · simp [addBrushes, invalidateGeometry]
  | removeBrush brush =>
    refine ⟨fun _ => rfl, fun y hy => ?_, Or.inl ?_⟩
    · simp [removeBrush, invalidateGeometry, Function.update_noteq hy]
    · simp [removeBrush, invalidateGeometry]
  | setDefinition definition =>
    have he := setDefinition_effect w self definition
    refine ⟨fun d => ?_, fun y hy => ?_, Or.inl he.2.2.2⟩
    · unfold setDefinition
      cases hd : (w.entities self).m_definition <;> cases definition <;>
        simp [Function.update_apply, decUsageCount, incUsageCount] <;>
        split_ifs <;> simp_all
    · simp [setDefinition, invalidateGeometry, Function.update_noteq hy]
  | translate delta _ hr => exact translate_geometryKept fl u w w' self delta hr
  | rotate90 axis c clockwise _ hr =>
    exact rotate90_geometryKept fl center u w w' self axis c clockwise hr
  | rotate rotation c _ hr => exact rotate_geometryKept fl center u w w' self rotation c hr
  | flip axis c _ hr => exact flip_geometryKept fl center u w w' self axis c hr

/-- The derived bounds look at the store, the brushes and the definition of the entity and at
the type of that definition only. -/
theorem derivedBounds_congr {F : Type} (fl : FloatOps F) (bo : BoundsOps F) (w w' : World)
    (e : EntityId)
    (hs : (w'.entities e).m_propertyStore = (w.entities e).m_propertyStore)
    (hb : (w'.entities e).m_brushes = (w.entities e).m_brushes)
    (hd : (w'.entities e).m_definition = (w.entities e).m_definition)
    (ht : ∀ d, (w'.definitions d).m_type = (w.definitions d).m_type) :
    derivedBounds fl bo w' e = derivedBounds fl bo w e := by
  have ho : origin fl (w'.entities e) = origin fl (w.entities e) := by
    simp [origin, propertyForKey, hs]
  have hbb : brushBounds fl bo (w'.entities e) = brushBounds fl bo (w.entities e) := by
    simp [brushBounds, hb, ho]
  unfold derivedBounds
  rw [hd, hbb, ho]
  cases (w.entities e).m_definition with
  | none => rfl
  | some d => simp [ht d]

/-- One step keeps the cache coherent. -/
theorem step_coherent {F : Type} {fl : FloatOps F} {bo : BoundsOps F} {center : CenterOf F}
    {u : MapUpdates} {s s' : Cached F} (hc : Coherent fl bo s)
    (hstep : Step fl bo center u s s') : Coherent fl bo s' := by
  cases hstep with
  | validate self _ hv =>
    unfold validateGeometry at hv
    split_ifs at hv with hflag
    simp only [Asserted.passed.injEq, Outcome.returns.injEq] at hv
    subst hv
    intro e he
    have hd : derivedBounds fl bo
        (World.mk (Function.update s.world.entities self
          { s.world.entities self with m_geometryValid := true })
          s.world.maps s.world.definitions) e =
        derivedBounds fl bo s.world e := by
      apply derivedBounds_congr
      · by_cases hes : e = self
        · subst hes; simp
        · simp [Function.update_noteq hes]
      · by_cases hes : e = self
        · subst hes; simp
        · simp [Function.update_noteq hes]
      · by_cases hes : e = self
        · subst hes; simp
        · simp [Function.update_noteq hes]
      · intro d; rfl
    by_cases hes : e = self
    · subst hes
      simp only [Function.update_same]
      exact ⟨hd.symm, by rw [hd]⟩
    · simp only [Function.update_noteq hes] at he ⊢
      have := hc e he
      exact ⟨this.1.trans hd.symm, this.2.trans (by rw [hd])⟩
  | mutate self w' cache' hm hcache =>
    have hk := mutation_geometryKept hm
    intro e he
    have hce := hcache e he
    simp only at he ⊢
    by_cases hes : e = self
    · subst hes
      rcases hk.2.2 with hf | hw
      · rw [hf] at he
        exact absurd he (by simp)
      · subst hw
        have := hc e he
        exact ⟨hce.1.trans this.1, hce.2.trans this.2⟩
    · have hy := hk.2.1 e hes
      have hd := derivedBounds_congr fl bo s.world w' e hy.1 hy.2.1 hy.2.2.1 hk.1
      have := hc e (hy.2.2.2 ▸ he)
      exact ⟨hce.1.trans (this.1.trans hd.symm), hce.2.trans (this.2.trans (by rw [hd]))⟩

/-- C27: in every state reached from a coherent one through validations of the cache and the
operations of `Entity` that change an entity, the cache is coherent: where the flag is set,
the cached bounds and center are the ones derived afresh from the current origin, brushes
and definition. A property set that changes the property, an added or removed brush and a
change of the definition clear the flag. -/
theorem cache_coherent {F : Type} (fl : FloatOps F) (bo : BoundsOps F) (center : CenterOf F)
    (u : MapUpdates) (s s' : Cached F) (hc : Coherent fl bo s)
    (hrun : Relation.ReflTransGen (Step fl bo center u) s s') :
    Coherent fl bo s' ∧
    (∀ w self key value w', setProperty u w self key value = .returns w' →
      propertyForKey (w.entities self) key ≠ value →
      (w'.entities self).m_geometryValid = false) ∧
    (∀ w self brush, ((addBrush w self brush).entities self).m_geometryValid = false) ∧
    (∀ w self brushes, ((addBrushes w self brushes).entities self).m_geometryValid = false) ∧
    (∀ w self brush, ((removeBrush w self brush).entities self).m_geometryValid = false) ∧
    (∀ w self d, ((setDefinition w self d).entities self).m_geometryValid = false) := by
  refine ⟨?_, ?_, ?_, ?_, ?_, ?_⟩
  · induction hrun with
    | refl => exact hc
    | tail _ hstep ih => exact step_coherent ih hstep
  · intro w self key value w' hr hne
    rcases setProperty_returns hr with ⟨h0, _⟩ | ⟨_, w1, w2, _, _, hw⟩
    · exact absurd h0 hne
    · subst hw
      simp [storeValue, invalidateGeometry]
  · intro w self brush
    simp [addBrush, invalidateGeometry]
  · intro w self brushes
    simp [addBrushes, invalidateGeometry]
  · intro w self brush
    simp [removeBrush, invalidateGeometry]
  · intro w self d
    simp [setDefinition, invalidateGeometry]

/-- C27 at work: the bounds of the monster of `monsterWorld` are asked for, which caches the
center (64, 0, 28) and sets the flag; the monster is moved to the null vector, which clears
the flag; the bounds are asked for again. The cache is coherent at the end and holds the
center (0, 0, 4). When instead the angle of the monster with the valid cache is renamed to
`mangle`, the call returns, the flag is cleared and the cache is coherent. -/
theorem cache_coherent_witness :
    (validMonster.world.entities 0).m_geometryValid = true ∧
    (validMonster.cache.m_center 0).x = 64000000 ∧
    (movedMonster.world.entities 0).m_geometryValid = false ∧
    Coherent fixedPoint fixedBounds (revalidated fixedPoint fixedBounds movedMonster 0) ∧
    ((revalidated fixedPoint fixedBounds movedMonster 0).cache.m_center 0).x = 0 ∧
    ((revalidated fixedPoint fixedBounds movedMonster 0).cache.m_center 0).z = 4000000 ∧
    ∃ w', renameProperty "45" quietUpdates validMonster.world 0 "angle" "mangle" =
        .passed (.returns w') ∧
      propertyForKey (w'.entities 0) "mangle" = some "45" ∧
      (w'.entities 0).m_geometryValid = false ∧
      Coherent fixedPoint fixedBounds { world := w', cache := validMonster.cache } := by
  have h0 : Coherent fixedPoint fixedBounds freshMonster := by
    intro e he
    match e, he with
    | 0, he => exact absurd he (by decide)
    | n + 1, he => exact absurd he (by simp [freshMonster, monsterWorld])
  have hrun : Relation.ReflTransGen
      (Step fixedPoint fixedBounds (derivedCenter fixedPoint fixedBounds) quietUpdates)
      freshMonster (revalidated fixedPoint fixedBounds movedMonster 0) :=
    Relation.ReflTransGen.tail
      (Relation.ReflTransGen.tail
        (Relation.ReflTransGen.single (Step.validate freshMonster 0 validMonster rfl))
        (Step.mutate validMonster 0 movedMonster.world validMonster.cache
          (Mutation.setProperty validMonster.world 0 OriginKey (some "0 0 0")
            movedMonster.world rfl)
          (fun _ _ => ⟨rfl, rfl⟩)))
      (Step.validate movedMonster 0 (revalidated fixedPoint fixedBounds movedMonster 0) rfl)
  have hrename : renameProperty "45" quietUpdates validMonster.world 0 "angle" "mangle" =
      .passed (.returns ((setProperty quietUpdates ((setProperty quietUpdates
        validMonster.world 0 "angle" none).get validMonster.world) 0 "mangle"
        (some "45")).get validMonster.world)) := rfl
  have hrun2 : Relation.ReflTransGen
      (Step fixedPoint fixedBounds (derivedCenter fixedPoint fixedBounds) quietUpdates)
      freshMonster _ :=
    Relation.ReflTransGen.tail
      (Relation.ReflTransGen.single (Step.validate freshMonster 0 validMonster rfl))
      (Step.mutate validMonster 0 _ validMonster.cache
        (Mutation.renameProperty validMonster.world 0 "45" "angle" "mangle" _ hrename)
        (fun _ _ => ⟨rfl, rfl⟩))
  exact ⟨by decide, by decide, by decide,
    (cache_coherent fixedPoint fixedBounds (derivedCenter fixedPoint fixedBounds) quietUpdates
      freshMonster _ h0 hrun).1, by decide, by decide,
    _, hrename, by decide, by decide,
    (cache_coherent fixedPoint fixedBounds (derivedCenter fixedPoint fixedBounds) quietUpdates
      freshMonster _ h0 hrun2).1⟩

/-! ## Brushes -/

/-- C25: the brush that `newBrush` makes of a list of faces gives back, as `faces()`, a list
of the same length with the same face at every index, whether or not faces are redundant or
of the same geometry. -/
theorem newBrush_faces {K : Type} [LinearOrderedField K] (worldBounds : BBox K)
    (fs : List (BrushFace K)) :
    (Brush.newBrush worldBounds fs).faces.length = fs.length ∧
      ∀ i : Nat, (Brush.newBrush worldBounds fs).faces[i]? = fs[i]? :=
  ⟨rfl, fun _ => rfl⟩

/-- The three faces of the test are there after the construction, each at its index. -/
theorem newBrush_faces_witness :
    (Brush.newBrush testWorldBounds sameFaces).faces.length = 3 ∧
    ((Brush.newBrush testWorldBounds sameFaces).faces.map BrushFace.address) = [0, 1, 2] :=
  ⟨(newBrush_faces testWorldBounds sameFaces).1, rfl⟩

/-- Along a ray the side of a plane changes linearly with the distance. -/
theorem side_pointAtDistance {K : Type} [LinearOrderedField K] (f : BrushFace K) (ray : Ray K)
    (t : K) :
    f.side (ray.pointAtDistance t) =
      f.side ray.origin + t * Vec3f.dot f.normal ray.direction := by
  simp only [BrushFace.side, Ray.pointAtDistance, Vec3f.dot, Vec3f.sub, Vec3f.add, Vec3f.scale]
  ring

theorem contains_iff {K : Type} [LinearOrderedField K] (b : Brush K) (p : Vec3f K) :
    b.contains p = true ↔ ∀ f ∈ b.m_faces, f.side p ≤ 0 := by
  simp [Brush.contains]

/-- What an intersection of a ray and a face is. -/
theorem intersectWithRay_eq_some {K : Type} [LinearOrderedField K] (b : Brush K)
    (f : BrushFace K) (ray : Ray K) (t : K) :
    b.intersectWithRay f ray = some t ↔
      Vec3f.dot f.normal ray.direction ≠ 0 ∧
      t = - f.side ray.origin / Vec3f.dot f.normal ray.direction ∧
      0 < t ∧ b.contains (ray.pointAtDistance t) = true := by
  unfold Brush.intersectWithRay
  by_cases hd : Vec3f.dot f.normal ray.direction = 0
  · simp [hd]
  · simp only [hd, if_false, ne_eq, not_false_eq_true, true_and]
    constructor
    · intro h
      split_ifs at h with hc
      simp only [Option.some.injEq] at h
      subst h
      exact ⟨rfl, hc.1, hc.2⟩
    · rintro ⟨rfl, h1, h2⟩
      simp [h1, h2]

/-- The fold over the faces gives an intersection that no other intersection is closer
than, when there is one at all. -/
theorem closest_fold {K : Type} [LinearOrderedField K] (b : Brush K) (ray : Ray K) :
    ∀ (L : List (BrushFace K)) (best : Option (BrushFace K × K)),
      (∀ g s, best = some (g, s) → b.intersectWithRay g ray = some s) →
      (∀ f t, L.foldl (fun best f => Brush.closer best f (b.intersectWithRay f ray)) best =
          some (f, t) →
        b.intersectWithRay f ray = some t ∧ (f ∈ L ∨ best = some (f, t)) ∧
        (∀ g s, best = some (g, s) → t ≤ s) ∧
        ∀ g ∈ L, ∀ s, b.intersectWithRay g ray = some s → t ≤ s) ∧
      (L.foldl (fun best f => Brush.closer best f (b.intersectWithRay f ray)) best = none →
        best = none ∧ ∀ g ∈ L, b.intersectWithRay g ray = none) := by
  intro L
  induction L with
  | nil =>
    intro best hbest
    refine ⟨fun f t h => ?_, fun h => ⟨h, by simp⟩⟩
    simp only [List.foldl_nil] at h
    refine ⟨hbest f t h, Or.inr h, fun g s hg => ?_, by simp⟩
    rw [h] at hg
    simp only [Option.some.injEq, Prod.mk.injEq] at hg
    exact le_of_eq hg.2
  | cons x rest ih =>
    intro best hbest
    have hnext : ∀ g s, Brush.closer best x (b.intersectWithRay x ray) = some (g, s) →
        b.intersectWithRay g ray = some s := by
      intro g s hg
      unfold Brush.closer at hg
      cases hx : b.intersectWithRay x ray with
      | none =>
        simp only [hx] at hg
        exact hbest g s hg
      | some t =>
        cases hb : best with
        | none =>
          simp only [hx, hb, Option.some.injEq, Prod.mk.injEq] at hg
          rw [← hg.1, ← hg.2]
          exact hx
        | some gs =>
          obtain ⟨g0, s0⟩ := gs
          simp only [hx, hb] at hg
          split_ifs at hg
          · simp only [Option.some.injEq, Prod.mk.injEq] at hg
            rw [← hg.1, ← hg.2]
            exact hx
          · simp only [Option.some.injEq, Prod.mk.injEq] at hg
            rw [← hg.1, ← hg.2]
            exact hbest g0 s0 hb
    have hstep := ih (Brush.closer best x (b.intersectWithRay x ray)) hnext
    refine ⟨fun f t h => ?_, fun h => ?_⟩
    · rw [List.foldl_cons] at h
      obtain ⟨h1, h2, h3, h4⟩ := hstep.1 f t h
      have hx_le : ∀ s, b.intersectWithRay x ray = some s → t ≤ s := by
        intro s hs
        unfold Brush.closer at h3
        cases hb : best with
        | none =>
          exact h3 x s (by simp [hs, hb])
        | some gs =>
          obtain ⟨g0, s0⟩ := gs
          by_cases hlt : s < s0
          · exact h3 x s (by simp [hs, hb, hlt])
          · have := h3 g0 s0 (by simp [hs, hb, hlt])
            exact le_trans this (not_lt.mp hlt)
      have hbest_le : ∀ g s, best = some (g, s) → t ≤ s := by
        intro g s hg
        unfold Brush.closer at h3
        cases hx : b.intersectWithRay x ray with
        | none => exact h3 g s (by simp [hx, hg])
        | some tx =>
          by_cases hlt : tx < s
          · have := h3 x tx (by simp [hx, hg, hlt])
            exact le_trans this (le_of_lt hlt)
          · exact h3 g s (by simp [hx, hg, hlt])
      refine ⟨h1, ?_, hbest_le, ?_⟩
      · rcases h2 with h2 | h2
        · exact Or.inl (List.mem_cons_of_mem _ h2)
        · unfold Brush.closer at h2
          cases hx : b.intersectWithRay x ray with
          | none =>
            simp only [hx] at h2
            exact Or.inr h2
          | some tx =>
            cases hb : best with
            | none =>
              simp only [hx, hb, Option.some.injEq, Prod.mk.injEq] at h2
              exact Or.inl (by rw [← h2.1]; exact List.mem_cons_self _ _)
            | some gs =>
              obtain ⟨g0, s0⟩ := gs
              simp only [hx, hb] at h2
              split_ifs at h2
              · simp only [Option.some.injEq, Prod.mk.injEq] at h2
                exact Or.inl (by rw [← h2.1]; exact List.mem_cons_self _ _)
              · exact Or.inr h2
      · intro g hg s hs
        rcases List.mem_cons.mp hg with e | e
        · subst e
          exact hx_le s hs
        · exact h4 g e s hs
    · rw [List.foldl_cons] at h
      obtain ⟨h1, h2⟩ := hstep.2 h
      unfold Brush.closer at h1
      cases hx : b.intersectWithRay x ray with
      | none =>
        simp only [hx] at h1
        refine ⟨h1, fun g hg => ?_⟩
        rcases List.mem_cons.mp hg with e | e
        · subst e
          exact hx
        · exact h2 g e
      | some tx =>
        cases hb : best with
        | none => simp [hx, hb] at h1
        | some gs =>
          obtain ⟨g0, s0⟩ := gs
          simp only [hx, hb] at h1
          split_ifs at h1

/-- A list that is not empty has an entry at which a function is largest. -/
theorem exists_largest {α K : Type} [LinearOrder K] (value : α → K) :
    ∀ L : List α, L ≠ [] → ∃ x ∈ L, ∀ y ∈ L, value y ≤ value x := by
  intro L
  induction L with
  | nil => intro h; exact absurd rfl h
  | cons a rest ih =>
    intro _
    by_cases hr : rest = []
    · subst hr
      exact ⟨a, by simp, by simp⟩
    · obtain ⟨x, hx, hmax⟩ := ih hr
      by_cases hle : value x ≤ value a
      · refine ⟨a, by simp, fun y hy => ?_⟩
        rcases List.mem_cons.mp hy with e | e
        · rw [e]
        · exact le_trans (hmax y e) hle
      · refine ⟨x, List.mem_cons_of_mem _ hx, fun y hy => ?_⟩
        rcases List.mem_cons.mp hy with e | e
        · rw [e]
          exact le_of_lt (not_le.mp hle)
        · exact hmax y e

/-- A ray that starts outside a brush and is inside it at some distance meets the polygon of
a face at that distance or before. -/
theorem entry_exists {K : Type} [LinearOrderedField K] (b : Brush K) (ray : Ray K) (s : K)
    (hout : b.contains ray.origin = false) (hs : 0 < s)
    (hin : b.contains (ray.pointAtDistance s) = true) :
    ∃ f ∈ b.m_faces, ∃ t, 0 < t ∧ t ≤ s ∧ b.intersectWithRay f ray = some t := by
  have hin' := (contains_iff b _).mp hin
  have hfront : ∀ g ∈ b.m_faces, 0 < g.side ray.origin →
      Vec3f.dot g.normal ray.direction < 0 ∧
      0 < - g.side ray.origin / Vec3f.dot g.normal ray.direction ∧
      - g.side ray.origin / Vec3f.dot g.normal ray.direction ≤ s := by
    intro g hg ha
    have h1 := hin' g hg
    rw [side_pointAtDistance] at h1
    have hb : Vec3f.dot g.normal ray.direction < 0 :=
      neg_of_mul_neg_right (by linarith) (le_of_lt hs)
    refine ⟨hb, div_pos_of_neg_of_neg (by linarith) hb, ?_⟩
    rw [div_le_iff_of_neg hb]
    linarith
  have hJ : b.m_faces.filter (fun f => decide (0 < f.side ray.origin)) ≠ [] := by
    intro hnil
    have hall : b.contains ray.origin = true := by
      rw [contains_iff]
      intro f hf
      by_contra hpos
      have : f ∈ b.m_faces.filter (fun f => decide (0 < f.side ray.origin)) := by
        simp [List.mem_filter, hf, not_le.mp hpos]
      rw [hnil] at this
      simp at this
    rw [hall] at hout
    exact absurd hout (by simp)
  obtain ⟨f, hfJ, hmax⟩ := exists_largest
    (fun g : BrushFace K => - g.side ray.origin / Vec3f.dot g.normal ray.direction) _ hJ
  simp only [List.mem_filter, decide_eq_true_eq] at hfJ hmax
  obtain ⟨hb, hpos, hle⟩ := hfront f hfJ.1 hfJ.2
  refine ⟨f, hfJ.1, _, hpos, hle, ?_⟩
  rw [intersectWithRay_eq_some]
  refine ⟨ne_of_lt hb, rfl, hpos, ?_⟩
  rw [contains_iff]
  intro g hg
  rw [side_pointAtDistance]
  by_cases ha : 0 < g.side ray.origin
  · obtain ⟨hgb, -, -⟩ := hfront g hg ha
    have hge := hmax g ⟨hg, ha⟩
    have hcancel : - g.side ray.origin / Vec3f.dot g.normal ray.direction *
        Vec3f.dot g.normal ray.direction = - g.side ray.origin :=
      div_mul_cancel₀ _ (ne_of_lt hgb)
    have := mul_le_mul_of_nonpos_right hge (le_of_lt hgb)
    linarith
  · have ha' : g.side ray.origin ≤ 0 := not_lt.mp ha
    by_cases hgb : Vec3f.dot g.normal ray.direction ≤ 0
    · have := mul_nonpos_of_nonneg_of_nonpos (le_of_lt hpos) hgb
      linarith
    · have h1 := hin' g hg
      rw [side_pointAtDistance] at h1
      have := mul_le_mul_of_nonneg_right hle (le_of_lt (not_le.mp hgb))
      linarith

/-- C24: a ray that starts outside a brush and passes through it adds exactly one hit to the
collector: the hit carries a face of the brush and the distance at which the ray meets the
plane of that face, the hit point belongs to the brush, and no nearer point of the ray does,
so the face is the one the ray enters through. A ray that starts outside and never reaches
the brush adds no hit. -/
theorem brush_pick_entry {K : Type} [LinearOrderedField K] (b : Brush K) (ray : Ray K)
    (pickResults : PickResult K) (hout : b.contains ray.origin = false) :
    ((∃ s, 0 < s ∧ b.contains (ray.pointAtDistance s) = true) →
      ∃ f ∈ b.faces, ∃ t, 0 < t ∧
        b.pick ray pickResults =
          pickResults ++
            [{ object := .face f.address, hitPoint := ray.pointAtDistance t, distance := t }] ∧
        f.side (ray.pointAtDistance t) = 0 ∧
        b.contains (ray.pointAtDistance t) = true ∧
        ∀ r, 0 ≤ r → r < t → b.contains (ray.pointAtDistance r) = false) ∧
    ((∀ s, 0 < s → b.contains (ray.pointAtDistance s) = false) →
      b.pick ray pickResults = pickResults) := by
  have hfold := closest_fold b ray b.m_faces none (by simp)
  have horigin : ray.pointAtDistance 0 = ray.origin := by
    simp [Ray.pointAtDistance, Vec3f.add, Vec3f.scale]
  refine ⟨?_, ?_⟩
  · rintro ⟨s, hs, hin⟩
    obtain ⟨f0, hf0, t0, -, -, hi0⟩ := entry_exists b ray s hout hs hin
    cases hc : b.closest ray with
    | none =>
      have := (hfold.2 hc).2 f0 hf0
      rw [hi0] at this
      exact absurd this (by simp)
    | some ft =>
      obtain ⟨f, t⟩ := ft
      obtain ⟨hi, hmem, -, hmin⟩ := hfold.1 f t hc
      have hf : f ∈ b.m_faces := by
        rcases hmem with h | h
        · exact h
        · exact absurd h (by simp)
      obtain ⟨hd, ht, hpos, hcont⟩ := (intersectWithRay_eq_some b f ray t).mp hi
      refine ⟨f, hf, t, hpos, by simp [Brush.pick, hc, PickResult.add], ?_, hcont, ?_⟩
      · rw [side_pointAtDistance, ht, div_mul_cancel₀ _ hd]
        ring
      · intro r hr0 hrt
        by_contra hin_r
        have hin_r' : b.contains (ray.pointAtDistance r) = true := by
          simpa using hin_r
        rcases eq_or_lt_of_le hr0 with e | hrpos
        · rw [← e, horigin, hout] at hin_r'
          exact absurd hin_r' (by simp)
        · obtain ⟨g, hg, t', -, hle, hi'⟩ := entry_exists b ray r hout hrpos hin_r'
          have := hmin g hg t' hi'
          linarith
  · intro hmiss
    cases hc : b.closest ray with
    | none => simp [Brush.pick, hc]
    | some ft =>
      obtain ⟨f, t⟩ := ft
      obtain ⟨hi, -, -, -⟩ := hfold.1 f t hc
      obtain ⟨-, -, hpos, hcont⟩ := (intersectWithRay_eq_some b f ray t).mp hi
      rw [hmiss t hpos] at hcont
      exact absurd hcont (by simp)

/-- C24 at work, the test `pick`: the ray from (8, -8, 8) along Y starts outside the cube from
0 to 16 and is inside it at the distance 10; it adds one hit, the front face (the third
face, address 2) at the distance 8 and the point (8, 0, 8). The ray against Y never reaches
the cube and adds no hit. -/
theorem brush_pick_entry_witness :
    cube.contains cubeRay.origin = false ∧
    cube.pick cubeRay [] =
      [{ object := .face 2, hitPoint := point 8 0 8, distance := 8 }] ∧
    cube.pick cubeRayAway [] = [] := by
  have hout : cube.contains cubeRay.origin = false := by
    simp [cube, cubeRay, Brush.contains, Brush.newBrush, cubeFaces, BrushFace.side,
      BrushFace.normal, Vec3f.dot, Vec3f.cross, Vec3f.sub, point]
  have hout' : cube.contains cubeRayAway.origin = false := hout
  have hin : cube.contains (cubeRay.pointAtDistance 10) = true := by
    norm_num [cube, cubeRay, Brush.contains, Brush.newBrush, cubeFaces, BrushFace.side,
      BrushFace.normal, Vec3f.dot, Vec3f.cross, Vec3f.sub, Vec3f.add, Vec3f.scale,
      Ray.pointAtDistance, point]
  have hmiss : ∀ s : ℚ, 0 < s → cube.contains (cubeRayAway.pointAtDistance s) = false := by
    intro s hs
    rw [← Bool.not_eq_true, contains_iff]
    intro hall
    have := hall { address := 2, p0 := point 0 0 0, p1 := point 0 0 1, p2 := point 1 0 0 }
      (by simp [cube, Brush.newBrush, cubeFaces])
    norm_num [cubeRayAway, BrushFace.side, BrushFace.normal, Vec3f.dot, Vec3f.cross,
      Vec3f.sub, Vec3f.add, Vec3f.scale, Ray.pointAtDistance, point] at this
    linarith
  obtain ⟨f, hf, t, hpos, hpick, hside, hcont, hmin⟩ :=
    (brush_pick_entry cube cubeRay [] hout).1 ⟨10, by norm_num, hin⟩
  refine ⟨hout, ?_, (brush_pick_entry cube cubeRayAway [] hout').2 hmiss⟩
  have hfront := (contains_iff cube _).mp hcont
    { address := 2, p0 := point 0 0 0, p1 := point 0 0 1, p2 := point 1 0 0 }
    (by simp [cube, Brush.newBrush, cubeFaces])
  norm_num [cubeRay, BrushFace.side, BrushFace.normal, Vec3f.dot, Vec3f.cross,
    Vec3f.sub, Vec3f.add, Vec3f.scale, Ray.pointAtDistance, point] at hfront
  have ht : t = 8 := by
    by_contra hne
    have hlt : (8 : ℚ) < t := lt_of_le_of_ne (by linarith) (Ne.symm hne)
    have h8 := hmin 8 (by norm_num) hlt
    norm_num [cube, cubeRay, Brush.contains, Brush.newBrush, cubeFaces, BrushFace.side,
      BrushFace.normal, Vec3f.dot, Vec3f.cross, Vec3f.sub, Vec3f.add, Vec3f.scale,
      Ray.pointAtDistance, point] at h8
  subst ht
  have hface : f.address = 2 := by
    simp only [Brush.faces, cube, Brush.newBrush, cubeFaces, List.mem_cons,
      List.mem_singleton, List.not_mem_nil, or_false] at hf
    rcases hf with e | e | e | e | e | e <;> subst e <;>
      first
      | rfl
      | (norm_num [cubeRay, BrushFace.side, BrushFace.normal, Vec3f.dot, Vec3f.cross,
          Vec3f.sub, Vec3f.add, Vec3f.scale, Ray.pointAtDistance, point] at hside)
  rw [hpick, hface]
  norm_num [cubeRay, Vec3f.add, Vec3f.scale, Ray.pointAtDistance, point]

/-! ## The class name without a value -/

/-- C32: the claim fails in the code. For every entity that has a class name,
`setProperty("classname", absent)` does not complete: the two early returns do not apply,
and line 382 dereferences the null value (`*value == WorldspawnClassname`) before the store
is touched, which is undefined. -/
theorem setProperty_classname_absent_undefined (u : MapUpdates) (w : World) (self : EntityId)
    (h : classname (w.entities self) ≠ none) :
    setProperty u w self ClassnameKey none = .undefined := by
  have h1 : propertyForKey (w.entities self) ClassnameKey ≠ none := h
  have h2 : (none : Option PropertyValue) ≠ classname (w.entities self) := fun e => h e.symm
  simp [setProperty, h1, classnameChanged, h2, Outcome.bind]

/-- C32 at work: the player start of `definedWorld` has a class name, and removing it through
`setProperty` is undefined. -/
theorem setProperty_classname_absent_undefined_witness :
    classname (definedWorld.entities 0) = some "info_player_start" ∧
    setProperty quietUpdates definedWorld 0 ClassnameKey none = .undefined :=
  ⟨by decide,
    setProperty_classname_absent_undefined quietUpdates definedWorld 0 (by decide)⟩

/-! ## renameProperty -/

/-- The old key is present and the removal has no link to sever: the property goes to the
new key with the value that is read after the removal. -/
theorem renameProperty_present (stale : PropertyValue) (u : MapUpdates) (w : World)
    (self : EntityId) (oldKey newKey : PropertyKey) (v : PropertyValue)
    (hk : propertyKeyIsMutable oldKey = true)
    (hto : isNumberedProperty TargetKey oldKey = false)
    (hko : isNumberedProperty KillTargetKey oldKey = false)
    (hc : newKey ≠ ClassnameKey) (ht : isNumberedProperty TargetKey newKey = false)
    (hkt : isNumberedProperty KillTargetKey newKey = false) (hn : newKey ≠ TargetnameKey)
    (hne : newKey ≠ oldKey)
    (hv : propertyForKey (w.entities self) oldKey = some v) :
    ∃ w', renameProperty stale u w self oldKey newKey = .passed (.returns w') ∧
      propertyForKey (w'.entities self) newKey = some stale ∧
      propertyForKey (w'.entities self) oldKey = none ∧
      ∀ k, k ≠ oldKey → k ≠ newKey →
        propertyForKey (w'.entities self) k = propertyForKey (w.entities self) k := by
  obtain ⟨w1, hr1, ha, hf1⟩ := removeProperty_plain u w self oldKey hk hto hko
    (by rw [hv]; simp)
  obtain ⟨w2, hr2, hnew, hf2, -⟩ := setProperty_plain u w1 self newKey (some stale)
    hc ht hkt hn
  refine ⟨w2, ?_, hnew, ?_, ?_⟩
  · simp [renameProperty, hr1, hv, Outcome.bind, hr2]
  · rw [hf2 oldKey (fun e => hne e.symm)]
    exact ha
  · intro k hko hkn
    rw [hf2 k hkn]
    exact hf1 k hko

/-- C35: the claim fails in the code. Let the old key be key-mutable and absent. The pointer
of line 528 is null, the removal does nothing, and line 530 passes the null pointer on
through the overload of line 369, so the call is `setProperty(newKey, NULL)`: for a new key
without link or class name side effects it returns with the property of the new key removed.
So when the new key is present the store is not left unchanged. -/
theorem renameProperty_absent_removes_new_key (stale : PropertyValue) (u : MapUpdates)
    (w : World) (self : EntityId) (oldKey newKey : PropertyKey)
    (hk : propertyKeyIsMutable oldKey = true)
    (ha : propertyForKey (w.entities self) oldKey = none)
    (hc : newKey ≠ ClassnameKey) (ht : isNumberedProperty TargetKey newKey = false)
    (hkt : isNumberedProperty KillTargetKey newKey = false) (hn : newKey ≠ TargetnameKey) :
    renameProperty stale u w self oldKey newKey = .passed (setProperty u w self newKey none) ∧
    ∃ w', renameProperty stale u w self oldKey newKey = .passed (.returns w') ∧
      propertyForKey (w'.entities self) newKey = none ∧
      (∀ k, k ≠ newKey →
        propertyForKey (w'.entities self) k = propertyForKey (w.entities self) k) ∧
      (propertyForKey (w.entities self) newKey ≠ none →
        (w'.entities self).m_propertyStore ≠ (w.entities self).m_propertyStore) := by
  have hcall : renameProperty stale u w self oldKey newKey =
      .passed (setProperty u w self newKey none) := by
    simp [renameProperty, removeProperty_absent u w self oldKey hk ha, ha, Outcome.bind]
  obtain ⟨w', hr, hnew, hf, -⟩ := setProperty_plain u w self newKey none hc ht hkt hn
  refine ⟨hcall, w', by rw [hcall, hr], hnew, hf, ?_⟩
  intro hp hstore
  apply hp
  have : propertyForKey (w'.entities self) newKey = propertyForKey (w.entities self) newKey := by
    unfold propertyForKey
    rw [hstore]
  rw [← this]
  exact hnew

/-- C35 at work: the door of `doorWorld` has the angle "90" and no property `message`.
Renaming `message` to `angle` returns and the angle is gone. Renaming `angle` to `mangle`
leaves under `mangle` what is read after the removal. -/
theorem renameProperty_absent_removes_new_key_witness :
    propertyForKey (doorWorld.entities 0) "message" = none ∧
    propertyForKey (doorWorld.entities 0) "angle" = some "90" ∧
    (∃ w', renameProperty "" quietUpdates doorWorld 0 "message" "angle" =
        .passed (.returns w') ∧
      propertyForKey (w'.entities 0) "angle" = none ∧
      (w'.entities 0).m_propertyStore ≠ (doorWorld.entities 0).m_propertyStore) ∧
    (∃ w', renameProperty "90" quietUpdates doorWorld 0 "angle" "mangle" =
        .passed (.returns w') ∧
      propertyForKey (w'.entities 0) "mangle" = some "90" ∧
      propertyForKey (w'.entities 0) "angle" = none) := by
  obtain ⟨-, w', hr, hnew, -, hstore⟩ := renameProperty_absent_removes_new_key ""
    quietUpdates doorWorld 0 "message" "angle" (by decide) (by decide) (by decide) (by decide)
    (by decide) (by decide)
  obtain ⟨w2, hr2, h1, h2, -⟩ := renameProperty_present "90" quietUpdates doorWorld 0
    "angle" "mangle" "90" (by decide) (by decide) (by decide) (by decide) (by decide)
    (by decide) (by decide) (by decide) (by decide)
  exact ⟨by decide, by decide, ⟨w', hr, hnew, hstore (by decide)⟩, ⟨w2, hr2, h1, h2⟩⟩

/-! ## Keys that are no link keys -/

/-- For a key that is no numbered target key, no numbered killtarget key and not
"targetname", `setProperty` is the early return or the class name branch followed by the
store. -/
theorem setProperty_unlinked_eq (u : MapUpdates) (w : World) (self : EntityId)
    (key : PropertyKey) (value : Option PropertyValue)
    (ht : isNumberedProperty TargetKey key = false)
    (hk : isNumberedProperty KillTargetKey key = false) (hn : key ≠ TargetnameKey) :
    setProperty u w self key value =
      if propertyForKey (w.entities self) key = value then .returns w
      else (classnameChanged w self key value).bind fun w1 =>
        .returns (storeValue w1 self key value) := by
  unfold setProperty
  simp only [linksChanged, ht, hk, hn, Bool.false_eq_true, if_false]
  split_ifs
  · rfl
  · cases classnameChanged w self key value <;> rfl

/-- C37: for every entity and every key that is no numbered target key, no numbered
killtarget key and not "targetname", a call of `setProperty` that returns leaves the registry
lookups and the four adjacency lists of every entity as they were; the outcome does not
depend on how the registry reacts to notifications, none being sent; and the call returns
unless the key is "classname", the value is absent and the entity has a class name. -/
theorem setProperty_unlinked_key_frame (u : MapUpdates) (w : World) (self : EntityId)
    (key : PropertyKey) (value : Option PropertyValue)
    (ht : isNumberedProperty TargetKey key = false)
    (hk : isNumberedProperty KillTargetKey key = false) (hn : key ≠ TargetnameKey) :
    (∀ w', setProperty u w self key value = .returns w' →
      w'.maps = w.maps ∧ ∀ y,
        (w'.entities y).m_linkTargets = (w.entities y).m_linkTargets ∧
        (w'.entities y).m_linkSources = (w.entities y).m_linkSources ∧
        (w'.entities y).m_killTargets = (w.entities y).m_killTargets ∧
        (w'.entities y).m_killSources = (w.entities y).m_killSources) ∧
    (∀ u', setProperty u' w self key value = setProperty u w self key value) ∧
    ((key ≠ ClassnameKey ∨ value ≠ none ∨ classname (w.entities self) = none) →
      ∃ w', setProperty u w self key value = .returns w') := by
  refine ⟨?_, ?_, ?_⟩
  · intro w' hr
    rw [setProperty_unlinked_eq u w self key value ht hk hn] at hr
    split_ifs at hr with hsame
    · cases hr
      exact ⟨rfl, fun y => ⟨rfl, rfl, rfl, rfl⟩⟩
    · obtain ⟨w1, h1, h2⟩ := bind_returns hr
      cases h2
      obtain ⟨hm, hl⟩ := classnameChanged_frame h1
      obtain ⟨hm2, hl2⟩ := storeValue_frame w1 self key value
      refine ⟨hm2.trans hm, fun y => ?_⟩
      obtain ⟨-, -, a1, a2, a3, a4⟩ := hl y
      obtain ⟨-, b1, b2, b3, b4⟩ := hl2 y
      exact ⟨b1.trans a1, b2.trans a2, b3.trans a3, b4.trans a4⟩
  · intro u'
    rw [setProperty_unlinked_eq u w self key value ht hk hn,
      setProperty_unlinked_eq u' w self key value ht hk hn]
  · intro h
    rw [setProperty_unlinked_eq u w self key value ht hk hn]
    split_ifs with hsame
    · exact ⟨w, rfl⟩
    · by_cases hc : key = ClassnameKey
      · subst hc
        cases value with
        | none =>
          rcases h with h | h | h
          · exact absurd rfl h
          · exact absurd rfl h
          · exact absurd h hsame
        | some v =>
          have hv : some v ≠ classname (w.entities self) := fun e => hsame e.symm
          simp only [classnameChanged, if_true, hv, ne_eq, not_false_eq_true]
          exact ⟨_, rfl⟩
      · simp only [classnameChanged, hc, if_false]
        exact ⟨_, rfl⟩

/-- C37 at work: changing the class name of the entity 0 of `linkedWorld`, which is linked to
entity 1, returns and leaves the registry and the lists alone. -/
theorem setProperty_unlinked_key_frame_witness :
    (linkedWorld.entities 0).m_linkTargets = [1] ∧
    ∃ w', setProperty quietUpdates linkedWorld 0 ClassnameKey (some "trigger_once") =
        .returns w' ∧
      w'.maps = linkedWorld.maps ∧ (w'.entities 0).m_linkTargets = [1] ∧
      (w'.entities 1).m_linkSources = [0] := by
  obtain ⟨hframe, -, hret⟩ := setProperty_unlinked_key_frame quietUpdates linkedWorld 0
    ClassnameKey (some "trigger_once") (by decide) (by decide) (by decide)
  obtain ⟨w', hr⟩ := hret (Or.inr (Or.inl (by simp)))
  obtain ⟨hm, hl⟩ := hframe w' hr
  exact ⟨by decide, w', hr, hm, (hl 0).1, (hl 1).2.1⟩

/-! ## flip, twice -/

/-- An entity that owns a brush, whose class name does not start with "light" and which has
an angle and no angles property, is of the kind single-axis with up/down. -/
theorem rotationInfo_updown {F : Type} (fl : FloatOps F) (center : CenterOf F) (w : World)
    (self : EntityId) (name : PropertyValue)
    (hb : (w.entities self).m_brushes ≠ [])
    (hname : classname (w.entities self) = some name)
    (hl : Utility.startsWith name "light" = false)
    (hangles : propertyForKey (w.entities self) AnglesKey = none)
    (hangle : propertyForKey (w.entities self) AngleKey ≠ none) :
    rotationInfo fl center w self = { type := .RTZAngleWithUpDown, property := AngleKey } := by
  have hbe : brushEntity w self = true := by
    unfold brushEntity
    cases h : (w.entities self).m_brushes with
    | nil => exact absurd h hb
    | cons a l => simp
  simp [rotationInfo, hname, hl, hbe, hangles, hangle]

/-- The flip of such an entity: the origin is not touched, the angle property gets the
flipped angle, rounded, and the entity is of the same kind afterwards. -/
theorem flip_updown_brush_entity {F : Type} (fl : FloatOps F) (center : CenterOf F)
    (u : MapUpdates) (w : World) (self : EntityId) (axis : Axis) (flipCenter : Vec3f F)
    (name value : PropertyValue)
    (hb : (w.entities self).m_brushes ≠ [])
    (hname : classname (w.entities self) = some name)
    (hl : Utility.startsWith name "light" = false)
    (hangles : propertyForKey (w.entities self) AnglesKey = none)
    (hvalue : propertyForKey (w.entities self) AngleKey = some value) :
    ∃ w', flip fl center u w self axis flipCenter = .returns w' ∧
      propertyForKey (w'.entities self) AngleKey =
        some (fl.printRounded (flippedAngleWithUpDown fl (fl.atof value) axis)) ∧
      (w'.entities self).m_brushes ≠ [] ∧
      classname (w'.entities self) = some name ∧
      propertyForKey (w'.entities self) AnglesKey = none := by
  have hinfo := rotationInfo_updown fl center w self name hb hname hl hangles
    (by rw [hvalue]; simp)
  obtain ⟨hc, ht, hk, hn⟩ := rotation_keys_plain AngleKey (by simp)
  obtain ⟨w2, hr, hv, hframe, hbr, -, -⟩ := setProperty_plain u w self AngleKey
    (some (fl.printRounded (flippedAngleWithUpDown fl (fl.atof value) axis))) hc ht hk hn
  have hmove : moveOriginFlipped fl center u w self axis flipCenter = .returns w := by
    unfold moveOriginFlipped
    cases h : (w.entities self).m_brushes with
    | nil => exact absurd h hb
    | cons a l => simp
  have hflip : flipOrientation fl center u w self axis = .returns w2 := by
    rw [← hr]
    simp [flipOrientation, hinfo, flipZAngleWithUpDown, setPropertyFloat, storedAngle, hvalue]
  refine ⟨invalidated w2 self, ?_, ?_, ?_, ?_, ?_⟩
  · simp [flip, hmove, hflip, Outcome.bind]
  · rw [propertyForKey_invalidated]
    exact hv
  · have : ((invalidated w2 self).entities self).m_brushes = (w2.entities self).m_brushes := by
      simp [invalidated, invalidateGeometry]
    rw [this, hbr]
    exact hb
  · unfold classname
    rw [propertyForKey_invalidated, hframe ClassnameKey (by decide)]
    exact hname
  · rw [propertyForKey_invalidated, hframe AnglesKey (by decide)]
    exact hangles

/-- C33: the claim fails in the code. For an entity of the kind single-axis with up/down (it
owns a brush, is no light, has an angle and no angles property) whose heading is no
sentinel, when the X-flip `180 - angle` of the heading is written as a text `s` that reads
back as one of the sentinels -1 and -2 (as for the headings 181 and 182), the first flip
along X stores `s` and the second flip, which takes `s` for "up" or "down" and leaves it
alone, stores `s` again: the original heading is not restored. -/
theorem flip_twice_keeps_sentinel {F : Type} (fl : FloatOps F) (center : CenterOf F)
    (u : MapUpdates) (w : World) (self : EntityId) (flipCenter : Vec3f F)
    (name value s : PropertyValue)
    (hb : (w.entities self).m_brushes ≠ [])
    (hname : classname (w.entities self) = some name)
    (hl : Utility.startsWith name "light" = false)
    (hangles : propertyForKey (w.entities self) AnglesKey = none)
    (hvalue : propertyForKey (w.entities self) AngleKey = some value)
    (hup : fl.eq (fl.atof value) (fl.ofInt (-1)) = false)
    (hdown : fl.eq (fl.atof value) (fl.ofInt (-2)) = false)
    (hflip : fl.printRounded (fl.sub (fl.ofInt 180) (fl.atof value)) = s)
    (hread : fl.eq (fl.atof s) (fl.ofInt (-1)) = true ∨
      fl.eq (fl.atof s) (fl.ofInt (-2)) = true)
    (hprint : fl.printRounded (fl.atof s) = s) :
    ∃ w1 w2, flip fl center u w self Axis.AX flipCenter = .returns w1 ∧
      flip fl center u w1 self Axis.AX flipCenter = .returns w2 ∧
      propertyForKey (w1.entities self) AngleKey = some s ∧
      propertyForKey (w2.entities self) AngleKey = some s ∧
      propertyForKey (w2.entities self) AngleKey ≠ propertyForKey (w.entities self) AngleKey := by
  obtain ⟨w1, hr1, hv1, hb1, hname1, hangles1⟩ := flip_updown_brush_entity fl center u w self
    Axis.AX flipCenter name value hb hname hl hangles hvalue
  have hs1 : propertyForKey (w1.entities self) AngleKey = some s := by
    rw [hv1]
    simp [flippedAngleWithUpDown, hup, hdown, hflip]
  obtain ⟨w2, hr2, hv2, -⟩ := flip_updown_brush_entity fl center u w1 self
    Axis.AX flipCenter name s hb1 hname1 hl hangles1 hs1
  have hs2 : propertyForKey (w2.entities self) AngleKey = some s := by
    rw [hv2]
    rcases hread with h | h
    · simp [flippedAngleWithUpDown, h, hprint]
    · simp [flippedAngleWithUpDown, h, hprint]
  refine ⟨w1, w2, hr1, hr2, hs1, hs2, ?_⟩
  rw [hs2, hvalue]
  intro h
  have hsv : s = value := by simpa using h
  subst hsv
  rcases hread with h | h
  · rw [hup] at h
    exact absurd h (by decide)
  · rw [hdown] at h
    exact absurd h (by decide)

/-- C33 at work: the door of `gateWorld` has the heading 181. The first flip along X stores
"-1", the sentinel for "up", and so does the second. -/
theorem flip_twice_keeps_sentinel_witness :
    propertyForKey (gateWorld.entities 0) AngleKey = some "181" ∧
    ∃ w1 w2, flip fixedPoint brushCenter quietUpdates gateWorld 0 Axis.AX fixedPoint.null =
        .returns w1 ∧
      flip fixedPoint brushCenter quietUpdates w1 0 Axis.AX fixedPoint.null = .returns w2 ∧
      propertyForKey (w1.entities 0) AngleKey = some "-1" ∧
      propertyForKey (w2.entities 0) AngleKey = some "-1" ∧
      propertyForKey (w2.entities 0) AngleKey ≠ propertyForKey (gateWorld.entities 0) AngleKey :=
  ⟨by decide,
    flip_twice_keeps_sentinel fixedPoint brushCenter quietUpdates gateWorld 0 fixedPoint.null
      "func_door" "181" "-1" (by decide) (by decide) (by decide) (by decide) (by decide)
      (by decide) (by decide) (by decide) (Or.inl (by decide)) (by decide)⟩

/-! ## Entities without an orientation property -/

/-- Without an angle, an angles and a mangle property the kind of rotation is none or
single-axis angle with the key "angle". -/
theorem rotationInfo_unoriented {F : Type} (fl : FloatOps F) (center : CenterOf F) (w : World)
    (self : EntityId) (h : Unoriented (w.entities self)) :
    rotationInfo fl center w self = { type := .RTNone, property := "" } ∨
      rotationInfo fl center w self = { type := .RTZAngle, property := AngleKey } := by
  obtain ⟨h1, h2, h3⟩ := h
  unfold rotationInfo
  simp only [h1, h2, h3, ne_eq, not_true_eq_false, if_false]
  cases classname (w.entities self) with
  | none => exact Or.inl rfl
  | some name =>
    simp only
    split_ifs <;> simp

/-- The three origin moves return and touch the origin property only. -/
theorem originMove_frame (u : MapUpdates) (w : World) (self : EntityId) (move : Outcome World)
    (h : move = .returns w ∨ ∃ value, move = setProperty u w self OriginKey (some value)) :
    ∃ w1, move = .returns w1 ∧
      ∀ k, k ≠ OriginKey →
        propertyForKey (w1.entities self) k = propertyForKey (w.entities self) k := by
  rcases h with h | ⟨value, h⟩
  · exact ⟨w, h, fun _ _ => rfl⟩
  · obtain ⟨hc, ht, hk, hn⟩ := rotation_keys_plain OriginKey (by simp)
    obtain ⟨w1, hr, -, hframe, -⟩ := setProperty_plain u w self OriginKey (some value) hc ht hk hn
    exact ⟨w1, h.trans hr, hframe⟩

theorem moveOrigin90_cases {F : Type} (fl : FloatOps F) (center : CenterOf F) (u : MapUpdates)
    (w : World) (self : EntityId) (axis : Axis) (rotationCenter : Vec3f F) (clockwise : Bool) :
    moveOrigin90 fl center u w self axis rotationCenter clockwise = .returns w ∨
      ∃ value, moveOrigin90 fl center u w self axis rotationCenter clockwise =
        setProperty u w self OriginKey (some value) := by
  by_cases hb : (w.entities self).m_brushes.isEmpty = true
  · simp only [moveOrigin90, hb, if_true, setPropertyVec3f]
    exact Or.inr ⟨_, rfl⟩
  · simp only [moveOrigin90, hb, Bool.false_eq_true, if_false]
    exact Or.inl trivial

theorem moveOriginRotated_cases {F : Type} (fl : FloatOps F) (center : CenterOf F)
    (u : MapUpdates) (w : World) (self : EntityId) (rotation : Quat F)
    (rotationCenter : Vec3f F) :
    moveOriginRotated fl center u w self rotation rotationCenter = .returns w ∨
      ∃ value, moveOriginRotated fl center u w self rotation rotationCenter =
        setProperty u w self OriginKey (some value) := by
  by_cases hb : (w.entities self).m_brushes.isEmpty = true
  · simp only [moveOriginRotated, hb, if_true, setPropertyVec3f]
    exact Or.inr ⟨_, rfl⟩
  · simp only [moveOriginRotated, hb, Bool.false_eq_true, if_false]
    exact Or.inl trivial

theorem moveOriginFlipped_cases {F : Type} (fl : FloatOps F) (center : CenterOf F)
    (u : MapUpdates) (w : World) (self : EntityId) (axis : Axis) (flipCenter : Vec3f F) :
    moveOriginFlipped fl center u w self axis flipCenter = .returns w ∨
      ∃ value, moveOriginFlipped fl center u w self axis flipCenter =
        setProperty u w self OriginKey (some value) := by
  by_cases hb : (w.entities self).m_brushes.isEmpty = true
  · simp only [moveOriginFlipped, hb, if_true, setPropertyVec3f]
    exact Or.inr ⟨_, rfl⟩
  · simp only [moveOriginFlipped, hb, Bool.false_eq_true, if_false]
    exact Or.inl trivial

/-- An origin move leaves an entity without orientation properties without them. -/
theorem unoriented_originMove {w w1 : World} {self : EntityId}
    (h : Unoriented (w.entities self))
    (hframe : ∀ k, k ≠ OriginKey →
      propertyForKey (w1.entities self) k = propertyForKey (w.entities self) k) :
    Unoriented (w1.entities self) :=
  ⟨(hframe AngleKey (by decide)).trans h.1, (hframe AnglesKey (by decide)).trans h.2.1,
    (hframe MangleKey (by decide)).trans h.2.2⟩

/-- The step `applyRotation` on an entity without orientation properties: angles and mangle
stay absent; angle stays absent when the kind is none or the rotation is not mostly about
Z, and is written, as a whole number, otherwise. -/
theorem applyRotation_unoriented {F : Type} (fl : FloatOps F) (center : CenterOf F)
    (u : MapUpdates) (w : World) (self : EntityId) (rotation : Quat F)
    (h : Unoriented (w.entities self)) :
    ∃ w2, applyRotation fl center u w self rotation = .returns w2 ∧
      propertyForKey (w2.entities self) AnglesKey = none ∧
      propertyForKey (w2.entities self) MangleKey = none ∧
      ((rotationInfo fl center w self).type = .RTNone →
        propertyForKey (w2.entities self) AngleKey = none) ∧
      (fl.firstComponent rotation.v ≠ Axis.AZ →
        propertyForKey (w2.entities self) AngleKey = none) ∧
      ((rotationInfo fl center w self).type ≠ .RTNone →
        fl.firstComponent rotation.v = Axis.AZ →
        ∃ n : Int, propertyForKey (w2.entities self) AngleKey = some (toString n)) := by
  rcases rotationInfo_unoriented fl center w self h with hinfo | hinfo
  · refine ⟨w, by simp [applyRotation, hinfo], h.2.1, h.2.2, fun _ => h.1, fun _ => h.1, ?_⟩
    intro hne
    exact absurd (by rw [hinfo]) hne
  · by_cases haxis : fl.firstComponent rotation.v = Axis.AZ
    · obtain ⟨hc, ht, hk, hn⟩ := rotation_keys_plain AngleKey (by simp)
      obtain ⟨w2, hr, hv, hframe, -⟩ := setProperty_plain u w self AngleKey
        (some (toString (planeAngle fl
          (fl.normalize { fl.quatRotate rotation
            { x := fl.cos (fl.radians (storedAngle fl (w.entities self) AngleKey)),
              y := fl.sin (fl.radians (storedAngle fl (w.entities self) AngleKey)),
              z := fl.ofInt 0 } with z := fl.ofInt 0 }).x
          (fl.normalize { fl.quatRotate rotation
            { x := fl.cos (fl.radians (storedAngle fl (w.entities self) AngleKey)),
              y := fl.sin (fl.radians (storedAngle fl (w.entities self) AngleKey)),
              z := fl.ofInt 0 } with z := fl.ofInt 0 }).y))) hc ht hk hn
      refine ⟨w2, ?_, (hframe AnglesKey (by decide)).trans h.2.1,
        (hframe MangleKey (by decide)).trans h.2.2, ?_, fun hne => absurd haxis hne,
        fun _ _ => ⟨_, hv⟩⟩
      · rw [← hr]
        simp [applyRotation, hinfo, applyZAngle, haxis, setPropertyWhole]
      · intro hnone
        rw [hinfo] at hnone
        exact absurd hnone (by decide)
    · refine ⟨w, by simp [applyRotation, hinfo, applyZAngle, haxis], h.2.1, h.2.2,
        fun _ => h.1, fun _ => h.1, fun _ hz => absurd hz haxis⟩

/-- The orientation step of `flip` on an entity without orientation properties: angles and
mangle stay absent; angle stays absent when the kind is none and is written otherwise, as
the flip of the number 0. -/
theorem flipOrientation_unoriented {F : Type} (fl : FloatOps F) (center : CenterOf F)
    (u : MapUpdates) (w : World) (self : EntityId) (axis : Axis)
    (h : Unoriented (w.entities self)) :
    ∃ w2, flipOrientation fl center u w self axis = .returns w2 ∧
      propertyForKey (w2.entities self) AnglesKey = none ∧
      propertyForKey (w2.entities self) MangleKey = none ∧
      ((rotationInfo fl center w self).type = .RTNone →
        propertyForKey (w2.entities self) AngleKey = none) ∧
      ((rotationInfo fl center w self).type ≠ .RTNone →
        propertyForKey (w2.entities self) AngleKey =
          some (fl.printRounded (flippedAngle fl (fl.ofInt 0) axis))) := by
  rcases rotationInfo_unoriented fl center w self h with hinfo | hinfo
  · refine ⟨w, by simp [flipOrientation, hinfo], h.2.1, h.2.2, fun _ => h.1, ?_⟩
    intro hne
    exact absurd (by rw [hinfo]) hne
  · obtain ⟨hc, ht, hk, hn⟩ := rotation_keys_plain AngleKey (by simp)
    obtain ⟨w2, hr, hv, hframe, -⟩ := setProperty_plain u w self AngleKey
      (some (fl.printRounded (flippedAngle fl (fl.ofInt 0) axis))) hc ht hk hn
    refine ⟨w2, ?_, (hframe AnglesKey (by decide)).trans h.2.1,
      (hframe MangleKey (by decide)).trans h.2.2, ?_, fun _ => hv⟩
    · rw [← hr]
      simp [flipOrientation, hinfo, flipZAngle, setPropertyFloat, storedAngle, h.1]
    · intro hnone
      rw [hinfo] at hnone
      exact absurd hnone (by decide)

/-- C36 as stated fails: the monster of `grubWorld` is a point entity whose box is centered
on its origin, and it has no angle, angles or mangle property; its kind of rotation is
single-axis angle. A quarter turn about Z leaves it with the angle "90", a flip along X with
the angle "180" and a flip along Z with the angle "0". -/
theorem rotate90_introduces_angle :
    Unoriented (grubWorld.entities 0) ∧
    rotationInfo fixedPoint (derivedCenter fixedPoint fixedBounds) grubWorld 0 =
      { type := .RTZAngle, property := "angle" } ∧
    (∃ w', rotate90 fixedPoint (derivedCenter fixedPoint fixedBounds) quietUpdates grubWorld 0
        Axis.AZ fixedPoint.null false = .returns w' ∧
      propertyForKey (w'.entities 0) AngleKey = some "90") ∧
    (∃ w', flip fixedPoint (derivedCenter fixedPoint fixedBounds) quietUpdates grubWorld 0
        Axis.AX fixedPoint.null = .returns w' ∧
      propertyForKey (w'.entities 0) AngleKey = some "180") ∧
    (∃ w', flip fixedPoint (derivedCenter fixedPoint fixedBounds) quietUpdates grubWorld 0
        Axis.AZ fixedPoint.null = .returns w' ∧
      propertyForKey (w'.entities 0) AngleKey = some "0") :=
  ⟨⟨by decide, by decide, by decide⟩, by decide,
    ⟨(rotate90 fixedPoint (derivedCenter fixedPoint fixedBounds) quietUpdates grubWorld 0
      Axis.AZ fixedPoint.null false).get grubWorld, rfl, by decide⟩,
    ⟨(flip fixedPoint (derivedCenter fixedPoint fixedBounds) quietUpdates grubWorld 0
      Axis.AX fixedPoint.null).get grubWorld, rfl, by decide⟩,
    ⟨(flip fixedPoint (derivedCenter fixedPoint fixedBounds) quietUpdates grubWorld 0
      Axis.AZ fixedPoint.null).get grubWorld, rfl, by decide⟩⟩

/-- C36, amended: for every entity that has none of the properties angle, angles and mangle,
`rotate90`, `rotate` and `flip` return and leave angles and mangle absent. They leave angle
absent when the kind of rotation, looked up after the origin has moved, is none; `rotate90`
and `rotate` also when the rotation is not mostly about Z. When the kind is not none (it is
then single-axis angle: a centered point entity, or a light without target), a rotation
mostly about Z writes a whole number to angle, and `flip` writes the flip of the number 0,
rounded. -/
theorem unoriented_gains_only_angle {F : Type} (fl : FloatOps F) (center : CenterOf F)
    (u : MapUpdates) (w : World) (self : EntityId) (h : Unoriented (w.entities self)) :
    (∀ axis rotationCenter clockwise, ∃ w1 w',
      moveOrigin90 fl center u w self axis rotationCenter clockwise = .returns w1 ∧
      rotate90 fl center u w self axis rotationCenter clockwise = .returns w' ∧
      propertyForKey (w'.entities self) AnglesKey = none ∧
      propertyForKey (w'.entities self) MangleKey = none ∧
      ((rotationInfo fl center w1 self).type = .RTNone →
        propertyForKey (w'.entities self) AngleKey = none) ∧
      (fl.firstComponent (quarterTurn fl axis clockwise).v ≠ Axis.AZ →
        propertyForKey (w'.entities self) AngleKey = none) ∧
      ((rotationInfo fl center w1 self).type ≠ .RTNone →
        fl.firstComponent (quarterTurn fl axis clockwise).v = Axis.AZ →
        ∃ n : Int, propertyForKey (w'.entities self) AngleKey = some (toString n))) ∧
    (∀ rotation rotationCenter, ∃ w1 w',
      moveOriginRotated fl center u w self rotation rotationCenter = .returns w1 ∧
      rotate fl center u w self rotation rotationCenter = .returns w' ∧
      propertyForKey (w'.entities self) AnglesKey = none ∧
      propertyForKey (w'.entities self) MangleKey = none ∧
      ((rotationInfo fl center w1 self).type = .RTNone →
        propertyForKey (w'.entities self) AngleKey = none) ∧
      (fl.firstComponent rotation.v ≠ Axis.AZ →
        propertyForKey (w'.entities self) AngleKey = none) ∧
      ((rotationInfo fl center w1 self).type ≠ .RTNone →
        fl.firstComponent rotation.v = Axis.AZ →
        ∃ n : Int, propertyForKey (w'.entities self) AngleKey = some (toString n))) ∧
    (∀ axis flipCenter, ∃ w1 w',
      moveOriginFlipped fl center u w self axis flipCenter = .returns w1 ∧
      flip fl center u w self axis flipCenter = .returns w' ∧
      propertyForKey (w'.entities self) AnglesKey = none ∧
      propertyForKey (w'.entities self) MangleKey = none ∧
      ((rotationInfo fl center w1 self).type = .RTNone →
        propertyForKey (w'.entities self) AngleKey = none) ∧
      ((rotationInfo fl center w1 self).type ≠ .RTNone →
        propertyForKey (w'.entities self) AngleKey =
          some (fl.printRounded (flippedAngle fl (fl.ofInt 0) axis)))) := by
  refine ⟨?_, ?_, ?_⟩
  · intro axis rotationCenter clockwise
    obtain ⟨w1, hm, hframe⟩ := originMove_frame u w self _
      (moveOrigin90_cases fl center u w self axis rotationCenter clockwise)
    obtain ⟨w2, hr, h1, h2, h3, h4, h5⟩ := applyRotation_unoriented fl center u w1 self
      (quarterTurn fl axis clockwise) (unoriented_originMove h hframe)
    refine ⟨w1, invalidated w2 self, hm, by simp [rotate90, hm, hr, Outcome.bind], ?_⟩
    simp only [propertyForKey_invalidated]
    exact ⟨h1, h2, h3, h4, h5⟩
  · intro rotation rotationCenter
    obtain ⟨w1, hm, hframe⟩ := originMove_frame u w self _
      (moveOriginRotated_cases fl center u w self rotation rotationCenter)
    obtain ⟨w2, hr, h1, h2, h3, h4, h5⟩ := applyRotation_unoriented fl center u w1 self
      rotation (unoriented_originMove h hframe)
    refine ⟨w1, invalidated w2 self, hm, by simp [rotate, hm, hr, Outcome.bind], ?_⟩
    simp only [propertyForKey_invalidated]
    exact ⟨h1, h2, h3, h4, h5⟩
  · intro axis flipCenter
    obtain ⟨w1, hm, hframe⟩ := originMove_frame u w self _
      (moveOriginFlipped_cases fl center u w self axis flipCenter)
    obtain ⟨w2, hr, h1, h2, h3, h4⟩ := flipOrientation_unoriented fl center u w1 self
      axis (unoriented_originMove h hframe)
    refine ⟨w1, invalidated w2 self, hm, by simp [flip, hm, hr, Outcome.bind], ?_⟩
    simp only [propertyForKey_invalidated]
    exact ⟨h1, h2, h3, h4⟩

/-- C36, amended, at work: the monster of `grubWorld` has no orientation property. A quarter
turn about X leaves it without one; a flip along Y leaves angles and mangle absent and writes
the angle "360", the flip 360 - 0 of the number 0. -/
theorem unoriented_gains_only_angle_witness :
    Unoriented (grubWorld.entities 0) ∧
    (∃ w', rotate90 fixedPoint (derivedCenter fixedPoint fixedBounds) quietUpdates grubWorld 0
        Axis.AX fixedPoint.null false = .returns w' ∧ Unoriented (w'.entities 0)) ∧
    (∃ w', flip fixedPoint (derivedCenter fixedPoint fixedBounds) quietUpdates grubWorld 0
        Axis.AY fixedPoint.null = .returns w' ∧
      propertyForKey (w'.entities 0) AnglesKey = none ∧
      propertyForKey (w'.entities 0) MangleKey = none ∧
      propertyForKey (w'.entities 0) AngleKey = some "360") := by
  have hu : Unoriented (grubWorld.entities 0) := ⟨by decide, by decide, by decide⟩
  obtain ⟨h90, -, hflip⟩ := unoriented_gains_only_angle fixedPoint
    (derivedCenter fixedPoint fixedBounds) quietUpdates grubWorld 0 hu
  refine ⟨hu, ?_, ?_⟩
  · obtain ⟨w1, w', -, hr, h1, h2, -, h4, -⟩ := h90 Axis.AX fixedPoint.null false
    exact ⟨w', hr, h4 (by decide), h1, h2⟩
  · obtain ⟨w1, w', hm, hr, h1, h2, -, h4⟩ := hflip Axis.AY fixedPoint.null
    have hw1 : w1 = (moveOriginFlipped fixedPoint (derivedCenter fixedPoint fixedBounds)
        quietUpdates grubWorld 0 Axis.AY fixedPoint.null).get grubWorld := by
      rw [hm]
      rfl
    refine ⟨w', hr, h1, h2, ?_⟩
    rw [h4 (by rw [hw1]; decide)]
    decide

/-! ## Bulk assignment with `replace` -/

/-- Lines 534 to 537 in closed form: the store of the entity is left with the one property
spawnflags = "0", and nothing else is looked at. -/
theorem clearProperties_eq (u : MapUpdates) (w : World) (self : EntityId) :
    clearProperties u w self =
      .returns (storeValue
        (World.mk (Function.update w.entities self
          { w.entities self with m_propertyStore := [] }) w.maps w.definitions)
        self SpawnFlagsKey (some "0")) := by
  unfold clearProperties
  rw [setProperty_plain_eq u _ self SpawnFlagsKey (some "0") (by decide) (by decide)
    (by decide) (by decide)]
  simp [propertyForKey, PropertyStore.propertyValue]

/-- What `setProperties(ps, true)` with an empty list leaves: the store holds spawnflags = "0"
only, while the worldspawn flag, the registry lookups and the four adjacency lists of every
entity are as before. -/
theorem setProperties_replace_empty (u : MapUpdates) (w : World) (self : EntityId) :
    ∃ w', setProperties u w self [] true = .returns w' ∧
      (w'.entities self).m_propertyStore = [{ key := SpawnFlagsKey, value := "0" }] ∧
      (w'.entities self).m_worldspawn = (w.entities self).m_worldspawn ∧
      w'.maps = w.maps ∧
      ∀ y, (w'.entities y).m_linkTargets = (w.entities y).m_linkTargets ∧
        (w'.entities y).m_linkSources = (w.entities y).m_linkSources ∧
        (w'.entities y).m_killTargets = (w.entities y).m_killTargets ∧
        (w'.entities y).m_killSources = (w.entities y).m_killSources := by
  have hr : setProperties u w self [] true = clearProperties u w self := by
    simp only [setProperties, List.foldl_nil, if_true]
  rw [hr, clearProperties_eq]
  refine ⟨_, rfl, ?_, ?_, ?_, ?_⟩
  · simp [storeValue, invalidateGeometry, applyValue, PropertyStore.setPropertyValue]
  · simp [storeValue, invalidateGeometry]
  · simp [storeValue]
  · intro y
    by_cases hy : y = self
    · subst hy
      simp [storeValue, invalidateGeometry]
    · simp [storeValue, invalidateGeometry, Function.update_noteq hy]

/-! ## The worldspawn flag -/

theorem linkNewTarget_flag (u : MapUpdates) (w : World) (h : Heap) (self : EntityId)
    (value oldValue : Option PropertyValue) (y : EntityId) :
    ((linkNewTarget u w h self value oldValue).entities y).m_worldspawn =
      (h y).m_worldspawn := by
  unfold linkNewTarget
  split
  · rfl
  · simp only
    split
    · split_ifs
      · simp [createLinkTargets_apply]
      · simp
    · simp

theorem linkNewKillTarget_flag (u : MapUpdates) (w : World) (h : Heap) (self : EntityId)
    (value oldValue : Option PropertyValue) (y : EntityId) :
    ((linkNewKillTarget u w h self value oldValue).entities y).m_worldspawn =
      (h y).m_worldspawn := by
  unfold linkNewKillTarget
  split
  · rfl
  · simp only
    split
    · split_ifs
      · simp [createKillTargets_apply]
      · simp
    · simp

theorem linkNewTargetname_flag (u : MapUpdates) (w : World) (h : Heap) (self : EntityId)
    (value oldValue : Option PropertyValue) (y : EntityId) :
    ((linkNewTargetname u w h self value oldValue).entities y).m_worldspawn =
      (h y).m_worldspawn := by
  unfold linkNewTargetname
  split
  · rfl
  · simp only
    split
    · split_ifs
      · simp [relinkKillSources_apply, relinkLinkSources_apply]
      · simp
    · simp

theorem severOldTarget_flag {h h1 : Heap} {self : EntityId} {oldValue : Option PropertyValue}
    (hr : severOldTarget h self oldValue = .returns h1) (y : EntityId) :
    (h1 y).m_worldspawn = (h y).m_worldspawn := by
  unfold severOldTarget at hr
  split at hr
  · split_ifs at hr
    · have := (severLinkTargets_spec self _ _ h h1 rfl hr).2 y
      rw [this]
    · simp only [Outcome.returns.injEq] at hr
      subst hr
      rfl
  · simp only [Outcome.returns.injEq] at hr
    subst hr
    rfl

/-- The link branches leave the worldspawn flag of every entity as it is. -/
theorem linksChanged_flag {u : MapUpdates} {w w2 : World} {self : EntityId} {key : PropertyKey}
    {value oldValue : Option PropertyValue}
    (hr : linksChanged u w self key value oldValue = .returns w2) (y : EntityId) :
    (w2.entities y).m_worldspawn = (w.entities y).m_worldspawn := by
  unfold linksChanged at hr
  split_ifs at hr with h1 h2 h3
  · obtain ⟨h, hsev, hh⟩ := bind_returns hr
    simp only [Outcome.returns.injEq] at hh
    subst hh
    exact (linkNewTarget_flag u w h self value oldValue y).trans (severOldTarget_flag hsev y)
  · obtain ⟨h, hsev, hh⟩ := bind_returns hr
    simp only [Outcome.returns.injEq] at hh
    subst hh
    have a := linkNewKillTarget_flag u w h self value oldValue y
    have b := severOldKillTarget_eq hsev
    subst b
    exact a
  · simp only [Outcome.returns.injEq] at hr
    subst hr
    unfold targetnameChanged
    have a := linkNewTargetname_flag u w
      (unlinkKillSources (unlinkLinkSources w.entities self) self) self value oldValue y
    simp only [unlinkKillSources_apply, unlinkLinkSources_apply] at a
    exact a
  · simp only [Outcome.returns.injEq] at hr
    subst hr
    rfl

/-- The single mutation path keeps the flag in step with the store: a call of `setProperty`
that returns takes a state in which the worldspawn flag agrees with the class name to one in
which it does. -/
theorem setProperty_worldspawnAgrees {u : MapUpdates} {w w' : World} {self : EntityId}
    {key : PropertyKey} {value : Option PropertyValue}
    (hr : setProperty u w self key value = .returns w')
    (h : WorldspawnAgrees (w.entities self)) : WorldspawnAgrees (w'.entities self) := by
  rcases setProperty_returns hr with ⟨-, hw⟩ | ⟨hne, w1, w2, hc, hl, hw⟩
  · rw [hw]
    exact h
  · have hstore2 := (linksChanged_store hl self).1
    have hflag2 := linksChanged_flag hl self
    have hflag' : (w'.entities self).m_worldspawn = (w2.entities self).m_worldspawn := by
      rw [hw]
      simp [storeValue, invalidateGeometry]
    have hstore' : (w'.entities self).m_propertyStore =
        applyValue (w2.entities self).m_propertyStore key value := by
      rw [hw]
      exact storeValue_store w2 self key value
    unfold WorldspawnAgrees classname propertyForKey
    rw [hflag', hflag2, hstore', hstore2]
    by_cases hk : key = ClassnameKey
    · subst hk
      cases value with
      | none =>
        have hne2 : (none : Option PropertyValue) ≠ classname (w.entities self) :=
          fun e => hne e.symm
        simp [classnameChanged, hne2] at hc
      | some v =>
        have hne2 : some v ≠ classname (w.entities self) := fun e => hne e.symm
        simp only [classnameChanged, if_true, hne2, ne_eq, not_false_eq_true,
          Outcome.returns.injEq] at hc
        subst hc
        rw [propertyValue_applyValue_same]
        simp [setDefinition, invalidateGeometry, propertyForKey]
    · have h1 : w1 = w := by
        simp only [classnameChanged, hk, if_false, Outcome.returns.injEq] at hc
        exact hc.symm
      subst h1
      rw [propertyValue_applyValue_other _ _ _ _ (fun e => hk e.symm)]
      exact h

/-- The loop of `setProperties` keeps the flag in step with the store. -/
theorem setProperties_loop_worldspawnAgrees (u : MapUpdates) (self : EntityId)
    (properties : PropertyList) :
    ∀ (start : Outcome World) (w' : World),
      properties.foldl (fun acc property => acc.bind fun w1 =>
        setProperty u w1 self property.key (some property.value)) start = .returns w' →
      (∀ w0, start = .returns w0 → WorldspawnAgrees (w0.entities self)) →
      WorldspawnAgrees (w'.entities self) := by
  induction properties with
  | nil =>
    intro start w' hr h
    exact h w' hr
  | cons p rest ih =>
    intro start w' hr h
    simp only [List.foldl_cons] at hr
    refine ih _ w' hr ?_
    intro w0 h0
    obtain ⟨w1, hs, hp⟩ := bind_returns h0
    exact setProperty_worldspawnAgrees hp (h w1 hs)

theorem removeProperty_worldspawnAgrees {u : MapUpdates} {w w' : World} {self : EntityId}
    {key : PropertyKey} (hr : removeProperty u w self key = .passed (.returns w'))
    (h : WorldspawnAgrees (w.entities self)) : WorldspawnAgrees (w'.entities self) := by
  unfold removeProperty at hr
  split_ifs at hr
  · simp only [Asserted.passed.injEq] at hr
    exact setProperty_worldspawnAgrees hr h
  · simp only [Asserted.passed.injEq, Outcome.returns.injEq] at hr
    subst hr
    exact h

/-- Every step but the bulk assignment with `replace` keeps the worldspawn flag in step with
the store: a new entity has neither flag nor class name, and `setProperty`, `setProperties`
without `replace`, `removeProperty` and `renameProperty`, when they return, keep the
agreement. -/
theorem worldspawnAgrees_steps (u : MapUpdates) (w w' : World) (self : EntityId) :
    (newEntity u w self = .returns w' → WorldspawnAgrees (w'.entities self)) ∧
    (∀ key value, WorldspawnAgrees (w.entities self) →
      setProperty u w self key value = .returns w' → WorldspawnAgrees (w'.entities self)) ∧
    (∀ properties, WorldspawnAgrees (w.entities self) →
      setProperties u w self properties false = .returns w' →
      WorldspawnAgrees (w'.entities self)) ∧
    (∀ key, WorldspawnAgrees (w.entities self) →
      removeProperty u w self key = .passed (.returns w') →
      WorldspawnAgrees (w'.entities self)) ∧
    (∀ stale oldKey newKey, WorldspawnAgrees (w.entities self) →
      renameProperty stale u w self oldKey newKey = .passed (.returns w') →
      WorldspawnAgrees (w'.entities self)) := by
  refine ⟨?_, ?_, ?_, ?_, ?_⟩
  · intro hr
    unfold newEntity init at hr
    obtain ⟨w1, hs, hw⟩ := bind_returns hr
    simp only [Outcome.returns.injEq] at hw
    subst hw
    have h0 : WorldspawnAgrees ((World.mk (Function.update
        (World.mk (Function.update w.entities self {}) w.maps w.definitions).entities self
        { (World.mk (Function.update w.entities self {}) w.maps w.definitions).entities self
          with m_map := none, m_worldspawn := false, m_definition := none })
        w.maps w.definitions).entities self) := by
      simp [WorldspawnAgrees, classname, propertyForKey, PropertyStore.propertyValue]
    have h1 := setProperty_worldspawnAgrees hs h0
    unfold WorldspawnAgrees classname at h1 ⊢
    rw [propertyForKey_invalidated]
    simpa [invalidated, invalidateGeometry] using h1
  · intro key value h hr
    exact setProperty_worldspawnAgrees hr h
  · intro properties h hr
    unfold setProperties at hr
    refine setProperties_loop_worldspawnAgrees u self properties _ w' hr ?_
    intro w0 h0
    simp only [Bool.false_eq_true, if_false, Outcome.returns.injEq] at h0
    subst h0
    exact h
  · intro key h hr
    exact removeProperty_worldspawnAgrees hr h
  · intro stale oldKey newKey h hr
    obtain ⟨w1, h1, h2⟩ := renameProperty_returns hr
    exact setProperty_worldspawnAgrees h2 (removeProperty_worldspawnAgrees h1 h)

/-- C31: the claim fails in the code. From every reachable state in which the worldspawn
flag is set, `setProperties` with `replace` and no properties returns a reachable state in
which the flag is still set although the store no longer has a class name: line 535 clears
the store directly, past the class name branch of `setProperty` that keeps the flag. -/
theorem setProperties_replace_keeps_worldspawn_flag (u : MapUpdates) (w : World)
    (self : EntityId) (hw : Reachable u self w)
    (hflag : (w.entities self).m_worldspawn = true) :
    ∃ w', setProperties u w self [] true = .returns w' ∧ Reachable u self w' ∧
      (w'.entities self).m_worldspawn = true ∧ classname (w'.entities self) = none ∧
      ¬ WorldspawnAgrees (w'.entities self) := by
  obtain ⟨w', hr, hstore, hf, -⟩ := setProperties_replace_empty u w self
  have hc : classname (w'.entities self) = none := by
    unfold classname propertyForKey
    rw [hstore]
    decide
  refine ⟨w', hr, Reachable.setProperties w w' [] true hw hr, hf.trans hflag, hc, ?_⟩
  intro hag
  have := hag.1 (hf.trans hflag)
  rw [hc] at this
  exact absurd this (by simp)

/-- C31 at work: an entity is constructed at the address 0 of `blankWorld` and given the
class name "worldspawn", which sets its flag; after `setProperties` with `replace` and no
properties the flag is still set and the class name is gone. -/
theorem setProperties_replace_keeps_worldspawn_flag_witness :
    ∃ w0 w1 w', newEntity quietUpdates blankWorld 0 = .returns w0 ∧
      setProperty quietUpdates w0 0 ClassnameKey (some "worldspawn") = .returns w1 ∧
      WorldspawnAgrees (w1.entities 0) ∧
      setProperties quietUpdates w1 0 [] true = .returns w' ∧
      (w'.entities 0).m_worldspawn = true ∧ classname (w'.entities 0) = none ∧
      ¬ WorldspawnAgrees (w'.entities 0) := by
  have h0 : newEntity quietUpdates blankWorld 0 =
      .returns ((newEntity quietUpdates blankWorld 0).get blankWorld) := rfl
  have h1 : setProperty quietUpdates ((newEntity quietUpdates blankWorld 0).get blankWorld) 0
      ClassnameKey (some "worldspawn") =
      .returns ((setProperty quietUpdates ((newEntity quietUpdates blankWorld 0).get blankWorld)
        0 ClassnameKey (some "worldspawn")).get blankWorld) := rfl
  have hr0 := Reachable.newEntity blankWorld _ h0
  have hr1 := Reachable.setProperty _ _ ClassnameKey (some "worldspawn") hr0 h1
  obtain ⟨w', hr, -, hf, hc, hn⟩ := setProperties_replace_keeps_worldspawn_flag quietUpdates _
    0 hr1 (by decide)
  refine ⟨_, _, w', h0, h1, ?_, hr, hf, hc, hn⟩
  unfold WorldspawnAgrees
  exact ⟨fun _ => by decide, fun _ => by decide⟩

/-! ## The links after a bulk assignment with `replace` -/

/-- C34: the claim fails in the code. `setProperties` with `replace` and no properties
returns with the store holding spawnflags = "0" only, but with the registry and the four
adjacency lists of every entity as they were: line 535 clears the store directly and no link
is severed. So whenever the entity had a link target, a kill target, a link source or a kill
source before, its lists do not match its store afterwards. -/
theorem setProperties_replace_keeps_links (u : MapUpdates) (w : World) (self : EntityId) :
    ∃ w', setProperties u w self [] true = .returns w' ∧
      (w'.entities self).m_propertyStore = [{ key := SpawnFlagsKey, value := "0" }] ∧
      w'.maps = w.maps ∧
      (∀ y, (w'.entities y).m_linkTargets = (w.entities y).m_linkTargets ∧
        (w'.entities y).m_linkSources = (w.entities y).m_linkSources ∧
        (w'.entities y).m_killTargets = (w.entities y).m_killTargets ∧
        (w'.entities y).m_killSources = (w.entities y).m_killSources) ∧
      ((w.entities self).m_linkTargets ≠ [] ∨ (w.entities self).m_killTargets ≠ [] ∨
          (w.entities self).m_linkSources ≠ [] ∨ (w.entities self).m_killSources ≠ [] →
        ¬ LinksMatchStore w' self) := by
  obtain ⟨w', hr, hstore, -, hmaps, hlists⟩ := setProperties_replace_empty u w self
  refine ⟨w', hr, hstore, hmaps, hlists, ?_⟩
  intro hne hmatch
  obtain ⟨h1, h2, h3⟩ := hmatch
  obtain ⟨l1, l2, l3, l4⟩ := hlists self
  have hname : propertyForKey (w'.entities self) TargetnameKey = none := by
    unfold propertyForKey
    rw [hstore]
    decide
  rcases hne with hne | hne | hne | hne
  · cases hl : (w'.entities self).m_linkTargets with
    | nil => exact hne (l1.symm.trans hl)
    | cons t rest =>
      obtain ⟨p, hp, hnum, -⟩ := h1 t (by rw [hl]; simp)
      rw [hstore] at hp
      simp only [List.mem_singleton] at hp
      subst hp
      exact absurd hnum (by decide)
  · cases hl : (w'.entities self).m_killTargets with
    | nil => exact hne (l3.symm.trans hl)
    | cons t rest =>
      obtain ⟨p, hp, hnum, -⟩ := h2 t (by rw [hl]; simp)
      rw [hstore] at hp
      simp only [List.mem_singleton] at hp
      subst hp
      exact absurd hnum (by decide)
  · exact hne (l2.symm.trans (h3 hname).1)
  · exact hne (l4.symm.trans (h3 hname).2)

/-- C34 at work: the entity 0 of `linkedWorld` is attached, the state is symmetric, its
property target = "a" links it to entity 1 and its lists match its store. After
`setProperties` with `replace` and no properties it has no target property, entity 1 is
still its link target and still lists it as a link source. -/
theorem setProperties_replace_keeps_links_witness :
    (linkedWorld.entities 0).m_map = some 0 ∧ Symmetric linkedWorld.entities ∧
    LinksMatchStore linkedWorld 0 ∧
    ∃ w', setProperties quietUpdates linkedWorld 0 [] true = .returns w' ∧
      propertyForKey (w'.entities 0) TargetKey = none ∧
      (w'.entities 0).m_linkTargets = [1] ∧ (w'.entities 1).m_linkSources = [0] ∧
      ¬ LinksMatchStore w' 0 := by
  obtain ⟨w', hr, hstore, -, hlists, hbreak⟩ :=
    setProperties_replace_keeps_links quietUpdates linkedWorld 0
  refine ⟨rfl, linkedWorld_symmetric, ?_, w', hr, ?_, (hlists 0).1, (hlists 1).2.1,
    hbreak (Or.inl (by decide))⟩
  · refine ⟨?_, ?_, ?_⟩
    · intro t ht
      have ht1 : t = 1 := by simpa [linkedWorld] using ht
      subst ht1
      exact ⟨{ key := "target", value := "a" }, by simp [linkedWorld], by decide, by decide⟩
    · intro t ht
      simp [linkedWorld] at ht
    · intro hn
      exact ⟨rfl, rfl⟩
  · unfold propertyForKey
    rw [hstore]
    decide

/-! ## The generator of issues for plane points that are not integer -/

/-- The loop over the points of a face finds nothing exactly when every point is integer. -/
theorem findsFloatPoint_eq_false {K : Type} (isInteger : Vec3f K → Bool)
    (points : List (Vec3f K)) :
    FloatPointsIssueGenerator.findsFloatPoint isInteger points = false ↔
      ∀ p ∈ points, isInteger p = true := by
  induction points with
  | nil => simp [FloatPointsIssueGenerator.findsFloatPoint]
  | cons p rest ih =>
    unfold FloatPointsIssueGenerator.findsFloatPoint
    cases hp : isInteger p
    · simp [hp]
    · simp [hp, ih]

/-- The loop over the faces gives null exactly when every point of every face is integer, and
the new issue for the brush otherwise. -/
theorem generateLoop_spec {K : Type} (isInteger : Vec3f K → Bool) (type : IssueType)
    (brush : BrushId) (faces : List (BrushFace K)) :
    (FloatPointsIssueGenerator.generateLoop isInteger type brush faces = none ↔
      ∀ face ∈ faces, isInteger face.p0 = true ∧ isInteger face.p1 = true ∧
        isInteger face.p2 = true) ∧
    (FloatPointsIssueGenerator.generateLoop isInteger type brush faces = none ∨
      FloatPointsIssueGenerator.generateLoop isInteger type brush faces =
        some (FloatPointsIssue.new type brush)) := by
  induction faces with
  | nil => simp [FloatPointsIssueGenerator.generateLoop]
  | cons face rest ih =>
    unfold FloatPointsIssueGenerator.generateLoop
    cases hf : FloatPointsIssueGenerator.findsFloatPoint isInteger face.points
    · have hall := (findsFloatPoint_eq_false isInteger face.points).1 hf
      simp only [BrushFace.points, List.mem_cons, List.mem_singleton, List.not_mem_nil,
        or_false, forall_eq_or_imp, forall_eq] at hall
      simp only [Bool.false_eq_true, if_false, List.mem_cons, forall_eq_or_imp]
      exact ⟨⟨fun h => ⟨hall, ih.1.1 h⟩, fun h => ih.1.2 h.2⟩, ih.2⟩
    · have hnot : ¬ ∀ p ∈ face.points, isInteger p = true := by
        intro h
        rw [(findsFloatPoint_eq_false isInteger face.points).2 h] at hf
        exact absurd hf (by decide)
      simp only [if_true, List.mem_cons, forall_eq_or_imp]
      refine ⟨⟨fun h => absurd h (by simp), fun h => absurd ?_ hnot⟩, by simp⟩
      intro p hp
      simp only [BrushFace.points, List.mem_cons, List.mem_singleton, List.not_mem_nil,
        or_false] at hp
      rcases hp with hp | hp | hp
      · rw [hp]
        exact h.1.1
      · rw [hp]
        exact h.1.2.1
      · rw [hp]
        exact h.1.2.2

/-- C38: for every brush, `generate` returns; it returns null exactly when each of the three
points of every face of the brush is integer, and otherwise the one new issue, which keeps
that brush and has exactly the two quick fixes "Snap plane points to integer" (fix type 0)
and "Find integer plane points" (fix type 1), in this order; a brush without faces gives
null. -/
theorem generate_float_points_issue {K : Type} [LinearOrderedField K]
    (isInteger : Vec3f K → Bool) (type : IssueType) (brushes : BrushId → Brush K)
    (brush : BrushId) :
    ∃ result, FloatPointsIssueGenerator.generate isInteger type brushes (some brush) =
        .passed (.returns result) ∧
      (result = none ↔ ∀ face ∈ (brushes brush).faces,
        isInteger face.p0 = true ∧ isInteger face.p1 = true ∧ isInteger face.p2 = true) ∧
      (result = none ∨ result = some
        { issue :=
            { m_type := type,
              m_quickFixes :=
                [{ fixType := 0, issueType := type,
                   description := "Snap plane points to integer" },
                 { fixType := 1, issueType := type,
                   description := "Find integer plane points" }] },
          m_brush := brush }) ∧
      ((brushes brush).faces = [] → result = none) := by
  obtain ⟨h1, h2⟩ := generateLoop_spec isInteger type brush (brushes brush).faces
  refine ⟨_, rfl, h1, h2, ?_⟩
  intro he
  rw [he]
  rfl

/-- C38 at work: brush 7 of `wedgeBrushes` has the point (16, 0, 1/2) in its second face and
gets the issue; brush 8, the cube with whole points, and brush 9, which has no faces, get
none. -/
theorem generate_float_points_issue_witness :
    FloatPointsIssueGenerator.generate wholePoint 3 wedgeBrushes (some 7) =
      .passed (.returns (some
        { issue :=
            { m_type := 3,
              m_quickFixes :=
                [{ fixType := 0, issueType := 3,
                   description := "Snap plane points to integer" },
                 { fixType := 1, issueType := 3,
                   description := "Find integer plane points" }] },
          m_brush := 7 })) ∧
    FloatPointsIssueGenerator.generate wholePoint 3 wedgeBrushes (some 8) =
      .passed (.returns none) ∧
    FloatPointsIssueGenerator.generate wholePoint 3 wedgeBrushes (some 9) =
      .passed (.returns none) := by
  refine ⟨?_, ?_, ?_⟩
  · obtain ⟨result, hr, hiff, hsome, -⟩ :=
      generate_float_points_issue wholePoint 3 wedgeBrushes 7
    rw [hr]
    rcases hsome with h | h
    · have hall := hiff.1 h
      have hden : ((2 : ℚ)⁻¹).den = 2 := Rat.inv_natCast_den_of_pos (by norm_num : 0 < 2)
      simp [wedgeBrushes, Brush.faces, Brush.newBrush, wholePoint, point, hden] at hall
    · rw [h]
  · obtain ⟨result, hr, hiff, -, -⟩ :=
      generate_float_points_issue wholePoint 3 wedgeBrushes 8
    rw [hr, hiff.2]
    intro face hface
    simp only [wedgeBrushes, cube, cubeFaces, Brush.faces, Brush.newBrush, List.mem_cons,
      List.mem_singleton, List.not_mem_nil, or_false] at hface
    rcases hface with h | h | h | h | h | h <;> subst h <;> simp [wholePoint, point]
  · obtain ⟨result, hr, -, -, hempty⟩ :=
      generate_float_points_issue wholePoint 3 wedgeBrushes 9
    rw [hr, hempty rfl]

/-! ## The center of an entity without brushes -/

end Model
end TrenchBroom
